import Mathlib

/-!
# SnapCast client: the Controller's message-dispatch state machine

A shallow embedding of `SnapCastClient/controller.cpp`.  The asynchronous
callbacks of the Controller are embedded as explicit handlers, one per lambda
of the source, that transform the Controller's fields and append to a trace the
calls made on the collaborators (connection, timer, stream, player).
-/

namespace SnapCast

/-! ## Data model -/

/-- Modelled from the spec: `SampleFormat` (sample_format.hpp is not among the
sources): sample rate, bit depth and channel count. -/
structure SampleFormat where
  rate : Nat
  bits : Nat
  channels : Nat
  deriving DecidableEq, Repr, Inhabited

/-- Modelled from the spec: `msg::PcmChunk` (pcm_chunk.hpp is not among the
sources), received as a `kWireChunk` message: server timestamp, payload bytes
and the associated sample format. -/
structure PcmChunk where
  sec : Int
  usec : Int
  payload : List Nat
  format : SampleFormat
  deriving DecidableEq, Repr

/-- Server settings message (`server_settings.hpp`): `getBufferMs()` and
`getLatency()` are `int32_t` values read from the JSON body. -/
structure ServerSettings where
  bufferMs : Int
  latency : Int
  deriving DecidableEq, Repr

/-- Modelled from the spec: `msg::CodecHeader` (codec_header.hpp is not among the
sources): codec name and header blob. -/
structure CodecHeader where
  codec : String
  payload : List Nat
  deriving DecidableEq, Repr

/-- Modelled from the spec: `msg::Time` (time.hpp is not among the sources): the
fields read by the time-sync completion. -/
structure Time where
  latency : Int
  received : Int
  sent : Int
  deriving DecidableEq, Repr

/-- Modelled from the spec: the type tag carried by every message,
`message_type` (message.hpp is not among the sources). -/
inductive message_type where
  | kBase
  | kCodecHeader
  | kWireChunk
  | kServerSettings
  | kTime
  | kHello
  | kStreamTags
  | kClientInfo
  deriving DecidableEq, Repr

/-- Modelled from the spec: an inbound message, `msg::BaseMessage` and its
subclasses (message.hpp is not among the sources); the subclass determines the
type tag. -/
inductive BaseMessage where
  | Base
  | CodecHeader (h : CodecHeader)
  | WireChunk (chunk : PcmChunk)
  | ServerSettings (s : ServerSettings)
  | Time (t : Time)
  | Hello
  | StreamTags
  | ClientInfo
  deriving DecidableEq, Repr

/-- The `type` field of a message. -/
def BaseMessage.type : BaseMessage → message_type
  | .Base => .kBase
  | .CodecHeader _ => .kCodecHeader
  | .WireChunk _ => .kWireChunk
  | .ServerSettings _ => .kServerSettings
  | .Time _ => .kTime
  | .Hello => .kHello
  | .StreamTags => .kStreamTags
  | .ClientInfo => .kClientInfo

/-- Server endpoint, `ClientSettings::Server` (`client_settings.hpp`). -/
structure ClientSettings.Server where
  host : String := ""
  port : Nat := 1704
  deriving DecidableEq, Repr

/-- Player settings, `ClientSettings::Player` (`client_settings.hpp`). -/
structure ClientSettings.Player where
  player_name : String := "alsa"
  parameter : String := ""
  latency : Int := 0
  pcm_device : String := ""
  sample_format : SampleFormat := ⟨0, 0, 0⟩
  deriving DecidableEq, Repr

/-- Client settings, `ClientSettings` (`client_settings.hpp`), logging configuration left out. -/
structure ClientSettings where
  instanceId : Nat := 1
  host_id : String := ""
  server : ClientSettings.Server := {}
  player : ClientSettings.Player := {}
  deriving DecidableEq, Repr

/-- The two decoder classes the Controller can construct (controller.cpp:130,132). -/
inductive DecoderKind where
  | PcmDecoder
  | NullDecoder
  deriving DecidableEq, Repr

/-- Modelled from the spec: a decoder object (pcm_decoder.hpp and null_decoder.hpp
are not among the sources): its class and the header given to `setHeader`, if any. -/
structure Decoder where
  kind : DecoderKind
  header : Option CodecHeader := none
  deriving DecidableEq, Repr

/-- Modelled from the spec: the `Stream` class (stream.hpp is not among the
sources).  A stream is built for a sample format, `setBufferLen` sets the target
buffering depth and `addChunk` appends a decoded chunk in arrival order. -/
structure Stream where
  format : SampleFormat
  playerFormat : SampleFormat
  bufferLen : Option Int := none
  chunks : List PcmChunk := []
  deriving DecidableEq, Repr

/-- Set the target buffering depth, `Stream::setBufferLen`. -/
def Stream.setBufferLen (s : Stream) (bufferLenMs : Int) : Stream :=
  { s with bufferLen := some bufferLenMs }

/-- Append a chunk, `Stream::addChunk`. -/
def Stream.addChunk (s : Stream) (chunk : PcmChunk) : Stream :=
  { s with chunks := s.chunks ++ [chunk] }

/-- The audio output as the Controller sees it (`player.hpp`): its settings and
the `active_` flag.  A player holds its own `shared_ptr` to the stream it was
constructed with. -/
structure Player where
  settings : ClientSettings.Player
  active : Bool := false
  deriving DecidableEq, Repr

/-- Exceptions that can leave a Controller handler, by throw site. -/
inductive Exception where
  | codecNotSupported (codec : String)
  | noAudioPlayerSupport (player_name : String)
  | decoder (what : String)
  | player (what : String) (code : Int)
  deriving DecidableEq, Repr

/-- The message of an exception (`what()`). -/
def Exception.what : Exception → String
  | .codecNotSupported codec => "codec not supported: \"" ++ codec ++ "\""
  | .noAudioPlayerSupport n => "No audio player support" ++ (if n.isEmpty then "" else " for: " ++ n)
  | .decoder w => w
  | .player w _ => w

/-- Continuation registered with `timer_.async_wait`. -/
inductive TimerHandler where
  | worker
  | sendTimeSyncMessage (quick_syncs : Int)
  deriving DecidableEq, Repr

/-- Calls made by the Controller on its collaborators, in program order. -/
inductive Effect where
  | connect
  | disconnect
  | sendHello (macAddress host_id : String) (instanceId : Nat)
  | sendTimeRequest (quick_syncs : Int)
  | getNextMessage
  | setDiff (latency diff : Int)
  | timerCancel
  | timerExpiresAfter (usec : Nat)
  | timerAsyncWait (h : TimerHandler)
  | decoderDestroyed
  | streamReleased
  | streamDestroyed
  | streamCreated (format : SampleFormat)
  | setBufferLen (bufferLenMs : Int)
  | addChunk (chunk : PcmChunk)
  | playerCreated
  | playerStarted
  | playerStopped
  | playerDestroyed
  deriving DecidableEq, Repr

/-- The fields of `Controller` (`controller.hpp`). -/
structure Controller where
  settings_ : ClientSettings
  stream_ : Option Stream := none
  decoder_ : Option Decoder := none
  player_ : Option Player := none
  serverSettings_ : Option ServerSettings := none
  sampleFormat_ : SampleFormat := ⟨0, 0, 0⟩
  headerChunk_ : Option CodecHeader := none
  deriving DecidableEq, Repr

/-- Constructor `Controller::Controller`: every pointer starts out null. -/
def Controller.new (settings : ClientSettings) : Controller :=
  { settings_ := settings }

/-- Behaviour of the collaborators that the Controller calls but does not
implement: the decoders, the audio device and the host identity helpers. -/
structure Env where
  /-- Result of `decoder_->decode(chunk)`: transforms the payload in place and reports success -/
  decode : Decoder → List Nat → Bool × List Nat
  /-- Result of `decoder_->setHeader(header)`: the sample format, or the error it raises -/
  setHeader : DecoderKind → CodecHeader → Except String SampleFormat
  /-- Error raised by the `AlsaPlayer` constructor, if any -/
  alsaPlayerCtor : ClientSettings.Player → Option String
  /-- Error (message, code) raised by `AlsaPlayer::initAlsa`, if any -/
  initAlsa : ClientSettings.Player → Stream → Option (String × Int)
  /-- Result of `clientConnection_->getMacAddress()` -/
  macAddress : String
  /-- Result of `::getHostId(macAddress)` -/
  getHostId : String → String

/-! ## Handlers as state transformers -/

/-- How a handler ended. -/
inductive Outcome (α : Type) where
  | returned (a : α)
  | thrown (e : Exception)
  | nullDeref
  deriving DecidableEq, Repr

/-- Result of running a handler: how it ended, the Controller's fields and the
calls made so far. -/
structure Run (α : Type) where
  outcome : Outcome α
  ctl : Controller
  trace : List Effect
  deriving DecidableEq, Repr

/-- A piece of Controller code. -/
def Act (α : Type) : Type := Controller → List Effect → Run α

/-- Return a value. -/
def Act.pure {α : Type} (a : α) : Act α := fun c t => ⟨.returned a, c, t⟩

/-- Sequencing: a throw or a null dereference ends the handler. -/
def Act.bind {α β : Type} (m : Act α) (f : α → Act β) : Act β := fun c t =>
  match m c t with
  | ⟨.returned a, c1, t1⟩ => f a c1 t1
  | ⟨.thrown e, c1, t1⟩ => ⟨.thrown e, c1, t1⟩
  | ⟨.nullDeref, c1, t1⟩ => ⟨.nullDeref, c1, t1⟩

instance : Monad Act where
  pure := Act.pure
  bind := Act.bind

/-- Run a handler on a Controller with an empty trace. -/
def Act.run {α : Type} (m : Act α) (c : Controller) : Run α := m c []

/-- Record a call on a collaborator. -/
def emit (e : Effect) : Act Unit := fun c t => ⟨.returned (), c, t ++ [e]⟩

/-- Read the Controller's fields. -/
def getCtl : Act Controller := fun c t => ⟨.returned c, c, t⟩

/-- Update the Controller's fields. -/
def modifyCtl (f : Controller → Controller) : Act Unit := fun c t => ⟨.returned (), f c, t⟩

/-- A `throw` statement. -/
def throwEx {α : Type} (e : Exception) : Act α := fun c t => ⟨.thrown e, c, t⟩

/-- Dereference of a pointer: undefined when it is null. -/
def deref {α : Type} : Option α → Act α
  | some a => Act.pure a
  | none => fun c t => ⟨.nullDeref, c, t⟩

/-! ## Controller code -/

/-- Two's complement wrap of an integer to the 32-bit `int` range. -/
def wrapInt32 (x : Int) : Int := (x + 2147483648) % 4294967296 - 2147483648

/-- Buffering target, controller.cpp:119 and :141:
`std::max(0, serverSettings_->getBufferMs() - serverSettings_->getLatency() - settings_.player.latency)`
in `int` arithmetic. -/
def bufferLenMs (s : ServerSettings) (playerLatency : Int) : Int :=
  max 0 (wrapInt32 (wrapInt32 (s.bufferMs - s.latency) - playerLatency))

/-- Release of the decoder, `decoder_.reset()`. -/
def resetDecoder : Act Unit := do
  let c ← getCtl
  if c.decoder_.isSome then
    modifyCtl (fun c => { c with decoder_ := none })
    emit .decoderDestroyed

/-- Release of the Controller's reference to the stream, `stream_ = nullptr` or
`stream_.reset()`.  The stream is a `shared_ptr` of which a live player holds a
copy (player.cpp:43), so the object is destroyed here only if no player is left. -/
def resetStream : Act Unit := do
  let c ← getCtl
  if c.stream_.isSome then
    modifyCtl (fun c => { c with stream_ := none })
    emit .streamReleased
    if c.player_.isNone then
      emit .streamDestroyed

/-- Release of the player, `player_.reset()`: the destructor stops the player
(alsa_player.cpp:265-276), then its members go, among them its reference to the
stream, which destroys the stream if the Controller no longer holds it. -/
def resetPlayer : Act Unit := do
  let c ← getCtl
  if c.player_.isSome then
    emit .playerStopped
    modifyCtl (fun c => { c with player_ := none })
    emit .playerDestroyed
    if c.stream_.isNone then
      emit .streamDestroyed

/-- Call of `stream_->setBufferLen(v)`. -/
def streamSetBufferLen (v : Int) : Act Unit := do
  let c ← getCtl
  let s ← deref c.stream_
  modifyCtl (fun c => { c with stream_ := some (s.setBufferLen v) })
  emit (.setBufferLen v)

/-- Name of the ALSA backend, `player::ALSA`; alsa_player.hpp is not among the
sources, the value is the default `player_name{"alsa"}` of client_settings.hpp. -/
def ALSA : String := "alsa"

/-- Player factory `Controller::createPlayer<AlsaPlayer>` (controller.cpp:58-67). -/
def Controller.createPlayer (env : Env) (player_name : String) : Act (Option Player) := do
  let c ← getCtl
  if c.settings_.player.player_name.isEmpty || c.settings_.player.player_name == player_name then
    let settings : ClientSettings.Player := { c.settings_.player with player_name := player_name }
    modifyCtl (fun c => { c with settings_ := { c.settings_ with player := settings } })
    match env.alsaPlayerCtor settings with
    | some w => throwEx (.player w 0)
    | none =>
      emit .playerCreated
      return some { settings := settings }
  else
    return none

/-- Error number `EBUSY`. -/
def EBUSY : Int := 16

/-- Start of the player, `player_->start()`: `AlsaPlayer::start`
(alsa_player.cpp:247-262) followed by `Player::start` (player.cpp:65-70).  The
device is initialised for the player's stream, which is the Controller's. -/
def playerStart (env : Env) : Act Unit := do
  let c ← getCtl
  let p ← deref c.player_
  let s ← deref c.stream_
  match env.initAlsa p.settings s with
  | some (w, code) => if code ≠ -EBUSY then throwEx (.player w code) else pure ()
  | none => pure ()
  modifyCtl (fun c => { c with player_ := some { p with active := true } })
  emit .playerStarted

/-- Request for the next message, `Controller::getNextMessage` up to the
registration of its completion handler. -/
def Controller.getNextMessage : Act Unit := emit .getNextMessage

/-- Connect attempt, `Controller::worker` up to the registration of its
completion handler. -/
def Controller.worker : Act Unit := emit .connect

/-- Time-sync request, `Controller::sendTimeSyncMessage` up to the registration
of its completion handler, which captures `quick_syncs`. -/
def Controller.sendTimeSyncMessage (quick_syncs : Int) : Act Unit :=
  emit (.sendTimeRequest quick_syncs)

/-- Tear-down and rescheduling, `Controller::reconnect` (controller.cpp:212-228). -/
def Controller.reconnect : Act Unit := do
  emit .timerCancel
  emit .disconnect
  resetPlayer
  resetStream
  resetDecoder
  emit (.timerExpiresAfter 50000)
  emit (.timerAsyncWait .worker)

/-- The `kWireChunk` branch (controller.cpp:94-111). -/
def Controller.onWireChunk (env : Env) (chunk : PcmChunk) : Act Unit := do
  let c ← getCtl
  match c.stream_, c.decoder_ with
  | some s, some d =>
    let pcmChunk : PcmChunk := { chunk with format := c.sampleFormat_ }
    let r := env.decode d pcmChunk.payload
    if r.1 then
      let decoded : PcmChunk := { pcmChunk with payload := r.2 }
      modifyCtl (fun c => { c with stream_ := some (s.addChunk decoded) })
      emit (.addChunk decoded)
  | _, _ => pure ()

/-- Buffering target applied to the stream, controller.cpp:119 and :141:
`stream_->setBufferLen(std::max(0, serverSettings_->getBufferMs() - ...))`. -/
def Controller.applyBufferLen : Act Unit := do
  let c ← getCtl
  let ss ← deref c.serverSettings_
  streamSetBufferLen (bufferLenMs ss c.settings_.player.latency)

/-- The `kServerSettings` branch (controller.cpp:112-121). -/
def Controller.onServerSettings (s : ServerSettings) : Act Unit := do
  modifyCtl (fun c => { c with serverSettings_ := some s })
  let c ← getCtl
  if c.stream_.isSome && c.player_.isSome then
    Controller.applyBufferLen

/-- Construction of the decoder named by the header (controller.cpp:129-134). -/
def Controller.makeDecoder (h : CodecHeader) : Act Unit :=
  if h.codec = "pcm" then
    modifyCtl (fun c => { c with decoder_ := some { kind := .PcmDecoder } })
  else if h.codec = "null" then
    modifyCtl (fun c => { c with decoder_ := some { kind := .NullDecoder } })
  else
    throwEx (.codecNotSupported h.codec)

/-- Header handed to the decoder, controller.cpp:136:
`sampleFormat_ = decoder_->setHeader(headerChunk_.get())`. -/
def Controller.setHeader (env : Env) : Act Unit := do
  let c ← getCtl
  let d ← deref c.decoder_
  let h ← deref c.headerChunk_
  match env.setHeader d.kind h with
  | .error w => throwEx (.decoder w)
  | .ok sf => modifyCtl (fun c => { c with sampleFormat_ := sf, decoder_ := some { d with header := some h } })

/-- Construction of the stream, controller.cpp:139:
`stream_ = make_shared<Stream>(sampleFormat_, settings_.player.sample_format)`. -/
def Controller.makeStream : Act Unit := do
  let c ← getCtl
  modifyCtl (fun c => { c with stream_ := some { format := c.sampleFormat_, playerFormat := c.settings_.player.sample_format } })
  emit (.streamCreated c.sampleFormat_)

/-- Construction of the player (controller.cpp:143-149). -/
def Controller.makePlayer (env : Env) : Act Unit := do
  if (← getCtl).player_.isNone then
    let p ← Controller.createPlayer env ALSA
    modifyCtl (fun c => { c with player_ := p })
  let c ← getCtl
  if c.player_.isNone then
    throwEx (.noAudioPlayerSupport c.settings_.player.player_name)

/-- The `kCodecHeader` branch (controller.cpp:122-152). -/
def Controller.onCodecHeader (env : Env) (h : CodecHeader) : Act Unit := do
  modifyCtl (fun c => { c with headerChunk_ := some h })
  resetDecoder
  resetStream
  resetPlayer
  Controller.makeDecoder h
  Controller.setHeader env
  Controller.makeStream
  Controller.applyBufferLen
  Controller.makePlayer env
  playerStart env

/-- Dispatch on the type tag of a message (controller.cpp:94-156). -/
def Controller.dispatch (env : Env) : BaseMessage → Act Unit
  | .WireChunk chunk => Controller.onWireChunk env chunk
  | .ServerSettings s => Controller.onServerSettings s
  | .CodecHeader h => Controller.onCodecHeader env h
  | _ => pure ()

/-- Completion handler of `getNextMessage` (controller.cpp:81-158): `ec` is the
error code, `response` the message, absent when null. -/
def Controller.onMessage (env : Env) (ec : Int) (response : Option BaseMessage) : Act Unit :=
  if ec ≠ 0 then
    Controller.reconnect
  else
    match response with
    | none => Controller.getNextMessage
    | some msg => do
      Controller.dispatch env msg
      Controller.getNextMessage

/-- Steady-state interval between time syncs, in microseconds (`1s`). -/
def TIME_SYNC_INTERVAL : Nat := 1000000

/-- Counter and delay computed by the time-sync completion
(controller.cpp:179-186): the new `quick_syncs` and `next` in microseconds. -/
def nextTimeSync (quick_syncs : Int) : Int × Nat :=
  if quick_syncs > 0 then (quick_syncs - 1, 100) else (quick_syncs, TIME_SYNC_INTERVAL)

/-- Completion handler of the time-sync request (controller.cpp:166-196). -/
def Controller.onTimeResponse (quick_syncs : Int) (ec : Int) (response : Option Time) : Act Unit :=
  if ec ≠ 0 then
    Controller.reconnect
  else do
    let r ← deref response
    emit (.setDiff r.latency (r.received - r.sent))
    emit (.timerExpiresAfter (nextTimeSync quick_syncs).2)
    emit (.timerAsyncWait (.sendTimeSyncMessage (nextTimeSync quick_syncs).1))

/-- Completion handler of a timer wait (controller.cpp:189-195 and :221-227). -/
def Controller.onTimer (h : TimerHandler) (ec : Int) : Act Unit :=
  if ec = 0 then
    match h with
    | .worker => Controller.worker
    | .sendTimeSyncMessage quick_syncs => Controller.sendTimeSyncMessage quick_syncs
  else
    pure ()

/-- Completion handler of the Hello request (controller.cpp:246-260). -/
def Controller.onHelloResponse (ec : Int) (response : Option ServerSettings) : Act Unit :=
  if ec ≠ 0 then
    Controller.reconnect
  else do
    modifyCtl (fun c => { c with serverSettings_ := response })
    let _ ← deref response

/-- Completion handler of the connect attempt (controller.cpp:233-272). -/
def Controller.onConnect (env : Env) (ec : Int) : Act Unit :=
  if ec = 0 then do
    let macAddress := env.macAddress
    if (← getCtl).settings_.host_id.isEmpty then
      modifyCtl (fun c => { c with settings_ := { c.settings_ with host_id := env.getHostId macAddress } })
    let c ← getCtl
    emit (.sendHello macAddress c.settings_.host_id c.settings_.instanceId)
    Controller.sendTimeSyncMessage 50
    Controller.getNextMessage
  else
    Controller.reconnect

/-- Entry point `Controller::start` (controller.cpp:199-203). -/
def Controller.start : Act Unit := Controller.worker

/-! ## A test environment -/

/-- An environment in which both decoders accept every chunk and header and the
audio device opens. -/
def Env.test : Env where
  decode := fun _ payload => (true, payload)
  setHeader := fun _ _ => .ok ⟨48000, 16, 2⟩
  alsaPlayerCtor := fun _ => none
  initAlsa := fun _ _ => none
  macAddress := "00:11:22:33:44:55"
  getHostId := fun mac => mac

/-! ## Closed forms used in the proofs -/

/-- Calls made by the tear-down at the start of the CodecHeader branch. -/
def teardownTrace (c : Controller) : List Effect :=
  (if c.decoder_.isSome then [.decoderDestroyed] else []) ++
  (if c.stream_.isSome then (.streamReleased :: if c.player_.isNone then [.streamDestroyed] else []) else []) ++
  (if c.player_.isSome then [.playerStopped, .playerDestroyed, .streamDestroyed] else [])

/-- Fields of the Controller once a decoder of class `kind` has accepted the
header `h` with sample format `sf` and a new stream with buffer length
`bufferLen` has been made. -/
def Controller.withChain (c : Controller) (kind : DecoderKind) (h : CodecHeader) (sf : SampleFormat)
    (bufferLen : Option Int) : Controller :=
  { c with
    decoder_ := some { kind := kind, header := some h }
    sampleFormat_ := sf
    stream_ := some { format := sf, playerFormat := c.settings_.player.sample_format, bufferLen := bufferLen } }

/-- Player settings after `createPlayer` has accepted the name `ALSA`. -/
def Controller.alsaSettings (c : Controller) : ClientSettings.Player :=
  { c.settings_.player with player_name := ALSA }

/-- Fields of the Controller after `createPlayer` has accepted the name `ALSA`;
`active` is absent when the constructor raised, else the player's `active_`. -/
def Controller.withPlayer (c : Controller) (active : Option Bool) : Controller :=
  { c with
    settings_ := { c.settings_ with player := c.alsaSettings }
    player_ := active.map (fun a => { settings := c.alsaSettings, active := a }) }

/-- Closed form of the CodecHeader branch from `setHeader` on (controller.cpp:136-151),
for a Controller whose decoder of class `kind` has just been made. -/
def chainRun (env : Env) (h : CodecHeader) (kind : DecoderKind) (c : Controller) (t : List Effect) : Run Unit :=
  match env.setHeader kind h with
  | .error w => ⟨.thrown (.decoder w), c, t⟩
  | .ok sf =>
    match c.serverSettings_ with
    | none => ⟨.nullDeref, c.withChain kind h sf none, t ++ [.streamCreated sf]⟩
    | some ss =>
      if c.settings_.player.player_name.isEmpty || c.settings_.player.player_name == ALSA then
        match env.alsaPlayerCtor c.alsaSettings with
        | some w => ⟨.thrown (.player w 0),
            (c.withChain kind h sf (some (bufferLenMs ss c.settings_.player.latency))).withPlayer none,
            t ++ [.streamCreated sf, .setBufferLen (bufferLenMs ss c.settings_.player.latency)]⟩
        | none =>
          match env.initAlsa c.alsaSettings
              { format := sf, playerFormat := c.settings_.player.sample_format,
                bufferLen := some (bufferLenMs ss c.settings_.player.latency) } with
          | some (w, code) =>
            if code ≠ -EBUSY then
              ⟨.thrown (.player w code),
                (c.withChain kind h sf (some (bufferLenMs ss c.settings_.player.latency))).withPlayer (some false),
                t ++ [.streamCreated sf, .setBufferLen (bufferLenMs ss c.settings_.player.latency), .playerCreated]⟩
            else
              ⟨.returned (),
                (c.withChain kind h sf (some (bufferLenMs ss c.settings_.player.latency))).withPlayer (some true),
                t ++ [.streamCreated sf, .setBufferLen (bufferLenMs ss c.settings_.player.latency), .playerCreated,
                  .playerStarted]⟩
          | none =>
            ⟨.returned (),
              (c.withChain kind h sf (some (bufferLenMs ss c.settings_.player.latency))).withPlayer (some true),
              t ++ [.streamCreated sf, .setBufferLen (bufferLenMs ss c.settings_.player.latency), .playerCreated,
                .playerStarted]⟩
      else
        ⟨.thrown (.noAudioPlayerSupport c.settings_.player.player_name),
          c.withChain kind h sf (some (bufferLenMs ss c.settings_.player.latency)),
          t ++ [.streamCreated sf, .setBufferLen (bufferLenMs ss c.settings_.player.latency)]⟩

/-- Fields of the Controller after the tear-down that opens the CodecHeader
branch (controller.cpp:124-127). -/
def Controller.tornDown (c : Controller) (h : CodecHeader) : Controller :=
  { c with headerChunk_ := some h, decoder_ := none, stream_ := none, player_ := none }

/-- The value is representable as a 32-bit `int`. -/
def fitsInt32 (x : Int) : Prop := -2147483648 ≤ x ∧ x ≤ 2147483647

/-- Calls made by the releases in `reconnect` (controller.cpp:216-218). -/
def releaseTrace (c : Controller) : List Effect :=
  (if c.player_.isSome then
    (.playerStopped :: .playerDestroyed :: if c.stream_.isNone then [.streamDestroyed] else []) else []) ++
  (if c.stream_.isSome then [.streamReleased, .streamDestroyed] else []) ++
  (if c.decoder_.isSome then [.decoderDestroyed] else [])

/-- Settings after the connect completion has filled in an empty host id
(controller.cpp:239-240). -/
def Controller.withHostId (env : Env) (c : Controller) : Controller :=
  if c.settings_.host_id.isEmpty then
    { c with settings_ := { c.settings_ with host_id := env.getHostId env.macAddress } }
  else c

/-- A Controller that has stored server settings: buffer 1000 ms, latency 0. -/
def Controller.greeted : Controller :=
  { Controller.new {} with serverSettings_ := some ⟨1000, 0⟩ }

/-- A Controller in the streaming state: the fields after a "pcm" CodecHeader
has been handled in the test environment. -/
def Controller.streaming : Controller :=
  ((Controller.onMessage Env.test 0 (some (.CodecHeader ⟨"pcm", []⟩))).run Controller.greeted).ctl

/-- The first time-sync request recorded in a trace: its `quick_syncs`. -/
def sentTimeRequest : List Effect → Option Int
  | [] => none
  | .sendTimeRequest q :: _ => some q
  | _ :: t => sentTimeRequest t

/-- The first timer wait recorded in a trace: the expiry set just before it, in
microseconds, and the handler registered. -/
def scheduledWait : List Effect → Option (Nat × TimerHandler)
  | .timerExpiresAfter us :: .timerAsyncWait h :: _ => some (us, h)
  | _ :: t => scheduledWait t
  | [] => none

/-- One round of the time-sync loop: the outstanding request, sent with
`quick_syncs`, is answered without error and the timer wait registered by the
completion expires without error.  Yields the delay that was scheduled and the
`quick_syncs` of the request sent next. -/
def syncRound (c : Controller) (r : Time) (quick_syncs : Int) : Option (Nat × Int) :=
  match scheduledWait ((Controller.onTimeResponse quick_syncs 0 (some r)).run c).trace with
  | some (us, h) =>
    match sentTimeRequest ((Controller.onTimer h 0).run c).trace with
    | some q => some (us, q)
    | none => none
  | none => none

/-- The first `n` rounds of the time-sync loop from a request sent with
`quick_syncs`: per round the delay scheduled and the counter carried on. -/
def syncRounds (c : Controller) (r : Time) : Nat → Int → List (Nat × Int)
  | 0, _ => []
  | n + 1, quick_syncs =>
    match syncRound c r quick_syncs with
    | some (us, q) => (us, q) :: syncRounds c r n q
    | none => []

/-- The receive loop: successive `getNextMessage` completions that deliver the
messages of a list in order, without transport error. -/
def Controller.receive (env : Env) : List BaseMessage → Act Unit
  | [] => pure ()
  | msg :: rest => do
    Controller.onMessage env 0 (some msg)
    Controller.receive env rest

/-- The chunks that the WireChunk messages of a list put on the stream when
decoded by `d` and stamped with `sf`, in order. -/
def decodedChunks (env : Env) (d : Decoder) (sf : SampleFormat) : List BaseMessage → List PcmChunk
  | [] => []
  | .WireChunk chunk :: rest =>
    if (env.decode d chunk.payload).1 then
      { chunk with format := sf, payload := (env.decode d chunk.payload).2 } :: decodedChunks env d sf rest
    else decodedChunks env d sf rest
  | _ :: rest => decodedChunks env d sf rest

/-- A "pcm" codec header. -/
def CodecHeader.pcm : CodecHeader := ⟨"pcm", [82, 73, 70, 70]⟩

/-- An audio chunk as received: two payload bytes, no format yet. -/
def PcmChunk.sample (sec : Int) : PcmChunk := ⟨sec, 0, [1, 2], ⟨0, 0, 0⟩⟩

/-- Messages received after a codec header: chunks, new settings, a stray Time. -/
def BaseMessage.afterHeader : List BaseMessage :=
  [.WireChunk (PcmChunk.sample 1), .ServerSettings ⟨800, 100⟩, .Time ⟨0, 0, 0⟩,
    .WireChunk (PcmChunk.sample 2)]

/-! ## The ALSA player (alsa_player.cpp, player.cpp) -/

/-- Modelled from the spec: `SnapException` (snap_exception.hpp is not among the
sources): a message and an error code, 0 when the throw site gives none. -/
structure SnapException where
  what : String
  code : Int := 0
  deriving DecidableEq, Repr

/-- Error number `EPIPE`. -/
def EPIPE : Int := 32

/-- Error number `EINVAL`. -/
def EINVAL : Int := 22

/-- Sample formats of the device that `initAlsa` can request. -/
inductive snd_pcm_format_t where
  | S8
  | U8
  | S16_LE
  | S24_LE
  | S32_LE
  deriving DecidableEq, Repr

/-- Answers of the sound device and of the helpers that `initAlsa` calls: the
return value of each ALSA call and, for the calls with an in/out argument, the
value written back. -/
structure AlsaEnv where
  /-- Bytes per sample of a format, `format.sampleSize()` -/
  sampleSize : SampleFormat → Nat
  /-- Text of an error code, `snd_strerror` -/
  snd_strerror : Int → String
  /-- Result of `snd_pcm_open` for a device name -/
  snd_pcm_open : String → Int
  /-- Result of `snd_pcm_hw_params_any` -/
  snd_pcm_hw_params_any : Int
  /-- Result of `snd_pcm_hw_params_set_access` -/
  snd_pcm_hw_params_set_access : Int
  /-- Result of `snd_pcm_hw_params_set_format` for a format -/
  snd_pcm_hw_params_set_format : snd_pcm_format_t → Int
  /-- Names of the formats the device accepts, as listed in the error message -/
  supportedFormats : String
  /-- Result of `snd_pcm_hw_params_set_channels` for a channel count -/
  snd_pcm_hw_params_set_channels : Nat → Int
  /-- Result of `snd_pcm_hw_params_set_rate_near` and the rate chosen -/
  snd_pcm_hw_params_set_rate_near : Nat → Int × Nat
  /-- Result of `snd_pcm_hw_params_get_period_time_max` and the maximum -/
  snd_pcm_hw_params_get_period_time_max : Int × Nat
  /-- Result of `snd_pcm_hw_params_get_period_time_min` and the minimum -/
  snd_pcm_hw_params_get_period_time_min : Int × Nat
  /-- Result of `snd_pcm_hw_params_set_period_time_near` and the time chosen -/
  snd_pcm_hw_params_set_period_time_near : Nat → Int × Nat
  /-- Result of `snd_pcm_hw_params_set_buffer_time_near` and the time chosen -/
  snd_pcm_hw_params_set_buffer_time_near : Nat → Int × Nat
  /-- Result of `snd_pcm_hw_params` -/
  snd_pcm_hw_params : Int
  /-- Period size reported by `snd_pcm_hw_params_get_period_size` -/
  snd_pcm_hw_params_get_period_size : Nat

/-- Duration of `n` milliseconds as a count of microseconds
(`std::chrono::milliseconds(n)` stored in a microseconds duration). -/
def milliseconds (n : Int) : Int := 1000 * n

/-- Default buffer time `BUFFER_TIME = 80ms`, in microseconds (alsa_player.cpp:42). -/
def BUFFER_TIME : Int := milliseconds 80

/-- Default period count `PERIODS` (alsa_player.cpp:43). -/
def PERIODS : Int := 4

/-- Minimum period count `MIN_PERIODS` (alsa_player.cpp:44). -/
def MIN_PERIODS : Int := 3

/-- The fields of `AlsaPlayer` and of its base class `Player` that the code in
alsa_player.cpp and player.cpp reads and writes.  `handle_` tells whether the
device handle is non-null, `playerThread_` whether the worker thread has been
started, `format` is `stream_->getFormat()`, `buffer_` the size of the buffer
in bytes; `buffer_time_` is kept in microseconds. -/
structure AlsaPlayer where
  settings_ : ClientSettings.Player
  format : SampleFormat
  active_ : Bool := false
  playerThread_ : Bool := false
  handle_ : Bool := false
  buffer_time_ : Option Int := none
  periods_ : Option Int := none
  frames_ : Nat := 0
  volCorrection_ : Nat := 1
  buffer_ : Nat := 0
  deriving DecidableEq, Repr

/-- Constructor `AlsaPlayer::AlsaPlayer` (alsa_player.cpp:52-64).  `params` is
the map returned by `utils::string::split_pairs(settings.parameter, ',', '=')`
and `stoi` is `cpt::stoi`, absent when it raises; neither helper is among the
sources.  The result is absent when the constructor raises. -/
def AlsaPlayer.new (params : String → Option String) (stoi : String → Option Int)
    (settings : ClientSettings.Player) (format : SampleFormat) : Option AlsaPlayer :=
  let p : AlsaPlayer := { settings_ := settings, format := format }
  let p1 : Option AlsaPlayer :=
    match params "buffer_time" with
    | some s =>
      match stoi s with
      | some v => some { p with buffer_time_ := some (milliseconds (max v 10)) }
      | none => none
    | none => some p
  match p1 with
  | none => none
  | some p1 =>
    match params "fragments" with
    | some s =>
      match stoi s with
      | some f => some { p1 with periods_ := some (max f 2) }
      | none => none
    | none => some p1

/-- Two's complement wrap of an integer to `uint32_t`. -/
def wrapUInt32 (x : Int) : Nat := (x % 4294967296).toNat

/-- The device format chosen for a sample format (alsa_player.cpp:106-116),
absent when `initAlsa` raises "Unsupported sample format". -/
def AlsaPlayer.pcmFormat (bits sampleSize : Nat) : Option snd_pcm_format_t :=
  if bits = 8 then some .S8
  else if bits = 16 then some .S16_LE
  else if bits = 24 ∧ sampleSize = 4 then some .S24_LE
  else if bits = 32 then some .S32_LE
  else none

/-- The format requested at the second `snd_pcm_hw_params_set_format` call
(alsa_player.cpp:118-131). -/
def AlsaPlayer.fallbackFormat (err : Int) (f : snd_pcm_format_t) : snd_pcm_format_t :=
  if err = -EINVAL then
    (if (if f = .S24_LE then snd_pcm_format_t.S32_LE else f) = .S8 then .U8
     else (if f = .S24_LE then .S32_LE else f))
  else f

/-- Period time before it is passed to the device (alsa_player.cpp:154-181):
the quotient, limited by the device maximum and minimum when they are known. -/
def AlsaPlayer.periodTime (alsa : AlsaEnv) (p : AlsaPlayer) : Nat :=
  let period_time := wrapUInt32 ((p.buffer_time_.getD BUFFER_TIME).tdiv (p.periods_.getD PERIODS))
  let period_time :=
    if alsa.snd_pcm_hw_params_get_period_time_max.1 < 0 then period_time
    else if period_time > alsa.snd_pcm_hw_params_get_period_time_max.2 then
      alsa.snd_pcm_hw_params_get_period_time_max.2
    else period_time
  if alsa.snd_pcm_hw_params_get_period_time_min.1 < 0 then period_time
  else if period_time < alsa.snd_pcm_hw_params_get_period_time_min.2 then
    alsa.snd_pcm_hw_params_get_period_time_min.2
  else period_time

/-- Buffer time before it is passed to the device (alsa_player.cpp:186-195), for
the period time the device has chosen. -/
def AlsaPlayer.bufferTime (p : AlsaPlayer) (period_time : Nat) : Nat :=
  let buffer_time := wrapUInt32 (p.buffer_time_.getD BUFFER_TIME)
  let periods := wrapUInt32 (p.periods_.getD MIN_PERIODS)
  if buffer_time < (period_time * periods) % 4294967296 then (period_time * periods) % 4294967296
  else buffer_time

/-- Device initialisation `AlsaPlayer::initAlsa` (alsa_player.cpp:67-232): the
player afterwards and the exception raised, if any. -/
def AlsaPlayer.initAlsa (alsa : AlsaEnv) (p : AlsaPlayer) : AlsaPlayer × Option SnapException :=
  let err := alsa.snd_pcm_open p.settings_.pcm_device
  if err < 0 then
    (p, some ⟨"Can't open " ++ p.settings_.pcm_device ++ ", error: " ++ alsa.snd_strerror err, err⟩)
  else
  let p := { p with handle_ := true }
  if alsa.snd_pcm_hw_params_any < 0 then
    (p, some ⟨"Can't fill params: " ++ alsa.snd_strerror alsa.snd_pcm_hw_params_any, 0⟩)
  else if alsa.snd_pcm_hw_params_set_access < 0 then
    (p, some ⟨"Can't set interleaved mode: " ++ alsa.snd_strerror alsa.snd_pcm_hw_params_set_access, 0⟩)
  else
  match AlsaPlayer.pcmFormat p.format.bits (alsa.sampleSize p.format) with
  | none => (p, some ⟨"Unsupported sample format: " ++ toString p.format.bits, 0⟩)
  | some f =>
  let err := alsa.snd_pcm_hw_params_set_format f
  let p := if err = -EINVAL ∧ f = .S24_LE then { p with volCorrection_ := 256 } else p
  let f := AlsaPlayer.fallbackFormat err f
  let err := alsa.snd_pcm_hw_params_set_format f
  if err < 0 then
    (p, some ⟨"Can't set format: " ++ alsa.snd_strerror err ++ ", supported: " ++ alsa.supportedFormats, 0⟩)
  else if alsa.snd_pcm_hw_params_set_channels p.format.channels < 0 then
    (p, some ⟨"Can't set channel count: " ++
      alsa.snd_strerror (alsa.snd_pcm_hw_params_set_channels p.format.channels), 0⟩)
  else if (alsa.snd_pcm_hw_params_set_rate_near p.format.rate).1 < 0 then
    (p, some ⟨"Can't set rate: " ++ alsa.snd_strerror (alsa.snd_pcm_hw_params_set_rate_near p.format.rate).1, 0⟩)
  else
  let period := alsa.snd_pcm_hw_params_set_period_time_near (AlsaPlayer.periodTime alsa p)
  if period.1 < 0 then
    (p, some ⟨"Can't set period time: " ++ alsa.snd_strerror period.1, 0⟩)
  else
  let buffer := alsa.snd_pcm_hw_params_set_buffer_time_near (AlsaPlayer.bufferTime p period.2)
  if buffer.1 < 0 then
    (p, some ⟨"Can't set buffer time to " ++ toString (AlsaPlayer.bufferTime p period.2) ++ " us : " ++
      alsa.snd_strerror buffer.1, 0⟩)
  else if alsa.snd_pcm_hw_params < 0 then
    (p, some ⟨"Can't set hardware parameters: " ++ alsa.snd_strerror alsa.snd_pcm_hw_params, 0⟩)
  else
    ({ p with frames_ := alsa.snd_pcm_hw_params_get_period_size }, none)

/-- Release of the device, `AlsaPlayer::uninitAlsa` (alsa_player.cpp:235-245). -/
def AlsaPlayer.uninitAlsa (p : AlsaPlayer) : AlsaPlayer :=
  if p.handle_ then { p with handle_ := false } else p

/-- Base class start, `Player::start` (player.cpp:65-70); `needsThread()` is
true for the ALSA player (alsa_player.cpp:278-281). -/
def Player.start (p : AlsaPlayer) : AlsaPlayer :=
  { p with active_ := true, playerThread_ := true }

/-- Start of the ALSA player, `AlsaPlayer::start` (alsa_player.cpp:247-262): the
player afterwards and the exception that leaves `start`, if any. -/
def AlsaPlayer.start (alsa : AlsaEnv) (p : AlsaPlayer) : AlsaPlayer × Option SnapException :=
  match p.initAlsa alsa with
  | (p1, some e) => if e.code ≠ -EBUSY then (p1, some e) else (Player.start p1, none)
  | (p1, none) => (Player.start p1, none)

/-- Device and stream calls made by the worker loop, in program order. -/
inductive AlsaOp where
  | initAlsa
  | sleep (ms : Nat)
  | snd_pcm_wait
  | snd_pcm_prepare
  | getAvailDelay
  | sleepNoFrames
  | getPlayerChunk (frames : Int)
  | snd_pcm_writei (frames : Int)
  | uninitAlsa
  | waitForChunk
  | clearChunks
  deriving DecidableEq, Repr

/-- The worker thread: the player, the local variables of `AlsaPlayer::worker`
and the calls made so far. -/
structure Worker where
  player : AlsaPlayer
  lastChunkTick : Int
  framesAvail : Int := 0
  framesDelay : Int := 0
  ops : List AlsaOp := []
  deriving DecidableEq, Repr

/-- Answers of the device to the calls of `getAvailDelay`: result, available
frames and delay of `snd_pcm_avail_delay`, the value of `snd_pcm_avail`, result
and delay of `snd_pcm_delay`. -/
structure AvailDelay where
  snd_pcm_avail_delay : Int × Int × Int
  snd_pcm_avail : Int
  snd_pcm_delay : Int × Int

/-- What the device, the stream and the clock answer during one pass of the
worker loop. `starved` lists the tick count read at alsa_player.cpp:406 in each
pass of the inner loop, one per `waitForChunk(100ms)` that timed out. -/
structure Pass where
  alsa : AlsaEnv
  wait_result : Int
  availDelay : AvailDelay
  frameSize : Nat
  gotChunk : Bool
  tick : Int
  pcm : Int
  starved : List Int

/-- Two's complement wrap of an integer to `snd_pcm_sframes_t` (`long`, 64 bits). -/
def wrapSFrames (x : Int) : Int := (x + 9223372036854775808) % 18446744073709551616 - 9223372036854775808

/-- Available frames and delay, `AlsaPlayer::getAvailDelay`
(alsa_player.cpp:284-310): success, `avail` and `delay` afterwards.  The
assignment `avail = frames_` converts the unsigned period size to
`snd_pcm_sframes_t`. -/
def AlsaPlayer.getAvailDelay (d : AvailDelay) (p : AlsaPlayer) : Bool × Int × Int :=
  if d.snd_pcm_avail_delay.1 < 0 then
    if d.snd_pcm_delay.1 < 0 ∨ d.snd_pcm_delay.2 < 0 then
      (false, d.snd_pcm_avail, d.snd_pcm_delay.2)
    else
      (true, if d.snd_pcm_avail < 0 then wrapSFrames p.frames_ else d.snd_pcm_avail, d.snd_pcm_delay.2)
  else
    (true, if d.snd_pcm_avail_delay.2.1 < 0 then wrapSFrames p.frames_ else d.snd_pcm_avail_delay.2.1,
      d.snd_pcm_avail_delay.2.2)

/-- Handling of the result of `snd_pcm_writei` (alsa_player.cpp:387-396). -/
def AlsaPlayer.afterWrite (pcm : Int) (w : Worker) : Worker :=
  if pcm = -EPIPE then
    { w with ops := w.ops ++ [.snd_pcm_prepare] }
  else if pcm < 0 then
    { w with player := w.player.uninitAlsa, ops := w.ops ++ [.uninitAlsa] }
  else w

/-- One pass of the inner loop of the worker (alsa_player.cpp:401-412), entered
after a `waitForChunk(100ms)` that timed out; `tick` is `getTickCount()`. -/
def AlsaPlayer.starvePass (tick : Int) (w : Worker) : Worker :=
  if w.player.handle_ = true ∧ tick - w.lastChunkTick > 5000 then
    { w with player := w.player.uninitAlsa, ops := w.ops ++ [.waitForChunk, .uninitAlsa, .clearChunks] }
  else
    { w with ops := w.ops ++ [.waitForChunk] }

/-- The inner loop of the worker while `waitForChunk` keeps timing out. -/
def AlsaPlayer.starve : List Int → Worker → Worker
  | [], w => w
  | tick :: rest, w => AlsaPlayer.starve rest (AlsaPlayer.starvePass tick w)

/-- Two's complement wrap of an integer to `size_t` (64 bits). -/
def wrapSize (x : Int) : Nat := (x % 18446744073709551616).toNat

/-- The worker pass from `getAvailDelay` on (alsa_player.cpp:354-413). -/
def AlsaPlayer.workerPull (it : Pass) (w : Worker) : Worker :=
  let r := w.player.getAvailDelay it.availDelay
  let w1 : Worker :=
    { w with framesAvail := r.2.1, framesDelay := r.2.2, ops := w.ops ++ [AlsaOp.getAvailDelay] }
  if r.1 = false then
    { w1 with ops := w1.ops ++ [AlsaOp.sleep 10, AlsaOp.snd_pcm_prepare] }
  else if w1.framesAvail = 0 then
    { w1 with ops := w1.ops ++ [AlsaOp.sleepNoFrames] }
  else
    let w2 : Worker :=
      { w1 with
        player :=
          if w1.player.buffer_ < wrapSize (w1.framesAvail * it.frameSize) then
            { w1.player with buffer_ := wrapSize (w1.framesAvail * it.frameSize) }
          else w1.player }
    let w3 : Worker := { w2 with ops := w2.ops ++ [AlsaOp.getPlayerChunk w2.framesAvail] }
    if it.gotChunk then
      AlsaPlayer.afterWrite it.pcm
        { w3 with lastChunkTick := it.tick, ops := w3.ops ++ [AlsaOp.snd_pcm_writei w3.framesAvail] }
    else
      AlsaPlayer.starve it.starved w3

/-- The worker pass up to the device wait (alsa_player.cpp:322-335): the device
is initialised when the handle is null. -/
def AlsaPlayer.workerInit (it : Pass) (w : Worker) : Worker :=
  if w.player.handle_ then w
  else
    match w.player.initAlsa it.alsa with
    | (p, some _) => { w with player := p, ops := w.ops ++ [AlsaOp.initAlsa, AlsaOp.sleep 100] }
    | (p, none) => { w with player := p, ops := w.ops ++ [AlsaOp.initAlsa] }

/-- One pass of the outer loop of `AlsaPlayer::worker` (alsa_player.cpp:320-414). -/
def AlsaPlayer.workerPass (it : Pass) (w : Worker) : Worker :=
  let w1 : Worker := AlsaPlayer.workerInit it w
  if w1.player.handle_ = false then w1
  else
    let w2 : Worker := { w1 with ops := w1.ops ++ [AlsaOp.snd_pcm_wait] }
    if it.wait_result = -EPIPE then
      AlsaPlayer.workerPull it { w2 with ops := w2.ops ++ [AlsaOp.snd_pcm_prepare] }
    else if it.wait_result < 0 then
      { w2 with player := w2.player.uninitAlsa, ops := w2.ops ++ [AlsaOp.uninitAlsa] }
    else if it.wait_result = 0 then w2
    else AlsaPlayer.workerPull it w2

/-- The worker loop `AlsaPlayer::worker` over successive passes, while the
player is active; `tick` is `getTickCount()` at entry (alsa_player.cpp:318). -/
def AlsaPlayer.worker (passes : List Pass) (tick : Int) (p : AlsaPlayer) : Worker :=
  passes.foldl (fun w it => if w.player.active_ then AlsaPlayer.workerPass it w else w)
    { player := p, lastChunkTick := tick }

/-- A device that opens and accepts every setting; period size 480. -/
def AlsaEnv.good : AlsaEnv where
  sampleSize := fun f => f.bits / 8
  snd_strerror := fun _ => "error"
  snd_pcm_open := fun _ => 0
  snd_pcm_hw_params_any := 0
  snd_pcm_hw_params_set_access := 0
  snd_pcm_hw_params_set_format := fun _ => 0
  supportedFormats := "S16_LE "
  snd_pcm_hw_params_set_channels := fun _ => 0
  snd_pcm_hw_params_set_rate_near := fun r => (0, r)
  snd_pcm_hw_params_get_period_time_max := (0, 1000000)
  snd_pcm_hw_params_get_period_time_min := (0, 1000)
  snd_pcm_hw_params_set_period_time_near := fun t => (0, t)
  snd_pcm_hw_params_set_buffer_time_near := fun t => (0, t)
  snd_pcm_hw_params := 0
  snd_pcm_hw_params_get_period_size := 480

/-- A device that opens but rejects the parameter query that follows. -/
def AlsaEnv.failsAfterOpen : AlsaEnv :=
  { AlsaEnv.good with snd_pcm_hw_params_any := -1 }

/-- A device that is busy: `snd_pcm_open` fails with `-EBUSY`. -/
def AlsaEnv.busy : AlsaEnv :=
  { AlsaEnv.good with snd_pcm_open := fun _ => -16 }

/-- An ALSA player as constructed for a 48000:16:2 stream with default settings. -/
def AlsaPlayer.fresh : AlsaPlayer :=
  { settings_ := { pcm_device := "default" }, format := ⟨48000, 16, 2⟩ }

/-- A pass in which the device is ready, 480 frames are free and the stream
delivers a chunk that is written completely. -/
def Pass.good : Pass where
  alsa := AlsaEnv.good
  wait_result := 1
  availDelay := ⟨(0, 480, 960), 480, (0, 960)⟩
  frameSize := 4
  gotChunk := true
  tick := 1000
  pcm := 480
  starved := []

/-- Player parameters `buffer_time=5,fragments=8` as a map. -/
def AlsaPlayer.sampleParams : String → Option String :=
  fun k => if k = "buffer_time" then some "5" else if k = "fragments" then some "8" else none

/-- An integer parser that knows the two numerals used in `sampleParams`. -/
def AlsaPlayer.sampleStoi : String → Option Int :=
  fun s => if s = "5" then some 5 else if s = "8" then some 8 else none

/-! ## The control channel (player_client.cpp) -/

/-- Magic key of a frame header, `LIGHTNINGCAST_COMM_HEADER_KEY` (player_client.cpp:43). -/
def LIGHTNINGCAST_COMM_HEADER_KEY : Nat := 0x9876

/-- The four bytes in memory of `htonl(n)` for `n` converted to `uint32_t`: the
big-endian bytes of `n`. -/
def htonl (n : Nat) : List Nat :=
  [(n / 16777216) % 256, (n / 65536) % 256, (n / 256) % 256, n % 256]

/-- The value `ntohl(x)` of a `uint32_t` whose bytes in memory are `b`. -/
def ntohl (b : List Nat) : Nat :=
  b.foldl (fun acc x => acc * 256 + x) 0

/-- The eight bytes of a `comm_header` (utils.hpp:304-307) whose fields have
been set to `htonl(key)` and `htonl(data_size)`. -/
def comm_header (key data_size : Nat) : List Nat := htonl key ++ htonl data_size

/-- Outcome of one `::write` call on the client descriptor: `n` bytes written
(0 included), `EAGAIN`/`EWOULDBLOCK`, or another error. -/
inductive WriteResult where
  | written (n : Nat)
  | again
  | failed
  deriving DecidableEq, Repr

/-- The write loop of `processSend` (player_client.cpp:278-303): the bytes that
reach the descriptor, given the outcomes of the successive `::write` calls. -/
def PlayerClient.writeLoop : List WriteResult → List Nat → List Nat
  | _, [] => []
  | [], _ => []
  | .written n :: rs, buf =>
    if n = 0 then [] else buf.take n ++ PlayerClient.writeLoop rs (buf.drop n)
  | .again :: rs, buf => PlayerClient.writeLoop rs buf
  | .failed :: _, _ => []

/-- Framing and sending, `PlayerClient::processSend` (player_client.cpp:259-304):
the bytes written to `client_fd`. -/
def PlayerClient.processSend (client_fd : Int) (writes : List WriteResult) (buf : List Nat) : List Nat :=
  if client_fd ≤ 0 then []
  else PlayerClient.writeLoop writes (comm_header LIGHTNINGCAST_COMM_HEADER_KEY buf.length ++ buf)

/-- The buffer that `PlayerClient::start` and `PlayerClient::stop` hand to
`processSend` (player_client.cpp:223-232 and :245-254): a header followed by
the JSON text. -/
def PlayerClient.sendBuf (json_str : List Nat) : List Nat :=
  comm_header LIGHTNINGCAST_COMM_HEADER_KEY json_str.length ++ json_str

/-- Request framing of `PlayerClient::doRead` (player_client.cpp:135-183) on the
bytes that arrive on the descriptor: the payload handed to `doParse`, absent
when `doRead` returns false before that (too few bytes, wrong key). -/
def PlayerClient.readFrame (bytes : List Nat) : Option (List Nat) :=
  if bytes.length < 8 then none
  else if ntohl (bytes.take 4) ≠ LIGHTNINGCAST_COMM_HEADER_KEY then none
  else if (bytes.drop 8).length < ntohl ((bytes.drop 4).take 4) then none
  else some ((bytes.drop 8).take (ntohl ((bytes.drop 4).take 4)))

/-- Modelled from the spec: a request as read from its JSON text (json/json.h is
not among the sources): `root["Cmd"].asInt()` and
`root["SnapServerIPAddr"].asString()`. -/
structure Request where
  Cmd : Int
  SnapServerIPAddr : String
  deriving DecidableEq, Repr

/-- A response before it is written as JSON text: `Cmd` and, for START, `Result`. -/
structure Response where
  Cmd : Int
  Result : Option Int := none
  deriving DecidableEq, Repr

/-- What `PlayerClient` calls but does not implement: the JSON reader and
writer and `SnapCastClient::start`. -/
structure ControlEnv where
  /-- Result of `reader.parse(data, root, false)`, absent when it fails -/
  parse : List Nat → Option Request
  /-- Text produced by `Json::FastWriter::write` -/
  write : Response → List Nat
  /-- Value returned by `snapCastClient.start(addr)` -/
  snapStart : String → Bool

/-- Calls made by `PlayerClient` while it handles a request, in program order. -/
inductive ControlOp where
  | snapStart (addr : String)
  | snapStop
  | processSend (buf : List Nat)
  deriving DecidableEq, Repr

/-- Command code `LIGHTNINGCASTClientCmd_START` (Util.h:39-45). -/
def LIGHTNINGCASTClientCmd_START : Int := 1

/-- Command code `LIGHTNINGCASTClientCmd_STOP` (Util.h:39-45). -/
def LIGHTNINGCASTClientCmd_STOP : Int := 2

/-- Start command, `PlayerClient::start` (player_client.cpp:214-234). -/
def PlayerClient.start (env : ControlEnv) (snapserver_ipaddr : String) : List ControlOp :=
  [.snapStart snapserver_ipaddr,
   .processSend (PlayerClient.sendBuf (env.write
      { Cmd := LIGHTNINGCASTClientCmd_START,
        Result := some (if env.snapStart snapserver_ipaddr then 1 else 0) }))]

/-- Stop command, `PlayerClient::stop` (player_client.cpp:237-256). -/
def PlayerClient.stop (env : ControlEnv) : List ControlOp :=
  [.snapStop, .processSend (PlayerClient.sendBuf (env.write { Cmd := LIGHTNINGCASTClientCmd_STOP }))]

/-- Request dispatch, `PlayerClient::doParse` (player_client.cpp:187-211): the
value returned and the calls made. -/
def PlayerClient.doParse (env : ControlEnv) (data : List Nat) : Bool × List ControlOp :=
  match env.parse data with
  | none => (false, [])
  | some root =>
    if root.Cmd = LIGHTNINGCASTClientCmd_START then
      (true, PlayerClient.start env root.SnapServerIPAddr)
    else if root.Cmd = LIGHTNINGCASTClientCmd_STOP then
      (false, PlayerClient.stop env)
    else (false, [])

/-- The bytes that `PlayerClient::start` or `stop` put on the descriptor for a
response text `json_str`. -/
def PlayerClient.wireBytes (client_fd : Int) (writes : List WriteResult) (json_str : List Nat) : List Nat :=
  PlayerClient.processSend client_fd writes (PlayerClient.sendBuf json_str)

/-- The text `{"Cmd":1,"Result":1}` followed by a newline, as bytes. -/
def Response.startOk : List Nat :=
  [123, 34, 67, 109, 100, 34, 58, 49, 44, 34, 82, 101, 115, 117, 108, 116, 34, 58, 49, 125, 10]

/-- A JSON environment for tests: every request parses as a START for
10.0.0.5, responses are written as `startOk`, `start` returns true. -/
def ControlEnv.test : ControlEnv where
  parse := fun _ => some ⟨1, "10.0.0.5"⟩
  write := fun _ => Response.startOk
  snapStart := fun _ => true

/-! ## The command state machine (snapcast_client.cpp) -/

/-- Commands of the client, `SNAPCASTCLIENTCmd` (snapcast_client.hpp:36-42). -/
inductive SNAPCASTCLIENTCmd where
  | NONE
  | START
  | STOP
  | EXIT
  deriving DecidableEq, Repr

/-- The fields of `SnapCastClient` (snapcast_client.hpp:51-57). -/
structure SnapCastClient where
  ready : Bool := false
  ready_sync : Bool := false
  cmd : SNAPCASTCLIENTCmd := .NONE
  snapserver_ipaddr : String := ""
  is_start : Bool := false
  efd : Int := -1
  pcm_name : String := ""
  deriving DecidableEq, Repr

/-- End of a command, `SnapCastClient::finishCmd` (snapcast_client.cpp:184-189);
`LockfinishCmd` (:192-198) does the same under the mutex. -/
def SnapCastClient.finishCmd (s : SnapCastClient) : SnapCastClient :=
  { s with cmd := .NONE, ready_sync := true }

/-- Where the thread that runs `SnapCastClient::handle` stands whenever it does
not hold the mutex. -/
inductive HandlerAt where
  /-- About to lock: at entry of `handle` (line 123) or back from `doStart` (line 131) -/
  | atLock
  /-- Blocked in `cond.wait` (line 137) -/
  | waiting
  /-- Mutex released at line 129, `doStart` not yet begun -/
  | doStart
  /-- Inside `io_context.run()` of a session for `host`, woken through `efd` -/
  | running (host : String) (efd : Int)
  /-- Returned from `handle` (line 142) -/
  | returned
  deriving DecidableEq, Repr

/-- Where the thread that calls `start` and `stop` stands. -/
inductive CallerAt where
  | idle
  | inStart
  | inStop
  deriving DecidableEq, Repr

/-- The client together with its two threads and the event descriptors:
`wakeWritten` lists the descriptors to which the wake value has been written,
`opened` the descriptors created by `eventfd` and `closed` the closes made by
`doStart`, one entry per close: `::close(efd)` (snapcast_client.cpp:107) and
the close by the destructor of the `stream_descriptor` that owns the
descriptor (line 79), which runs when the `try` block is left, normally or by
an exception.  `wakePending` tells whether the descriptor of the running
session is readable; `startResult` and `doStartResult` are the values last
returned by `start` and by `doStart`. -/
structure Machine where
  client : SnapCastClient := {}
  handler : HandlerAt := .atLock
  caller : CallerAt := .idle
  wakeWritten : List Int := []
  opened : List Int := []
  closed : List Int := []
  wakePending : Bool := false
  startResult : Option Bool := none
  doStartResult : Option Bool := none
  deriving DecidableEq, Repr

/-- The loop of `SnapCastClient::handle` (snapcast_client.cpp:124-144) from the
moment the thread holds the mutex until it releases it: the fields afterwards
and where the thread stands then.  Every pass either ends the run or changes
`cmd` from STOP to NONE or `ready` from true to false, so three passes are
always enough; the fuel bounds the number of passes. -/
def SnapCastClient.handleLoop : Nat → SnapCastClient → Option (SnapCastClient × HandlerAt)
  | 0, _ => none
  | fuel + 1, s =>
    match s.cmd with
    | .START => some (s, .doStart)
    | .STOP => SnapCastClient.handleLoop fuel s.finishCmd
    | .NONE =>
      if s.ready then SnapCastClient.handleLoop fuel { s with ready := false }
      else some (s, .waiting)
    | .EXIT => some (s.finishCmd, .returned)

/-- The wake value written to the event descriptor by `stop` and `exit`
(snapcast_client.cpp:171-175 and :207-211), when `efd` is not -1. -/
def Machine.writeWake (m : Machine) : Machine :=
  if m.client.efd ≠ -1 then
    { m with
      wakeWritten := m.wakeWritten ++ [m.client.efd]
      wakePending :=
        match m.handler with
        | .running _ fd => if fd = m.client.efd then true else m.wakePending
        | _ => m.wakePending }
  else m

/-- The steps of the two threads and of the running session. -/
inductive Step where
  /-- The handler thread takes the mutex and runs `handle` until it releases it -/
  | handler
  /-- The handler thread runs `doStart` up to `io_context.run()`; `fd` is the result of `eventfd` -/
  | doStartLaunch (fd : Int)
  /-- The event descriptor becomes readable: the event loop stops, `doStart` closes the
  descriptor, its owner closes it once more and `doStart` returns true -/
  | sessionWoken
  /-- An exception leaves the event loop: the owner of the descriptor closes it and
  `doStart` returns false -/
  | sessionThrows
  /-- The caller enters `start(addr)` and runs it up to the wait -/
  | callStart (addr : String)
  /-- The wait of `start` ends and `start` returns -/
  | startReturn
  /-- The caller enters `stop()` and runs it up to the wait -/
  | callStop
  /-- The wait of `stop` ends and `stop` returns -/
  | stopReturn
  /-- Another thread runs `exit()` -/
  | callExit
  deriving DecidableEq, Repr

/-- One step of the machine, absent when the step cannot be taken in this state. -/
def Machine.step (m : Machine) : Step → Option Machine
  | .handler =>
    match m.handler with
    | .atLock =>
      (SnapCastClient.handleLoop 3 m.client).map (fun r => { m with client := r.1, handler := r.2 })
    | .waiting =>
      if m.client.ready then
        (SnapCastClient.handleLoop 3 { m.client with ready := false }).map
          (fun r => { m with client := r.1, handler := r.2 })
      else none
    | _ => none
  | .doStartLaunch fd =>
    match m.handler with
    | .doStart =>
      if fd = -1 then
        some { m with
          client := { m.client with is_start := false, efd := fd }
          handler := .atLock
          doStartResult := some false }
      else
        some { m with
          client := ({ m.client with is_start := true, efd := fd } : SnapCastClient).finishCmd
          handler := .running m.client.snapserver_ipaddr fd
          opened := m.opened ++ [fd]
          wakePending := false }
    | _ => none
  | .sessionWoken =>
    match m.handler with
    | .running _ fd =>
      if m.wakePending then
        some { m with
          handler := .atLock
          closed := m.closed ++ [m.client.efd, fd]
          wakePending := false
          doStartResult := some true }
      else none
    | _ => none
  | .sessionThrows =>
    match m.handler with
    | .running _ fd =>
      some { m with handler := .atLock, closed := m.closed ++ [fd], doStartResult := some false }
    | _ => none
  | .callStart addr =>
    if m.caller = .idle then
      some { m with
        client := { m.client with
          snapserver_ipaddr := addr, cmd := .START, ready := true, ready_sync := false, is_start := false }
        caller := .inStart }
    else none
  | .startReturn =>
    if m.caller = .inStart ∧ m.client.cmd = .NONE then
      some { m with caller := .idle, startResult := some m.client.is_start }
    else none
  | .callStop =>
    if m.caller = .idle then
      some { Machine.writeWake
        { m with client := { m.client with cmd := .STOP, ready := true, ready_sync := false } } with
        caller := .inStop }
    else none
  | .stopReturn =>
    if m.caller = .inStop ∧ m.client.cmd = .NONE then some { m with caller := .idle }
    else none
  | .callExit =>
    some (Machine.writeWake
      { m with client := { m.client with cmd := .EXIT, ready := true, ready_sync := false } })

/-- A run of steps, absent when one of them cannot be taken. -/
def Machine.run : List Step → Machine → Option Machine
  | [], m => some m
  | s :: rest, m =>
    match m.step s with
    | some m1 => Machine.run rest m1
    | none => none

/-- The steps of one complete call of `stop()` while the handler thread waits
for a command: the call, the handler's reaction, the return. -/
def Step.stop : List Step := [.callStop, .handler, .stopReturn]

/-- The steps of one complete call of `start(addr)` while the handler thread
waits for a command: the call, the handler's reaction, `doStart` up to the
event loop with event descriptor `fd`, the return. -/
def Step.start (addr : String) (fd : Int) : List Step :=
  [.callStart addr, .handler, .doStartLaunch fd, .startReturn]

/-- The machine once the handler thread has entered `handle` and waits for its
first command. -/
def Machine.idle : Machine := { handler := .waiting }

/-- The Controller's surroundings when the sound device is `alsa`: `initAlsa`
answers as `AlsaPlayer::initAlsa` does for a player built with the settings and
the stream's format (`stream_->getFormat()` is taken to be the format the
stream was made with); everything else as in `Env.test`. -/
def Env.ofAlsa (alsa : AlsaEnv) : Env :=
  { Env.test with
    initAlsa := fun settings stream =>
      match (AlsaPlayer.initAlsa alsa { settings_ := settings, format := stream.format }).2 with
      | some e => some (e.what, e.code)
      | none => none }

/-- The machine while the session started by `start("10.0.0.1")` runs. -/
def Machine.inSession : Machine :=
  { client := { ready_sync := true, snapserver_ipaddr := "10.0.0.1", is_start := true, efd := 7 }
    handler := .running "10.0.0.1" 7
    opened := [7]
    startResult := some true }

/-- The machine after `start("10.0.0.5")` has been entered during that session. -/
def Machine.secondStart : Machine :=
  { Machine.inSession with
    client := { ready := true, cmd := .START, snapserver_ipaddr := "10.0.0.5", efd := 7 }
    caller := .inStart }

/-- The value returned by a complete call of `start(addr)` on the machine `m`
when `eventfd` yields `fd`; false stands in when the call does not complete. -/
def Machine.startValue (m : Machine) (addr : String) (fd : Int) : Bool :=
  match m.run (Step.start addr fd) with
  | some m1 => m1.startResult.getD false
  | none => false

/-- The text `{"Cmd":1,"Result":0}` followed by a newline, as bytes. -/
def Response.startFailed : List Nat :=
  [123, 34, 67, 109, 100, 34, 58, 49, 44, 34, 82, 101, 115, 117, 108, 116, 34, 58, 48, 125, 10]

/-- The control channel in front of the machine `m`: `snapCastClient.start`
returns what the machine returns, and a START response is written as
`startFailed` when its Result is 0 and as `startOk` otherwise. -/
def ControlEnv.ofMachine (m : Machine) (fd : Int) : ControlEnv where
  parse := fun _ => some ⟨1, "10.0.0.5"⟩
  write := fun r => if r.Result = some 0 then Response.startFailed else Response.startOk
  snapStart := fun addr => Machine.startValue m addr fd

/-! ## Device list (alsa_player.cpp) -/

/-- One device hint as `pcm_list` reads it: the results of
`snd_device_name_get_hint` for NAME, DESC and IOID, the last two absent when
the call returns null. -/
structure Hint where
  name : String
  descr : Option String := none
  io : Option String := none
  deriving DecidableEq, Repr

/-- An output device as listed by `pcm_list`: the three fields of `PcmDevice`
assigned at alsa_player.cpp:437-446 (pcm_device.hpp is not among the sources). -/
structure PcmDevice where
  idx : Nat
  name : String
  description : String
  deriving DecidableEq, Repr

/-- The loop of `pcm_list` (alsa_player.cpp:430-457) over the hints still to
read, with the counter `idx` and the devices collected so far. -/
def AlsaPlayer.pcm_list_loop : List Hint → Nat → List PcmDevice → List PcmDevice
  | [], _, result => result
  | n :: rest, idx, result =>
    if n.io ≠ none ∧ n.io ≠ some "Output" then
      AlsaPlayer.pcm_list_loop rest idx result
    else
      AlsaPlayer.pcm_list_loop rest (idx + 1)
        (result ++ [{ idx := idx, name := n.name, description := n.descr.getD "" }])

/-- List of output devices, `AlsaPlayer::pcm_list` (alsa_player.cpp:419-460);
`hint_result` is the value returned by `snd_device_name_hint` and `hints` the
list it delivers. -/
def AlsaPlayer.pcm_list (hint_result : Int) (hints : List Hint) : List PcmDevice :=
  if hint_result < 0 then []
  else AlsaPlayer.pcm_list_loop hints 0 []

/-- The list the interface describes: the hints whose IOID is absent or
"Output", in hint order, numbered from 0, an absent description read as the
empty text. -/
def pcm_list_described (hints : List Hint) : List PcmDevice :=
  ((hints.filter (fun h => h.io = none ∨ h.io = some "Output")).enum).map
    (fun ih => { idx := ih.1, name := ih.2.name, description := ih.2.descr.getD "" })

/-- Hints of a machine with a null device, a capture-only device and two
playback devices, one without description. -/
def Hint.sample : List Hint :=
  [{ name := "null", descr := some "Discard all samples" },
   { name := "hw:CARD=Mic", descr := some "USB microphone", io := some "Input" },
   { name := "default", io := some "Output" },
   { name := "hw:CARD=DAC", descr := some "USB DAC", io := some "Output" }]

/-! ## Host identity (utils.hpp) -/

/-- Host identifier, `getHostId` (utils.hpp:275-302).  `trim` is
`strutils::trim_copy`, also used for the in-place `strutils::trim`
(string_utils.hpp is not among the sources), and `hostName` is the value of
`getHostName()`, which asks the system. -/
def getHostId (trim : String → String) (hostName : String) (defaultId : String) : String :=
  let result := trim defaultId
  if !result.isEmpty && result != "00:00:00:00:00:00" && result != "02:00:00:00:00:00" &&
      result != "ac:de:48:00:11:22" then
    result
  else
    let result := trim result
    if !result.isEmpty then result
    else hostName

/-- A device whose nearest supported period time is 30 ms whatever is asked
for, and which rejects the buffer time requested afterwards. -/
def AlsaEnv.roundsPeriod : AlsaEnv :=
  { AlsaEnv.good with
    snd_pcm_hw_params_set_period_time_near := fun _ => (0, 30000)
    snd_pcm_hw_params_set_buffer_time_near := fun t => (-22, t) }

/-- The machine after the session started by `start("10.0.0.1")` on event
descriptor 7 has been ended by `stop()`: `doStart` has closed the descriptor
and the handler thread waits for a command. -/
def Machine.afterSession : Machine :=
  { client := { ready_sync := true, snapserver_ipaddr := "10.0.0.1", is_start := true, efd := 7 }
    handler := .waiting
    wakeWritten := [7]
    opened := [7]
    closed := [7, 7]
    startResult := some true
    doStartResult := some true }

/-! ## Runs of the Controller -/

/-- A completion delivered to the Controller: which handler runs and with what
arguments; `reconnect` stands for a direct call of `Controller::reconnect`. -/
inductive ControllerEvent where
  | message (ec : Int) (response : Option BaseMessage)
  | timeResponse (quick_syncs : Int) (ec : Int) (response : Option Time)
  | timer (h : TimerHandler) (ec : Int)
  | helloResponse (ec : Int) (response : Option ServerSettings)
  | connect (ec : Int)
  | reconnect
  deriving DecidableEq, Repr

/-- The handler that an event runs. -/
def Controller.handle (env : Env) : ControllerEvent → Act Unit
  | .message ec response => Controller.onMessage env ec response
  | .timeResponse quick_syncs ec response => Controller.onTimeResponse quick_syncs ec response
  | .timer h ec => Controller.onTimer h ec
  | .helloResponse ec response => Controller.onHelloResponse ec response
  | .connect ec => Controller.onConnect env ec
  | .reconnect => Controller.reconnect

/-- The Controller's fields after the handlers of a list of events have run in
order, absent when one of them does not return (it raises or dereferences a
null pointer). -/
def Controller.after (env : Env) : List ControllerEvent → Controller → Option Controller
  | [], c => some c
  | e :: rest, c =>
    match ((Controller.handle env e).run c).outcome with
    | .returned _ => Controller.after env rest ((Controller.handle env e).run c).ctl
    | _ => none

@[simp]
theorem act_bind_apply {α β : Type} (m : Act α) (f : α → Act β) (c : Controller) (t : List Effect) :
    (m >>= f) c t = (match m c t with
      | ⟨.returned a, c1, t1⟩ => f a c1 t1
      | ⟨.thrown e, c1, t1⟩ => ⟨.thrown e, c1, t1⟩
      | ⟨.nullDeref, c1, t1⟩ => ⟨.nullDeref, c1, t1⟩) := rfl

@[simp]
theorem act_pure_apply {α : Type} (a : α) (c : Controller) (t : List Effect) :
    (pure a : Act α) c t = ⟨.returned a, c, t⟩ := rfl

@[simp]
theorem emit_apply (e : Effect) (c : Controller) (t : List Effect) :
    emit e c t = ⟨.returned (), c, t ++ [e]⟩ := rfl

@[simp]
theorem getCtl_apply (c : Controller) (t : List Effect) :
    getCtl c t = ⟨.returned c, c, t⟩ := rfl

@[simp]
theorem modifyCtl_apply (f : Controller → Controller) (c : Controller) (t : List Effect) :
    modifyCtl f c t = ⟨.returned (), f c, t⟩ := rfl

@[simp]
theorem throwEx_apply {α : Type} (e : Exception) (c : Controller) (t : List Effect) :
    (throwEx e : Act α) c t = ⟨.thrown e, c, t⟩ := rfl

theorem onWireChunk_apply (env : Env) (chunk : PcmChunk) (c : Controller) (t : List Effect) :
    Controller.onWireChunk env chunk c t =
      match c.stream_, c.decoder_ with
      | some s, some d =>
        if (env.decode d chunk.payload).1 then
          ⟨.returned (), { c with stream_ := some (s.addChunk { chunk with format := c.sampleFormat_, payload := (env.decode d chunk.payload).2 }) },
            t ++ [.addChunk { chunk with format := c.sampleFormat_, payload := (env.decode d chunk.payload).2 }]⟩
        else ⟨.returned (), c, t⟩
      | _, _ => ⟨.returned (), c, t⟩ := by
  unfold Controller.onWireChunk
  cases hs : c.stream_ <;> cases hd : c.decoder_ <;> simp [hs, hd]
  split <;> simp [hd]

theorem onMessage_some (env : Env) (msg : BaseMessage) (c : Controller) :
    (Controller.onMessage env 0 (some msg)).run c =
      match Controller.dispatch env msg c [] with
      | ⟨.returned _, c1, t1⟩ => ⟨.returned (), c1, t1 ++ [.getNextMessage]⟩
      | ⟨.thrown e, c1, t1⟩ => ⟨.thrown e, c1, t1⟩
      | ⟨.nullDeref, c1, t1⟩ => ⟨.nullDeref, c1, t1⟩ := by
  simp only [Controller.onMessage, Act.run, Controller.getNextMessage, ne_eq, not_true_eq_false,
    if_false, act_bind_apply]
  generalize Controller.dispatch env msg c [] = r
  rcases r with ⟨o, c1, t1⟩
  cases o <;> rfl

theorem resetDecoder_apply (c : Controller) (t : List Effect) :
    resetDecoder c t = ⟨.returned (), { c with decoder_ := none },
      t ++ (if c.decoder_.isSome then [.decoderDestroyed] else [])⟩ := by
  cases hd : c.decoder_ <;> simp [resetDecoder, hd]
  simp [← hd]

theorem resetStream_apply (c : Controller) (t : List Effect) :
    resetStream c t = ⟨.returned (), { c with stream_ := none },
      t ++ (if c.stream_.isSome then
        (.streamReleased :: if c.player_.isNone then [.streamDestroyed] else []) else [])⟩ := by
  cases hs : c.stream_ <;> cases hp : c.player_ <;> simp [resetStream, hs, hp]
  · simp [← hs, ← hp]
  · simp [← hs, ← hp]

theorem resetPlayer_apply (c : Controller) (t : List Effect) :
    resetPlayer c t = ⟨.returned (), { c with player_ := none },
      t ++ (if c.player_.isSome then
        ([.playerStopped, .playerDestroyed] ++ if c.stream_.isNone then [.streamDestroyed] else []) else [])⟩ := by
  cases hs : c.stream_ <;> cases hp : c.player_ <;> simp [resetPlayer, hs, hp]
  · simp [← hs, ← hp]
  · simp [← hs, ← hp]

theorem makeDecoder_apply (h : CodecHeader) (c : Controller) (t : List Effect) :
    Controller.makeDecoder h c t =
      if h.codec = "pcm" then ⟨.returned (), { c with decoder_ := some { kind := .PcmDecoder } }, t⟩
      else if h.codec = "null" then ⟨.returned (), { c with decoder_ := some { kind := .NullDecoder } }, t⟩
      else ⟨.thrown (.codecNotSupported h.codec), c, t⟩ := by
  unfold Controller.makeDecoder
  split
  · rfl
  · split <;> rfl

theorem deref_some {α : Type} (a : α) (c : Controller) (t : List Effect) :
    deref (some a) c t = ⟨.returned a, c, t⟩ := rfl

theorem deref_none {α : Type} (c : Controller) (t : List Effect) :
    deref (none : Option α) c t = ⟨.nullDeref, c, t⟩ := rfl

theorem afterDecoder_eq (env : Env) (h : CodecHeader) (kind : DecoderKind) (c : Controller) (t : List Effect)
    (hd : c.decoder_ = some { kind := kind }) (hh : c.headerChunk_ = some h)
    (hp : c.player_ = none) :
    (do Controller.setHeader env
        Controller.makeStream
        Controller.applyBufferLen
        Controller.makePlayer env
        playerStart env : Act Unit) c t =
    chainRun env h kind c t := by
  unfold chainRun
  simp only [act_bind_apply, Controller.setHeader, getCtl_apply, hd, hh, deref_some]
  cases hset : env.setHeader kind h
  · simp
  · simp only [modifyCtl_apply, Controller.makeStream, act_bind_apply, getCtl_apply, emit_apply,
      Controller.applyBufferLen]
    cases hss : c.serverSettings_
    · simp [deref_none, Controller.withChain]
      exact hss.symm
    · simp only [deref_some, streamSetBufferLen, act_bind_apply, getCtl_apply, modifyCtl_apply, emit_apply,
        Stream.setBufferLen, Controller.makePlayer, hp, Option.isNone_none, if_true, Controller.createPlayer]
      by_cases hn : (c.settings_.player.player_name.isEmpty || c.settings_.player.player_name == ALSA) = true
      · simp only [hn, if_true, act_bind_apply, modifyCtl_apply]
        cases hc : env.alsaPlayerCtor c.alsaSettings
        · simp only [Controller.alsaSettings] at hc
          simp only [hc, act_bind_apply, emit_apply, act_pure_apply, modifyCtl_apply, getCtl_apply,
            Option.isNone_some, playerStart, deref_some]
          simp only [Bool.false_eq_true, if_false, act_pure_apply, deref_some, Controller.alsaSettings]
          cases hi : env.initAlsa { c.settings_.player with player_name := ALSA }
            { format := _, playerFormat := c.settings_.player.sample_format,
              bufferLen := some (bufferLenMs _ c.settings_.player.latency) }
          · simp [Controller.withChain, Controller.withPlayer, Controller.alsaSettings]
            exact hss.symm
          · rename_i wc
            rcases wc with ⟨w, code⟩
            by_cases hcode : code = -EBUSY <;>
              simp [hcode, Controller.withChain, Controller.withPlayer, Controller.alsaSettings] <;>
              exact hss.symm
        · simp only [Controller.alsaSettings] at hc
          simp [hc, Controller.withChain, Controller.withPlayer, Controller.alsaSettings]
          exact hss.symm
      · simp [hn, Controller.withChain]
        exact ⟨hp.symm, hss.symm⟩

theorem onCodecHeader_eq (env : Env) (h : CodecHeader) (c : Controller) (t : List Effect) :
    Controller.onCodecHeader env h c t =
      if h.codec = "pcm" then
        chainRun env h .PcmDecoder { c.tornDown h with decoder_ := some { kind := .PcmDecoder } }
          (t ++ teardownTrace c)
      else if h.codec = "null" then
        chainRun env h .NullDecoder { c.tornDown h with decoder_ := some { kind := .NullDecoder } }
          (t ++ teardownTrace c)
      else ⟨.thrown (.codecNotSupported h.codec), c.tornDown h, t ++ teardownTrace c⟩ := by
  unfold Controller.onCodecHeader
  simp only [act_bind_apply, modifyCtl_apply, resetDecoder_apply, resetStream_apply, resetPlayer_apply,
    makeDecoder_apply]
  by_cases h1 : h.codec = "pcm"
  · simp only [h1, if_true]
    rw [← afterDecoder_eq env h .PcmDecoder _ _ rfl rfl rfl]
    simp [teardownTrace, Controller.tornDown]
  · by_cases h2 : h.codec = "null"
    · simp only [h1, h2, if_true, if_false]
      rw [← afterDecoder_eq env h .NullDecoder _ _ rfl rfl rfl]
      simp [teardownTrace, Controller.tornDown]
    · simp [h1, h2, teardownTrace, Controller.tornDown]

theorem wrapInt32_of_fits (x : Int) (h : fitsInt32 x) : wrapInt32 x = x := by
  unfold fitsInt32 at h
  unfold wrapInt32
  omega

theorem bufferLenMs_nonneg (s : ServerSettings) (p : Int) : 0 ≤ bufferLenMs s p :=
  le_max_left _ _

theorem bufferLenMs_exact (s : ServerSettings) (p : Int) (h1 : fitsInt32 (s.bufferMs - s.latency))
    (h2 : fitsInt32 (s.bufferMs - s.latency - p)) :
    bufferLenMs s p = max 0 (s.bufferMs - s.latency - p) := by
  unfold bufferLenMs
  rw [wrapInt32_of_fits _ h1, wrapInt32_of_fits _ h2]

theorem onServerSettings_apply (s : ServerSettings) (c : Controller) (t : List Effect) :
    Controller.onServerSettings s c t =
      match c.stream_, c.player_ with
      | some st, some _ =>
        ⟨.returned (),
          { c with
            serverSettings_ := some s
            stream_ := some { st with bufferLen := some (bufferLenMs s c.settings_.player.latency) } },
          t ++ [.setBufferLen (bufferLenMs s c.settings_.player.latency)]⟩
      | _, _ => ⟨.returned (), { c with serverSettings_ := some s }, t⟩ := by
  cases hs : c.stream_ <;> cases hp : c.player_ <;>
    simp [Controller.onServerSettings, Controller.applyBufferLen, streamSetBufferLen, Stream.setBufferLen,
      deref_some, hs, hp]

theorem dispatch_other (env : Env) (msg : BaseMessage) (c : Controller) (t : List Effect)
    (h1 : msg.type ≠ .kWireChunk) (h2 : msg.type ≠ .kServerSettings) (h3 : msg.type ≠ .kCodecHeader) :
    Controller.dispatch env msg c t = ⟨.returned (), c, t⟩ := by
  cases msg <;> simp [BaseMessage.type] at h1 h2 h3 <;> rfl

theorem chainRun_setBufferLen (env : Env) (h : CodecHeader) (kind : DecoderKind) (c : Controller)
    (t : List Effect) (v : Int) (hv : Effect.setBufferLen v ∈ (chainRun env h kind c t).trace)
    (ht : Effect.setBufferLen v ∉ t) :
    ∃ ss, c.serverSettings_ = some ss ∧ (chainRun env h kind c t).ctl.serverSettings_ = some ss ∧
      v = bufferLenMs ss c.settings_.player.latency ∧
      ∃ st, (chainRun env h kind c t).ctl.stream_ = some st ∧ st.bufferLen = some v := by
  unfold chainRun at hv ⊢
  cases hset : env.setHeader kind h <;> simp only [hset] at hv ⊢
  · exact absurd hv ht
  · cases hss : c.serverSettings_ <;> simp only [hss] at hv ⊢
    · simp [ht] at hv
    · by_cases hn : (c.settings_.player.player_name.isEmpty || c.settings_.player.player_name == ALSA) = true
      · simp only [hn, if_true] at hv ⊢
        cases hc : env.alsaPlayerCtor c.alsaSettings <;> simp only [hc] at hv ⊢
        · generalize env.initAlsa _ _ = ri at hv ⊢
          rcases ri with _ | ⟨w, code⟩
          · simp [ht] at hv
            simp [hv, hss, Controller.withChain, Controller.withPlayer]
          · by_cases hcode : code = -EBUSY
            · simp [ht, hcode] at hv
              simp [hv, hss, hcode, Controller.withChain, Controller.withPlayer]
            · simp [ht, hcode] at hv
              simp [hv, hss, hcode, Controller.withChain, Controller.withPlayer]
        · simp [ht] at hv
          simp [hv, hss, Controller.withChain, Controller.withPlayer]
      · simp only [hn] at hv ⊢
        simp [ht] at hv
        simp [hv, hss, Controller.withChain]

theorem teardownTrace_no_setBufferLen (c : Controller) (v : Int) :
    Effect.setBufferLen v ∉ teardownTrace c := by
  unfold teardownTrace
  cases c.decoder_ <;> cases c.stream_ <;> cases c.player_ <;> simp

theorem onMessage_outcome (env : Env) (msg : BaseMessage) (c : Controller) :
    ((Controller.onMessage env 0 (some msg)).run c).outcome = (Controller.dispatch env msg c []).outcome := by
  rw [onMessage_some]
  rcases Controller.dispatch env msg c [] with ⟨o, c1, t1⟩
  cases o <;> rfl

theorem onMessage_ctl (env : Env) (msg : BaseMessage) (c : Controller) :
    ((Controller.onMessage env 0 (some msg)).run c).ctl = (Controller.dispatch env msg c []).ctl := by
  rw [onMessage_some]
  rcases Controller.dispatch env msg c [] with ⟨o, c1, t1⟩
  cases o <;> rfl

theorem onMessage_trace (env : Env) (msg : BaseMessage) (c : Controller) :
    ((Controller.onMessage env 0 (some msg)).run c).trace =
      (Controller.dispatch env msg c []).trace ++
        (if (Controller.dispatch env msg c []).outcome = .returned () then [.getNextMessage] else []) := by
  rw [onMessage_some]
  rcases Controller.dispatch env msg c [] with ⟨o, c1, t1⟩
  cases o <;> simp

theorem chainRun_not_codecNotSupported (env : Env) (h : CodecHeader) (kind : DecoderKind) (c : Controller)
    (t : List Effect) (x : String) :
    (chainRun env h kind c t).outcome ≠ .thrown (.codecNotSupported x) := by
  unfold chainRun
  cases env.setHeader kind h <;> simp only []
  · simp
  · cases c.serverSettings_ <;> simp only []
    · simp
    · split
      · cases env.alsaPlayerCtor c.alsaSettings <;> simp only []
        · generalize env.initAlsa _ _ = ri
          rcases ri with _ | ⟨w, code⟩
          · simp
          · by_cases hcode : code = -EBUSY <;> simp [hcode]
        · simp
      · simp

theorem chainRun_trace (env : Env) (h : CodecHeader) (kind : DecoderKind) (c : Controller)
    (t : List Effect) :
    ∃ sf v n, (chainRun env h kind c t).trace =
      t ++ [Effect.streamCreated sf, .setBufferLen v, .playerCreated, .playerStarted].take n := by
  unfold chainRun
  cases env.setHeader kind h with
  | error w => exact ⟨⟨0, 0, 0⟩, 0, 0, by simp⟩
  | ok sf =>
    cases c.serverSettings_ with
    | none => exact ⟨sf, 0, 1, by simp⟩
    | some ss =>
      simp only []
      split
      · cases env.alsaPlayerCtor c.alsaSettings with
        | some w => exact ⟨sf, bufferLenMs ss c.settings_.player.latency, 2, by simp⟩
        | none =>
          simp only []
          generalize env.initAlsa _ _ = ri
          rcases ri with _ | ⟨w, code⟩
          · exact ⟨sf, bufferLenMs ss c.settings_.player.latency, 4, by simp⟩
          · by_cases hcode : code = -EBUSY
            · exact ⟨sf, bufferLenMs ss c.settings_.player.latency, 4, by simp [hcode]⟩
            · exact ⟨sf, bufferLenMs ss c.settings_.player.latency, 3, by simp [hcode]⟩
      · exact ⟨sf, bufferLenMs ss c.settings_.player.latency, 2, by simp⟩

theorem reconnect_apply (c : Controller) (t : List Effect) :
    Controller.reconnect c t =
      ⟨.returned (), { c with player_ := none, stream_ := none, decoder_ := none },
        t ++ [.timerCancel, .disconnect] ++ releaseTrace c ++
          [.timerExpiresAfter 50000, .timerAsyncWait .worker]⟩ := by
  unfold Controller.reconnect
  simp only [act_bind_apply, emit_apply, resetPlayer_apply, resetStream_apply, resetDecoder_apply]
  cases hp : c.player_ <;> cases hs : c.stream_ <;> cases hd : c.decoder_ <;>
    simp [releaseTrace, hp, hs, hd]

theorem onConnect_apply (env : Env) (c : Controller) (t : List Effect) :
    Controller.onConnect env 0 c t =
      ⟨.returned (), c.withHostId env,
        t ++ [.sendHello env.macAddress (c.withHostId env).settings_.host_id (c.withHostId env).settings_.instanceId,
          .sendTimeRequest 50, .getNextMessage]⟩ := by
  unfold Controller.onConnect Controller.withHostId
  by_cases h : c.settings_.host_id.isEmpty = true <;>
    simp [h, Controller.sendTimeSyncMessage, Controller.getNextMessage]

theorem releaseTrace_mem (c : Controller) (e : Effect) (h : e ∈ releaseTrace c) :
    e = .playerStopped ∨ e = .playerDestroyed ∨ e = .streamDestroyed ∨ e = .streamReleased ∨
      e = .decoderDestroyed := by
  unfold releaseTrace at h
  cases c.player_ <;> cases c.stream_ <;> cases c.decoder_ <;> simp at h <;> aesop

theorem reconnect_run (c : Controller) :
    Controller.reconnect.run c =
      ⟨.returned (), { c with player_ := none, stream_ := none, decoder_ := none },
        [.timerCancel, .disconnect] ++ releaseTrace c ++
          [.timerExpiresAfter 50000, .timerAsyncWait .worker]⟩ := by
  simp [Act.run, reconnect_apply]

theorem reconnect_trace_mem (c : Controller) (e : Effect) (h : e ∈ (Controller.reconnect.run c).trace) :
    e = .timerCancel ∨ e = .disconnect ∨ e = .playerStopped ∨ e = .playerDestroyed ∨
      e = .streamDestroyed ∨ e = .streamReleased ∨ e = .decoderDestroyed ∨
      e = .timerExpiresAfter 50000 ∨ e = .timerAsyncWait .worker := by
  rw [reconnect_run] at h
  simp only [List.mem_append, List.mem_cons, List.mem_singleton, List.not_mem_nil, or_false] at h
  have hr := releaseTrace_mem c e
  tauto

theorem dispatch_codecHeader_trace (env : Env) (h : CodecHeader) (c : Controller) :
    ∃ sf v n, (Controller.dispatch env (.CodecHeader h) c []).trace =
      teardownTrace c ++ [Effect.streamCreated sf, .setBufferLen v, .playerCreated, .playerStarted].take n := by
  simp only [Controller.dispatch, onCodecHeader_eq]
  split
  · simpa using chainRun_trace env h .PcmDecoder
      { c.tornDown h with decoder_ := some { kind := .PcmDecoder } } ([] ++ teardownTrace c)
  · split
    · simpa using chainRun_trace env h .NullDecoder
        { c.tornDown h with decoder_ := some { kind := .NullDecoder } } ([] ++ teardownTrace c)
    · exact ⟨⟨0, 0, 0⟩, 0, 0, by simp⟩

theorem syncRound_eq (c : Controller) (r : Time) (q : Int) :
    syncRound c r q = some ((nextTimeSync q).2, (nextTimeSync q).1) := by
  simp [syncRound, Controller.onTimeResponse, Act.run, deref_some, scheduledWait, Controller.onTimer,
    Controller.sendTimeSyncMessage, sentTimeRequest]

theorem syncRounds_get (c : Controller) (r : Time) (n : Nat) :
    ∀ (q : Int) (j : Nat), 0 ≤ q → j < n →
      (syncRounds c r n q)[j]? =
        some (if (j : Int) + 1 ≤ q then (100, q - (j + 1)) else (1000000, 0)) := by
  induction n with
  | zero => intro q j _ hj; omega
  | succ n ih =>
    intro q j hq hj
    rw [syncRounds, syncRound_eq]
    have hq' : (nextTimeSync q).1 = if q > 0 then q - 1 else q := by
      unfold nextTimeSync; split <;> rfl
    have hd' : (nextTimeSync q).2 = if q > 0 then 100 else 1000000 := by
      unfold nextTimeSync; split <;> rfl
    cases j with
    | zero =>
      simp only [List.getElem?_cons_zero, hq', hd', Nat.cast_zero, zero_add]
      by_cases h : q > 0
      · rw [if_pos h, if_pos h, if_pos (by omega)]
      · have h0 : q = 0 := by omega
        subst h0
        rfl
    | succ j =>
      simp only [List.getElem?_cons_succ]
      rw [ih _ j (by rw [hq']; split <;> omega) (by omega), hq']
      push_cast
      by_cases h : q > 0
      · rw [if_pos h]
        by_cases h2 : (j : Int) + 1 + 1 ≤ q
        · rw [if_pos (by omega), if_pos h2]
          congr 2
          ring
        · rw [if_neg (by omega), if_neg h2]
      · have h0 : q = 0 := by omega
        subst h0
        rw [if_neg h, if_neg (by omega), if_neg (by omega)]

theorem onMessage_apply (env : Env) (msg : BaseMessage) (c : Controller) (t : List Effect) :
    Controller.onMessage env 0 (some msg) c t =
      match Controller.dispatch env msg c t with
      | ⟨.returned _, c1, t1⟩ => ⟨.returned (), c1, t1 ++ [.getNextMessage]⟩
      | ⟨.thrown e, c1, t1⟩ => ⟨.thrown e, c1, t1⟩
      | ⟨.nullDeref, c1, t1⟩ => ⟨.nullDeref, c1, t1⟩ := by
  simp only [Controller.onMessage, Controller.getNextMessage, ne_eq, not_true_eq_false,
    if_false, act_bind_apply]
  generalize Controller.dispatch env msg c t = r
  rcases r with ⟨o, c1, t1⟩
  cases o <;> rfl

theorem receive_chunks (env : Env) (d : Decoder) (sf : SampleFormat) (post : List BaseMessage)
    (hpost : ∀ m ∈ post, m.type ≠ .kCodecHeader) :
    ∀ (c : Controller) (t : List Effect) (s : Stream), c.stream_ = some s → c.decoder_ = some d →
      c.sampleFormat_ = sf →
      (Controller.receive env post c t).outcome = .returned () ∧
      (Controller.receive env post c t).ctl.decoder_ = some d ∧
      (Controller.receive env post c t).ctl.sampleFormat_ = sf ∧
      ∃ s2, (Controller.receive env post c t).ctl.stream_ = some s2 ∧ s2.format = s.format ∧
        s2.chunks = s.chunks ++ decodedChunks env d sf post := by
  induction post with
  | nil =>
    intro c t s hs hd hf
    exact ⟨rfl, hd, hf, s, hs, rfl, by simp [decodedChunks]⟩
  | cons msg rest ih =>
    intro c t s hs hd hf
    have hrest : ∀ m ∈ rest, m.type ≠ .kCodecHeader := fun m hm => hpost m (List.mem_cons_of_mem _ hm)
    have hmsg : msg.type ≠ .kCodecHeader := hpost msg (List.mem_cons_self _ _)
    rcases c with ⟨settings, stream, decoder, player, ssettings, sformat, header⟩
    simp only at hs hd hf
    subst hs hd hf
    simp only [Controller.receive, act_bind_apply, onMessage_apply]
    cases msg with
    | CodecHeader h => simp [BaseMessage.type] at hmsg
    | WireChunk chunk =>
      simp only [Controller.dispatch, onWireChunk_apply]
      by_cases hdec : (env.decode d chunk.payload).1 = true
      · simp only [hdec, if_true, decodedChunks]
        obtain ⟨h1, h2, h3, s2, h4, h5, h6⟩ := ih hrest
          ⟨settings, some (s.addChunk
            { chunk with format := sformat, payload := (env.decode d chunk.payload).2 }), some d, player,
            ssettings, sformat, header⟩
          (t ++ [.addChunk { chunk with format := sformat, payload := (env.decode d chunk.payload).2 }]
            ++ [.getNextMessage])
          (s.addChunk { chunk with format := sformat, payload := (env.decode d chunk.payload).2 })
          rfl rfl rfl
        refine ⟨h1, h2, h3, s2, h4, h5, ?_⟩
        rw [h6]
        simp [Stream.addChunk]
      · simp only [hdec, decodedChunks]
        exact ih hrest _ _ s rfl rfl rfl
    | ServerSettings ss =>
      simp only [Controller.dispatch, onServerSettings_apply, decodedChunks]
      cases player with
      | none => exact ih hrest _ _ s rfl rfl rfl
      | some p =>
        exact ih hrest _ _ { s with bufferLen := some (bufferLenMs ss settings.player.latency) }
          rfl rfl rfl
    | Base => exact ih hrest _ _ s rfl rfl rfl
    | Time tm => exact ih hrest _ _ s rfl rfl rfl
    | Hello => exact ih hrest _ _ s rfl rfl rfl
    | StreamTags => exact ih hrest _ _ s rfl rfl rfl
    | ClientInfo => exact ih hrest _ _ s rfl rfl rfl

theorem chainRun_returned (env : Env) (h : CodecHeader) (kind : DecoderKind) (c : Controller)
    (t : List Effect) (hok : (chainRun env h kind c t).outcome = .returned ()) :
    ∃ sf ss, env.setHeader kind h = .ok sf ∧ c.serverSettings_ = some ss ∧
      (chainRun env h kind c t).ctl =
        (c.withChain kind h sf (some (bufferLenMs ss c.settings_.player.latency))).withPlayer (some true) := by
  unfold chainRun at hok ⊢
  cases hset : env.setHeader kind h <;> simp only [hset] at hok ⊢
  · simp at hok
  · cases hss : c.serverSettings_ <;> simp only [hss] at hok ⊢
    · simp at hok
    · refine ⟨_, _, rfl, rfl, ?_⟩
      by_cases hn : (c.settings_.player.player_name.isEmpty || c.settings_.player.player_name == ALSA) = true
      · simp only [hn, if_true] at hok ⊢
        cases hc : env.alsaPlayerCtor c.alsaSettings <;> simp only [hc] at hok ⊢
        · generalize env.initAlsa _ _ = ri at hok ⊢
          rcases ri with _ | ⟨w, code⟩
          · rfl
          · by_cases hcode : code = -EBUSY
            · simp [hcode]
            · simp [hcode] at hok
        · simp at hok
      · simp [hn] at hok

theorem dispatch_codecHeader_returned (env : Env) (h : CodecHeader) (c : Controller)
    (hok : (Controller.dispatch env (.CodecHeader h) c []).outcome = .returned ()) :
    ∃ kind sf ss, env.setHeader kind h = .ok sf ∧ c.serverSettings_ = some ss ∧
      (kind = if h.codec = "pcm" then .PcmDecoder else .NullDecoder) ∧
      (h.codec = "pcm" ∨ h.codec = "null") ∧
      (Controller.dispatch env (.CodecHeader h) c []).ctl =
        { c with
          headerChunk_ := some h
          decoder_ := some { kind := kind, header := some h }
          sampleFormat_ := sf
          stream_ := some { format := sf, playerFormat := c.settings_.player.sample_format,
                            bufferLen := some (bufferLenMs ss c.settings_.player.latency) }
          settings_ := { c.settings_ with player := c.alsaSettings }
          player_ := some { settings := c.alsaSettings, active := true } } := by
  simp only [Controller.dispatch, onCodecHeader_eq] at hok ⊢
  by_cases h1 : h.codec = "pcm"
  · rw [if_pos h1] at hok
    obtain ⟨sf, ss, hset, hss, hctl⟩ := chainRun_returned env _ _ _ _ hok
    refine ⟨.PcmDecoder, sf, ss, hset, hss, (if_pos h1).symm, Or.inl h1, ?_⟩
    rw [if_pos h1, hctl]
    rfl
  · by_cases h2 : h.codec = "null"
    · rw [if_neg h1, if_pos h2] at hok
      obtain ⟨sf, ss, hset, hss, hctl⟩ := chainRun_returned env _ _ _ _ hok
      refine ⟨.NullDecoder, sf, ss, hset, hss, (if_neg h1).symm, Or.inr h2, ?_⟩
      rw [if_neg h1, if_pos h2, hctl]
      rfl
    · simp [h1, h2] at hok

theorem alsaPlayer_new_eq (params : String → Option String) (stoi : String → Option Int)
    (settings : ClientSettings.Player) (format : SampleFormat)
    (hb : ∀ s, params "buffer_time" = some s → ∃ v, stoi s = some v)
    (hf : ∀ s, params "fragments" = some s → ∃ f, stoi s = some f) :
    AlsaPlayer.new params stoi settings format =
      some { settings_ := settings, format := format,
             buffer_time_ := ((params "buffer_time").bind stoi).map (fun v => milliseconds (max v 10)),
             periods_ := ((params "fragments").bind stoi).map (fun f => max f 2) } := by
  unfold AlsaPlayer.new
  cases hpb : params "buffer_time" with
  | none =>
    cases hpf : params "fragments" with
    | none => simp
    | some sf =>
      obtain ⟨f, hsf⟩ := hf sf hpf
      simp [hsf]
  | some sb =>
    obtain ⟨v, hsb⟩ := hb sb hpb
    cases hpf : params "fragments" with
    | none => simp [hsb]
    | some sf =>
      obtain ⟨f, hsf⟩ := hf sf hpf
      simp [hsb, hsf]

theorem ntohl_htonl (n : Nat) (h : n < 4294967296) : ntohl (htonl n) = n := by
  simp only [ntohl, htonl, List.foldl]
  omega

theorem writeLoop_all (buf : List Nat) (h : buf ≠ []) :
    PlayerClient.writeLoop [.written buf.length] buf = buf := by
  cases buf with
  | nil => exact absurd rfl h
  | cons b rest => simp [PlayerClient.writeLoop]

theorem wireBytes_eq (client_fd : Int) (json_str : List Nat) (h : 0 < client_fd) :
    PlayerClient.wireBytes client_fd [.written (16 + json_str.length)] json_str =
      comm_header LIGHTNINGCAST_COMM_HEADER_KEY (8 + json_str.length) ++
        (comm_header LIGHTNINGCAST_COMM_HEADER_KEY json_str.length ++ json_str) := by
  have hlen : (PlayerClient.sendBuf json_str).length = 8 + json_str.length := by
    simp [PlayerClient.sendBuf, comm_header, htonl]; omega
  have hfd : ¬ client_fd ≤ 0 := by omega
  unfold PlayerClient.wireBytes PlayerClient.processSend
  rw [if_neg hfd, hlen]
  have hl2 : (comm_header LIGHTNINGCAST_COMM_HEADER_KEY (8 + json_str.length) ++
      PlayerClient.sendBuf json_str).length = 16 + json_str.length := by
    simp [PlayerClient.sendBuf, comm_header, htonl]; omega
  have := writeLoop_all (comm_header LIGHTNINGCAST_COMM_HEADER_KEY (8 + json_str.length) ++
      PlayerClient.sendBuf json_str) (by simp [comm_header, htonl])
  rw [hl2] at this
  rw [this]
  rfl

theorem readFrame_wireBytes (client_fd : Int) (json_str : List Nat) (h : 0 < client_fd)
    (hsize : 8 + json_str.length < 4294967296) :
    PlayerClient.readFrame (PlayerClient.wireBytes client_fd [.written (16 + json_str.length)] json_str) =
      some (comm_header LIGHTNINGCAST_COMM_HEADER_KEY json_str.length ++ json_str) := by
  rw [wireBytes_eq client_fd json_str h]
  have hk : ntohl (htonl LIGHTNINGCAST_COMM_HEADER_KEY) = LIGHTNINGCAST_COMM_HEADER_KEY := by decide
  have hs : ntohl (htonl (8 + json_str.length)) = 8 + json_str.length := ntohl_htonl _ hsize
  have h4 : (comm_header LIGHTNINGCAST_COMM_HEADER_KEY (8 + json_str.length) ++
      (comm_header LIGHTNINGCAST_COMM_HEADER_KEY json_str.length ++ json_str)).take 4 =
      htonl LIGHTNINGCAST_COMM_HEADER_KEY := by
    simp [comm_header, htonl]
  have h48 : ((comm_header LIGHTNINGCAST_COMM_HEADER_KEY (8 + json_str.length) ++
      (comm_header LIGHTNINGCAST_COMM_HEADER_KEY json_str.length ++ json_str)).drop 4).take 4 =
      htonl (8 + json_str.length) := by
    simp [comm_header, htonl]
  have h8 : (comm_header LIGHTNINGCAST_COMM_HEADER_KEY (8 + json_str.length) ++
      (comm_header LIGHTNINGCAST_COMM_HEADER_KEY json_str.length ++ json_str)).drop 8 =
      comm_header LIGHTNINGCAST_COMM_HEADER_KEY json_str.length ++ json_str := by
    simp [comm_header, htonl]
  have hlen : (comm_header LIGHTNINGCAST_COMM_HEADER_KEY json_str.length ++ json_str).length =
      8 + json_str.length := by
    simp [comm_header, htonl]; omega
  have hlen2 : (comm_header LIGHTNINGCAST_COMM_HEADER_KEY (8 + json_str.length) ++
      (comm_header LIGHTNINGCAST_COMM_HEADER_KEY json_str.length ++ json_str)).length =
      16 + json_str.length := by
    simp [comm_header, htonl]; omega
  unfold PlayerClient.readFrame
  rw [h4, h48, h8, hk, hs, hlen, hlen2]
  rw [if_neg (by omega), if_neg (by simp), if_neg (by omega), ← hlen, List.take_length]

theorem handleLoop_three (s : SnapCastClient) :
    ∃ r, SnapCastClient.handleLoop 3 s = some r := by
  rcases s with ⟨ready, ready_sync, cmd, addr, is_start, efd, pcm⟩
  cases cmd <;> cases ready <;> simp [SnapCastClient.handleLoop, SnapCastClient.finishCmd]

theorem handleLoop_fuel (n : Nat) (s : SnapCastClient) :
    SnapCastClient.handleLoop (n + 3) s = SnapCastClient.handleLoop 3 s := by
  rcases s with ⟨ready, ready_sync, cmd, addr, is_start, efd, pcm⟩
  cases cmd <;> cases ready <;> simp [SnapCastClient.handleLoop, SnapCastClient.finishCmd]

theorem stop_run (m : Machine) (hefd : m.client.efd = -1) (hcmd : m.client.cmd = .NONE)
    (hcaller : m.caller = .idle) (hh : m.handler = .waiting ∨ m.handler = .atLock) :
    m.run Step.stop =
      some { m with
        client := { m.client with ready := false, ready_sync := true }
        handler := .waiting } := by
  rcases m with ⟨⟨ready, ready_sync, cmd, addr, is_start, efd, pcm⟩, handler, caller, ww, op, cl, wp, sr, dr⟩
  simp only at hefd hcmd hcaller hh
  subst hefd hcmd hcaller
  rcases hh with rfl | rfl <;>
    simp [Machine.run, Step.stop, Machine.step, Machine.writeWake, SnapCastClient.handleLoop,
      SnapCastClient.finishCmd]

theorem stop_waits_for_handler (m : Machine) (hcaller : m.caller = .idle) :
    m.run [.callStop, .stopReturn] = none := by
  rcases m with ⟨⟨ready, ready_sync, cmd, addr, is_start, efd, pcm⟩, handler, caller, ww, op, cl, wp, sr, dr⟩
  simp only at hcaller
  subst hcaller
  by_cases h : efd = -1 <;>
    simp [Machine.run, Machine.step, Machine.writeWake, h]

theorem run_append (l1 l2 : List Step) (a b : Machine) (h : a.run l1 = some b) :
    a.run (l1 ++ l2) = b.run l2 := by
  induction l1 generalizing a with
  | nil => simp [Machine.run] at h; subst h; rfl
  | cons s l ih =>
    simp only [Machine.run, List.cons_append] at h ⊢
    cases hs : a.step s with
    | none => simp [hs] at h
    | some a1 =>
      simp only [hs] at h ⊢
      exact ih a1 h

theorem start_run (m : Machine) (addr : String) (fd : Int) (hh : m.handler = .waiting)
    (hc : m.caller = .idle) (hfd : fd ≠ -1) :
    m.run (Step.start addr fd) =
      some { m with
        client := { m.client with
          ready := false, ready_sync := true, cmd := .NONE, snapserver_ipaddr := addr,
          is_start := true, efd := fd }
        handler := .running addr fd
        opened := m.opened ++ [fd]
        wakePending := false
        startResult := some true } := by
  rcases m with ⟨⟨ready, ready_sync, cmd, a0, is_start, efd, pcm⟩, handler, caller, ww, op, cl, wp, sr, dr⟩
  simp only at hh hc
  subst hh hc
  simp [Machine.run, Step.start, Machine.step, SnapCastClient.handleLoop, SnapCastClient.finishCmd, hfd]

theorem pcm_list_loop_eq (hints : List Hint) :
    ∀ (k : Nat) (acc : List PcmDevice),
      AlsaPlayer.pcm_list_loop hints k acc =
        acc ++ ((hints.filter (fun h => h.io = none ∨ h.io = some "Output")).enumFrom k).map
          (fun ih => { idx := ih.1, name := ih.2.name, description := ih.2.descr.getD "" }) := by
  induction hints with
  | nil => intro k acc; simp [AlsaPlayer.pcm_list_loop]
  | cons n rest ih =>
    intro k acc
    by_cases hn : n.io = none ∨ n.io = some "Output"
    · have hc : ¬ (n.io ≠ none ∧ n.io ≠ some "Output") := by
        rcases hn with h | h <;> simp [h]
      simp only [AlsaPlayer.pcm_list_loop, if_neg hc]
      rw [ih, List.filter_cons_of_pos (by simpa using hn)]
      simp [List.enumFrom]
    · have hc : n.io ≠ none ∧ n.io ≠ some "Output" := by
        constructor
        · intro h; exact hn (Or.inl h)
        · intro h; exact hn (Or.inr h)
      simp only [AlsaPlayer.pcm_list_loop, if_pos hc]
      rw [ih, List.filter_cons_of_neg (by simpa using hn)]

theorem unsupported_ne_cant_set (a b : String) :
    "Unsupported sample format: " ++ a ≠ "Can't set " ++ b := by
  intro h
  have h2 := congrArg String.data h
  simp at h2

theorem initAlsa_unsupported (alsa : AlsaEnv) (p : AlsaPlayer)
    (hopen : 0 ≤ alsa.snd_pcm_open p.settings_.pcm_device) (hany : 0 ≤ alsa.snd_pcm_hw_params_any)
    (hacc : 0 ≤ alsa.snd_pcm_hw_params_set_access)
    (hnone : AlsaPlayer.pcmFormat p.format.bits (alsa.sampleSize p.format) = none) :
    p.initAlsa alsa =
      ({ p with handle_ := true }, some ⟨"Unsupported sample format: " ++ toString p.format.bits, 0⟩) := by
  simp only [AlsaPlayer.initAlsa, if_neg (not_lt.mpr hopen), if_neg (not_lt.mpr hany),
    if_neg (not_lt.mpr hacc), hnone]

theorem initAlsa_supported (alsa : AlsaEnv) (p : AlsaPlayer) (f : snd_pcm_format_t)
    (hopen : 0 ≤ alsa.snd_pcm_open p.settings_.pcm_device) (hany : 0 ≤ alsa.snd_pcm_hw_params_any)
    (hacc : 0 ≤ alsa.snd_pcm_hw_params_set_access)
    (hsome : AlsaPlayer.pcmFormat p.format.bits (alsa.sampleSize p.format) = some f) :
    (p.initAlsa alsa).1.volCorrection_ =
      (if alsa.snd_pcm_hw_params_set_format f = -EINVAL ∧ f = .S24_LE then 256 else p.volCorrection_) ∧
    (∀ e, (p.initAlsa alsa).2 = some e → ∃ r, e.what = "Can't set " ++ r) ∧
    (alsa.snd_pcm_hw_params_set_format
        (AlsaPlayer.fallbackFormat (alsa.snd_pcm_hw_params_set_format f) f) < 0 →
      (p.initAlsa alsa).2 = some ⟨"Can't set format: " ++
        alsa.snd_strerror (alsa.snd_pcm_hw_params_set_format
          (AlsaPlayer.fallbackFormat (alsa.snd_pcm_hw_params_set_format f) f)) ++
        ", supported: " ++ alsa.supportedFormats, 0⟩) := by
  simp only [AlsaPlayer.initAlsa, if_neg (not_lt.mpr hopen), if_neg (not_lt.mpr hany),
    if_neg (not_lt.mpr hacc), hsome]
  refine ⟨?_, ?_, ?_⟩
  · split_ifs <;> simp_all
  · intro e he
    split_ifs at he <;> simp only [Option.some.injEq, reduceCtorEq] at he <;> subst he
    all_goals exact ⟨_, by simp only [String.append_assoc]; rfl⟩
  · intro hfail
    simp only [if_pos hfail]

theorem wrapUInt32_of_fits (x : Int) (h0 : 0 ≤ x) (h : x < 4294967296) : wrapUInt32 x = x.toNat := by
  unfold wrapUInt32
  rw [Int.emod_eq_of_lt h0 h]

theorem periodTime_eq (alsa : AlsaEnv) (p : AlsaPlayer)
    (hB0 : 0 ≤ p.buffer_time_.getD BUFFER_TIME) (hB : p.buffer_time_.getD BUFFER_TIME < 4294967296)
    (hp : 0 < p.periods_.getD PERIODS)
    (hmax : 0 ≤ alsa.snd_pcm_hw_params_get_period_time_max.1)
    (hmin : 0 ≤ alsa.snd_pcm_hw_params_get_period_time_min.1) :
    AlsaPlayer.periodTime alsa p =
      max (min (p.buffer_time_.getD BUFFER_TIME / p.periods_.getD PERIODS).toNat
          alsa.snd_pcm_hw_params_get_period_time_max.2)
        alsa.snd_pcm_hw_params_get_period_time_min.2 := by
  have hq0 : 0 ≤ p.buffer_time_.getD BUFFER_TIME / p.periods_.getD PERIODS :=
    Int.ediv_nonneg hB0 (le_of_lt hp)
  have hq1 : p.buffer_time_.getD BUFFER_TIME / p.periods_.getD PERIODS < 4294967296 :=
    lt_of_le_of_lt (Int.ediv_le_self _ hB0) hB
  have htd : (p.buffer_time_.getD BUFFER_TIME).tdiv (p.periods_.getD PERIODS) =
      p.buffer_time_.getD BUFFER_TIME / p.periods_.getD PERIODS :=
    Int.tdiv_eq_ediv hB0 (le_of_lt hp)
  simp only [AlsaPlayer.periodTime, htd, wrapUInt32_of_fits _ hq0 hq1, if_neg (not_lt.mpr hmax),
    if_neg (not_lt.mpr hmin)]
  split_ifs <;> omega

theorem bufferTime_eq (p : AlsaPlayer) (t : Nat)
    (hB0 : 0 ≤ p.buffer_time_.getD BUFFER_TIME) (hB : p.buffer_time_.getD BUFFER_TIME < 4294967296)
    (hp0 : 0 ≤ p.periods_.getD MIN_PERIODS) (hp : p.periods_.getD MIN_PERIODS < 4294967296)
    (ht : t * (p.periods_.getD MIN_PERIODS).toNat < 4294967296) :
    AlsaPlayer.bufferTime p t =
      max (p.buffer_time_.getD BUFFER_TIME).toNat (t * (p.periods_.getD MIN_PERIODS).toNat) := by
  simp only [AlsaPlayer.bufferTime, wrapUInt32_of_fits _ hB0 hB, wrapUInt32_of_fits _ hp0 hp,
    Nat.mod_eq_of_lt ht]
  split_ifs <;> omega

theorem quotient_periods_le (B q : Int) (hB0 : 0 ≤ B) (hq : 0 < q) :
    (B / q).toNat * q.toNat ≤ B.toNat := by
  have h1 : B / q * q ≤ B := Int.ediv_mul_le B (ne_of_gt hq)
  have h2 : 0 ≤ B / q := Int.ediv_nonneg hB0 (le_of_lt hq)
  have h3 : (((B / q).toNat * q.toNat : Nat) : Int) = B / q * q := by
    push_cast
    rw [Int.toNat_of_nonneg h2, Int.toNat_of_nonneg (le_of_lt hq)]
  have h4 : ((B.toNat : Nat) : Int) = B := Int.toNat_of_nonneg hB0
  have h5 : (((B / q).toNat * q.toNat : Nat) : Int) ≤ ((B.toNat : Nat) : Int) := by
    rw [h3, h4]; exact h1
  exact Int.ofNat_le.mp h5

theorem uninitAlsa_buffer (p : AlsaPlayer) :
    p.uninitAlsa.buffer_ = p.buffer_ ∧ p.uninitAlsa.frames_ = p.frames_ := by
  unfold AlsaPlayer.uninitAlsa
  split_ifs <;> exact ⟨rfl, rfl⟩

theorem initAlsa_buffer (alsa : AlsaEnv) (p : AlsaPlayer) :
    (p.initAlsa alsa).1.buffer_ = p.buffer_ ∧
    ((p.initAlsa alsa).1.frames_ = p.frames_ ∨
      (p.initAlsa alsa).1.frames_ = alsa.snd_pcm_hw_params_get_period_size) := by
  by_cases h1 : alsa.snd_pcm_open p.settings_.pcm_device < 0
  · simp only [AlsaPlayer.initAlsa, if_pos h1, true_or, and_self]
  by_cases h2 : alsa.snd_pcm_hw_params_any < 0
  · simp only [AlsaPlayer.initAlsa, if_neg h1, if_pos h2, true_or, and_self]
  by_cases h3 : alsa.snd_pcm_hw_params_set_access < 0
  · simp only [AlsaPlayer.initAlsa, if_neg h1, if_neg h2, if_pos h3, true_or, and_self]
  cases hf : AlsaPlayer.pcmFormat p.format.bits (alsa.sampleSize p.format) with
  | none => simp only [AlsaPlayer.initAlsa, if_neg h1, if_neg h2, if_neg h3, hf, true_or, and_self]
  | some f =>
    simp only [AlsaPlayer.initAlsa, if_neg h1, if_neg h2, if_neg h3, hf]
    split_ifs <;> simp

theorem afterWrite_buffer (pcm : Int) (w : Worker) :
    (AlsaPlayer.afterWrite pcm w).player.buffer_ = w.player.buffer_ ∧
    ∀ e ∈ (AlsaPlayer.afterWrite pcm w).ops, e ∈ w.ops ∨ e = .snd_pcm_prepare ∨ e = .uninitAlsa := by
  unfold AlsaPlayer.afterWrite
  split_ifs
  · exact ⟨rfl, fun e he => by simp at he; tauto⟩
  · exact ⟨(uninitAlsa_buffer _).1, fun e he => by simp at he; tauto⟩
  · exact ⟨rfl, fun e he => Or.inl he⟩

theorem starvePass_buffer (tick : Int) (w : Worker) :
    (AlsaPlayer.starvePass tick w).player.buffer_ = w.player.buffer_ ∧
    ∀ e ∈ (AlsaPlayer.starvePass tick w).ops,
      e ∈ w.ops ∨ e = .waitForChunk ∨ e = .uninitAlsa ∨ e = .clearChunks := by
  unfold AlsaPlayer.starvePass
  split_ifs
  · exact ⟨(uninitAlsa_buffer _).1, fun e he => by simp at he; tauto⟩
  · exact ⟨rfl, fun e he => by simp at he; tauto⟩

theorem starve_buffer (ticks : List Int) :
    ∀ w : Worker, (AlsaPlayer.starve ticks w).player.buffer_ = w.player.buffer_ ∧
      ∀ e ∈ (AlsaPlayer.starve ticks w).ops,
        e ∈ w.ops ∨ e = .waitForChunk ∨ e = .uninitAlsa ∨ e = .clearChunks := by
  induction ticks with
  | nil => intro w; exact ⟨rfl, fun e he => Or.inl he⟩
  | cons tick rest ih =>
    intro w
    simp only [AlsaPlayer.starve]
    refine ⟨((ih _).1).trans (starvePass_buffer tick w).1, fun e he => ?_⟩
    rcases (ih _).2 e he with h | h
    · exact (starvePass_buffer tick w).2 e h
    · exact Or.inr h

theorem wrapSFrames_of_fits (n : Nat) (h : n < 9223372036854775808) : wrapSFrames n = n := by
  unfold wrapSFrames
  omega

theorem wrapSize_of_fits (x : Int) (h0 : 0 ≤ x) (h : x < 18446744073709551616) : wrapSize x = x.toNat := by
  unfold wrapSize
  rw [Int.emod_eq_of_lt h0 h]

theorem getAvailDelay_nonneg (d : AvailDelay) (p : AlsaPlayer) (hf : p.frames_ < 9223372036854775808)
    (hok : (p.getAvailDelay d).1 = true) : 0 ≤ (p.getAvailDelay d).2.1 := by
  unfold AlsaPlayer.getAvailDelay at hok ⊢
  rw [wrapSFrames_of_fits _ hf]
  split_ifs at hok ⊢ <;> simp_all

theorem workerPull_cases (it : Pass) (w : Worker) :
    (((w.player.getAvailDelay it.availDelay).1 = false ∨ (w.player.getAvailDelay it.availDelay).2.1 = 0) ∧
      (AlsaPlayer.workerPull it w).player = w.player ∧
      ∀ e ∈ (AlsaPlayer.workerPull it w).ops,
        e ∈ w.ops ∨ e = .getAvailDelay ∨ e = .sleep 10 ∨ e = .snd_pcm_prepare ∨ e = .sleepNoFrames) ∨
    ((w.player.getAvailDelay it.availDelay).1 = true ∧ (w.player.getAvailDelay it.availDelay).2.1 ≠ 0 ∧
      (AlsaPlayer.workerPull it w).player.buffer_ =
        (if w.player.buffer_ < wrapSize ((w.player.getAvailDelay it.availDelay).2.1 * it.frameSize) then
          wrapSize ((w.player.getAvailDelay it.availDelay).2.1 * it.frameSize)
         else w.player.buffer_) ∧
      ∀ e ∈ (AlsaPlayer.workerPull it w).ops,
        e ∈ w.ops ∨ e = .getPlayerChunk (w.player.getAvailDelay it.availDelay).2.1 ∨
          ∀ n, e ≠ .getPlayerChunk n) := by
  by_cases h1 : (w.player.getAvailDelay it.availDelay).1 = false
  · left
    simp only [AlsaPlayer.workerPull, if_pos h1]
    exact ⟨Or.inl h1, trivial, fun e he => by simp at he; tauto⟩
  by_cases h2 : (w.player.getAvailDelay it.availDelay).2.1 = 0
  · left
    simp only [AlsaPlayer.workerPull, if_neg h1, if_pos h2]
    exact ⟨Or.inr h2, trivial, fun e he => by simp at he; tauto⟩
  right
  refine ⟨by simpa using h1, h2, ?_⟩
  by_cases hg : it.gotChunk = true
  · simp only [AlsaPlayer.workerPull, if_neg h1, if_neg h2, if_pos hg]
    refine ⟨?_, fun e he => ?_⟩
    · rw [(afterWrite_buffer _ _).1]
      split_ifs <;> rfl
    · rcases (afterWrite_buffer _ _).2 e he with h | h | h
      · simp at h
        rcases h with h | h | h | h
        · exact Or.inl h
        · subst h; exact Or.inr (Or.inr (fun n => by simp))
        · exact Or.inr (Or.inl h)
        · subst h; exact Or.inr (Or.inr (fun n => by simp))
      · subst h; exact Or.inr (Or.inr (fun n => by simp))
      · subst h; exact Or.inr (Or.inr (fun n => by simp))
  · simp only [AlsaPlayer.workerPull, if_neg h1, if_neg h2, if_neg hg]
    refine ⟨?_, fun e he => ?_⟩
    · rw [(starve_buffer _ _).1]
      split_ifs <;> rfl
    · rcases (starve_buffer _ _).2 e he with h | h | h | h
      · simp at h
        rcases h with h | h | h
        · exact Or.inl h
        · subst h; exact Or.inr (Or.inr (fun n => by simp))
        · exact Or.inr (Or.inl h)
      · subst h; exact Or.inr (Or.inr (fun n => by simp))
      · subst h; exact Or.inr (Or.inr (fun n => by simp))
      · subst h; exact Or.inr (Or.inr (fun n => by simp))

theorem workerPull_buffer_mono (it : Pass) (w : Worker) (b : Nat) (hb : b = w.player.buffer_) :
    b ≤ (AlsaPlayer.workerPull it w).player.buffer_ := by
  subst hb
  rcases workerPull_cases it w with h | h
  · rw [h.2.1]
  · rw [h.2.2.1]
    split_ifs <;> omega

theorem workerInit_buffer (it : Pass) (w : Worker) :
    (AlsaPlayer.workerInit it w).player.buffer_ = w.player.buffer_ ∧
    ((AlsaPlayer.workerInit it w).player.frames_ = w.player.frames_ ∨
      (AlsaPlayer.workerInit it w).player.frames_ = it.alsa.snd_pcm_hw_params_get_period_size) ∧
    ∀ e ∈ (AlsaPlayer.workerInit it w).ops, e ∈ w.ops ∨ ∀ n, e ≠ .getPlayerChunk n := by
  unfold AlsaPlayer.workerInit
  split_ifs
  · exact ⟨rfl, Or.inl rfl, fun e he => Or.inl he⟩
  · have hb := initAlsa_buffer it.alsa w.player
    rcases hinit : w.player.initAlsa it.alsa with ⟨p, e⟩
    rw [hinit] at hb
    cases e with
    | none =>
      refine ⟨hb.1, hb.2, fun e he => ?_⟩
      simp at he
      rcases he with h | h
      · exact Or.inl h
      · subst h; exact Or.inr (fun n => by simp)
    | some x =>
      refine ⟨hb.1, hb.2, fun e he => ?_⟩
      simp at he
      rcases he with h | h | h
      · exact Or.inl h
      · subst h; exact Or.inr (fun n => by simp)
      · subst h; exact Or.inr (fun n => by simp)

theorem workerPass_buffer_mono (it : Pass) (w : Worker) :
    w.player.buffer_ ≤ (AlsaPlayer.workerPass it w).player.buffer_ := by
  have hi := (workerInit_buffer it w).1
  unfold AlsaPlayer.workerPass
  simp only []
  split_ifs
  · exact le_of_eq hi.symm
  · exact workerPull_buffer_mono it _ _ hi.symm
  · rw [(uninitAlsa_buffer _).1]; exact le_of_eq hi.symm
  · exact le_of_eq hi.symm
  · exact workerPull_buffer_mono it _ _ hi.symm

theorem worker_foldl_mono (passes : List Pass) :
    ∀ w : Worker, w.player.buffer_ ≤
      (passes.foldl (fun w it => if w.player.active_ then AlsaPlayer.workerPass it w else w) w).player.buffer_ := by
  induction passes with
  | nil => intro w; exact le_refl _
  | cons it rest ih =>
    intro w
    simp only [List.foldl_cons]
    refine le_trans ?_ (ih _)
    split_ifs
    · exact workerPass_buffer_mono it w
    · exact le_refl _

theorem workerPass_call (it : Pass) (w : Worker) (n : Int)
    (hf : w.player.frames_ < 9223372036854775808)
    (hf2 : it.alsa.snd_pcm_hw_params_get_period_size < 9223372036854775808)
    (hcall : AlsaOp.getPlayerChunk n ∈ (AlsaPlayer.workerPass it w).ops)
    (hnew : AlsaOp.getPlayerChunk n ∉ w.ops) :
    0 < n ∧
    (AlsaPlayer.workerPass it w).player.buffer_ =
      (if w.player.buffer_ < wrapSize (n * it.frameSize) then wrapSize (n * it.frameSize)
       else w.player.buffer_) := by
  have hi := workerInit_buffer it w
  have hfi : (AlsaPlayer.workerInit it w).player.frames_ < 9223372036854775808 := by
    rcases hi.2.1 with h | h <;> rw [h] <;> assumption
  have hnewi : AlsaOp.getPlayerChunk n ∉ (AlsaPlayer.workerInit it w).ops := by
    intro hmem
    rcases hi.2.2 _ hmem with h | h
    · exact hnew h
    · exact h n rfl
  have key : ∀ w2 : Worker, w2.player = (AlsaPlayer.workerInit it w).player →
      AlsaOp.getPlayerChunk n ∉ w2.ops →
      AlsaOp.getPlayerChunk n ∈ (AlsaPlayer.workerPull it w2).ops →
      0 < n ∧ (AlsaPlayer.workerPull it w2).player.buffer_ =
        (if w.player.buffer_ < wrapSize (n * it.frameSize) then wrapSize (n * it.frameSize)
         else w.player.buffer_) := by
    intro w2 hp hn2 hc2
    rcases workerPull_cases it w2 with h | h
    · rcases h.2.2 _ hc2 with h' | h' | h' | h' | h'
      · exact absurd h' hn2
      all_goals cases h'
    · rcases h.2.2.2 _ hc2 with h' | h' | h'
      · exact absurd h' hn2
      · have hn : n = (w2.player.getAvailDelay it.availDelay).2.1 := by
          injection h'
        have h0 := getAvailDelay_nonneg it.availDelay w2.player (by rw [hp]; exact hfi) h.1
        have hne := h.2.1
        rw [← hn] at h0 hne
        refine ⟨lt_of_le_of_ne h0 (Ne.symm hne), ?_⟩
        rw [h.2.2.1, ← hn, hp, hi.1]
      · exact absurd rfl (h' n)
  generalize (if w.player.buffer_ < wrapSize (n * it.frameSize) then wrapSize (n * it.frameSize)
    else w.player.buffer_) = R at key ⊢
  unfold AlsaPlayer.workerPass at hcall ⊢
  simp only [] at hcall ⊢
  split_ifs at hcall ⊢
  · exact absurd hcall hnewi
  · exact key _ rfl (by simp; exact hnewi) hcall
  · simp at hcall; exact absurd hcall hnewi
  · simp at hcall; exact absurd hcall hnewi
  · exact key _ rfl (by simp; exact hnewi) hcall

theorem step_keeps_start_invariant (m m1 : Machine) (s : Step) (hs : s ≠ .callExit)
    (hstep : m.step s = some m1)
    (h1 : m.caller = .inStart →
      m.client.cmd = .START ∨ (m.client.cmd = .NONE ∧ m.client.is_start = true))
    (h2 : m.client.cmd = .START → m.caller = .inStart)
    (h3 : m.handler = .doStart → m.client.cmd = .START) :
    (m1.caller = .inStart →
      m1.client.cmd = .START ∨ (m1.client.cmd = .NONE ∧ m1.client.is_start = true)) ∧
    (m1.client.cmd = .START → m1.caller = .inStart) ∧
    (m1.handler = .doStart → m1.client.cmd = .START) := by
  rcases m with ⟨⟨ready, ready_sync, cmd, addr, is_start, efd, pcm⟩, handler, caller, ww, op, cl, wp, sr, dr⟩
  cases s with
  | callExit => exact absurd rfl hs
  | handler =>
    cases handler <;> cases cmd <;> cases ready <;> cases caller <;>
      simp [Machine.step, SnapCastClient.handleLoop, SnapCastClient.finishCmd] at hstep h1 h2 h3 <;>
      subst hstep <;> simp_all
  | doStartLaunch fd =>
    cases handler <;> simp [Machine.step] at hstep
    by_cases hfd : fd = -1
    · simp [hfd] at hstep
      subst hstep
      simp_all
    · simp [hfd, SnapCastClient.finishCmd] at hstep
      subst hstep
      simp_all
  | sessionWoken =>
    cases handler <;> simp [Machine.step] at hstep
    obtain ⟨-, rfl⟩ := hstep
    simp_all
  | sessionThrows =>
    cases handler <;> simp [Machine.step] at hstep
    subst hstep
    simp_all
  | callStart a =>
    simp [Machine.step] at hstep
    obtain ⟨-, rfl⟩ := hstep
    simp_all
  | startReturn =>
    simp [Machine.step] at hstep
    obtain ⟨hc, rfl⟩ := hstep
    simp_all
  | callStop =>
    simp [Machine.step] at hstep
    obtain ⟨hc, rfl⟩ := hstep
    subst hc
    simp [Machine.writeWake] at h2 h3 ⊢
    split_ifs <;> simp_all
  | stopReturn =>
    simp [Machine.step] at hstep
    obtain ⟨hc, rfl⟩ := hstep
    simp_all

theorem run_keeps_start_invariant (steps : List Step) :
    ∀ (m m1 : Machine), Step.callExit ∉ steps → m.run steps = some m1 →
      (m.caller = .inStart →
        m.client.cmd = .START ∨ (m.client.cmd = .NONE ∧ m.client.is_start = true)) →
      (m.client.cmd = .START → m.caller = .inStart) →
      (m.handler = .doStart → m.client.cmd = .START) →
      (m1.caller = .inStart →
        m1.client.cmd = .START ∨ (m1.client.cmd = .NONE ∧ m1.client.is_start = true)) ∧
      (m1.client.cmd = .START → m1.caller = .inStart) ∧
      (m1.handler = .doStart → m1.client.cmd = .START) := by
  induction steps with
  | nil =>
    intro m m1 _ hrun h1 h2 h3
    simp only [Machine.run, Option.some.injEq] at hrun
    subst hrun
    exact ⟨h1, h2, h3⟩
  | cons s rest ih =>
    intro m m1 hne hrun h1 h2 h3
    simp only [Machine.run] at hrun
    cases hs : m.step s with
    | none => simp [hs] at hrun
    | some m2 =>
      simp only [hs] at hrun
      have hs1 : s ≠ .callExit := fun h => hne (h ▸ List.mem_cons_self _ _)
      have hrest : Step.callExit ∉ rest := fun h => hne (List.mem_cons_of_mem _ h)
      obtain ⟨k1, k2, k3⟩ := step_keeps_start_invariant m m2 s hs1 hs h1 h2 h3
      exact ih m2 m1 hrest hrun k1 k2 k3

theorem run_snoc (steps : List Step) (s : Step) (m m1 : Machine)
    (h : m.run (steps ++ [s]) = some m1) :
    ∃ m2, m.run steps = some m2 ∧ m2.step s = some m1 := by
  induction steps generalizing m with
  | nil =>
    simp only [List.nil_append, Machine.run] at h ⊢
    cases hs : m.step s with
    | none => simp [hs] at h
    | some x => simp only [hs, Option.some.injEq] at h; exact ⟨m, rfl, by rw [hs, h]⟩
  | cons t rest ih =>
    simp only [List.cons_append, Machine.run] at h ⊢
    cases hs : m.step t with
    | none => simp [hs] at h
    | some x =>
      simp only [hs] at h ⊢
      exact ih x h

theorem doStart_retry (m : Machine) (hh : m.handler = .doStart) (hcmd : m.client.cmd = .START) :
    ∃ m1, m.run [.doStartLaunch (-1), .handler] = some m1 ∧ m1.handler = .doStart ∧
      m1.client.cmd = .START ∧ m1.doStartResult = some false ∧ m1.client.is_start = false ∧
      m1.step .startReturn = none := by
  rcases m with ⟨⟨ready, ready_sync, cmd, addr, is_start, efd, pcm⟩, handler, caller, ww, op, cl, wp, sr, dr⟩
  simp only at hh hcmd
  subst hh hcmd
  simp [Machine.run, Machine.step, SnapCastClient.handleLoop]

theorem returned_only_for_exit (m m1 : Machine) (s : Step) (hstep : m.step s = some m1)
    (hbefore : m.handler ≠ .returned) (hafter : m1.handler = .returned) :
    s = .handler ∧ m.client.cmd = .EXIT := by
  rcases m with ⟨⟨ready, ready_sync, cmd, addr, is_start, efd, pcm⟩, handler, caller, ww, op, cl, wp, sr, dr⟩
  cases s with
  | handler =>
    cases handler <;> cases cmd <;> cases ready <;>
      simp [Machine.step, SnapCastClient.handleLoop, SnapCastClient.finishCmd] at hstep hbefore ⊢ <;>
      subst hstep <;> simp at hafter
  | doStartLaunch fd =>
    cases handler <;> simp [Machine.step] at hstep
    by_cases hfd : fd = -1
    · simp [hfd] at hstep; subst hstep; simp at hafter
    · simp [hfd] at hstep; subst hstep; simp at hafter
  | sessionWoken =>
    cases handler <;> simp [Machine.step] at hstep
    obtain ⟨-, rfl⟩ := hstep
    simp at hafter
  | sessionThrows =>
    cases handler <;> simp [Machine.step] at hstep
    subst hstep
    simp at hafter
  | callStart a =>
    simp [Machine.step] at hstep
    obtain ⟨-, rfl⟩ := hstep
    exact absurd hafter hbefore
  | startReturn =>
    simp [Machine.step] at hstep
    obtain ⟨-, rfl⟩ := hstep
    exact absurd hafter hbefore
  | callStop =>
    simp [Machine.step] at hstep
    obtain ⟨-, rfl⟩ := hstep
    simp [Machine.writeWake] at hafter
    split_ifs at hafter <;> exact absurd hafter hbefore
  | stopReturn =>
    simp [Machine.step] at hstep
    obtain ⟨-, rfl⟩ := hstep
    exact absurd hafter hbefore
  | callExit =>
    simp [Machine.step, Machine.writeWake] at hstep
    split_ifs at hstep <;> subst hstep <;> exact absurd hafter hbefore

theorem session_throws_run (m : Machine) (host : String) (fd : Int)
    (hh : m.handler = .running host fd) (hcmd : m.client.cmd = .NONE) :
    m.run [.sessionThrows, .handler] =
      some { m with
        client := { m.client with ready := false }
        handler := .waiting
        closed := m.closed ++ [fd]
        doStartResult := some false } := by
  rcases m with ⟨⟨ready, ready_sync, cmd, addr, is_start, efd, pcm⟩, handler, caller, ww, op, cl, wp, sr, dr⟩
  simp only at hh hcmd
  subst hh hcmd
  cases ready <;> simp [Machine.run, Machine.step, SnapCastClient.handleLoop]

theorem handle_keeps_chain (env : Env) (e : ControllerEvent) (c : Controller)
    (hinv : c.decoder_.isSome = c.stream_.isSome ∧ c.stream_.isSome = c.player_.isSome)
    (hret : ((Controller.handle env e).run c).outcome = .returned ()) :
    ((Controller.handle env e).run c).ctl.decoder_.isSome =
        ((Controller.handle env e).run c).ctl.stream_.isSome ∧
      ((Controller.handle env e).run c).ctl.stream_.isSome =
        ((Controller.handle env e).run c).ctl.player_.isSome := by
  cases e with
  | reconnect =>
    simp only [Controller.handle, reconnect_run]
    exact ⟨rfl, rfl⟩
  | connect ec =>
    by_cases h : ec = 0
    · subst h
      simp only [Controller.handle, Act.run, onConnect_apply, Controller.withHostId]
      split_ifs <;> exact hinv
    · simp only [Controller.handle, Controller.onConnect, if_neg h, reconnect_run]
      exact ⟨rfl, rfl⟩
  | helloResponse ec response =>
    by_cases h : ec = 0
    · subst h
      cases response <;>
        simp [Controller.handle, Controller.onHelloResponse, Act.run, modifyCtl_apply, deref_some,
          deref_none, hinv]
    · simp only [Controller.handle, Controller.onHelloResponse, if_pos h, reconnect_run]
      exact ⟨rfl, rfl⟩
  | timer h ec =>
    by_cases h0 : ec = 0
    · cases h <;>
        simp [Controller.handle, Controller.onTimer, h0, Act.run, Controller.worker,
          Controller.sendTimeSyncMessage, emit_apply, hinv]
    · simp [Controller.handle, Controller.onTimer, h0, Act.run, act_pure_apply, hinv]
  | timeResponse q ec response =>
    by_cases h : ec = 0
    · subst h
      cases response <;>
        simp [Controller.handle, Controller.onTimeResponse, Act.run, emit_apply, deref_some,
          deref_none, hinv]
    · simp only [Controller.handle, Controller.onTimeResponse, if_pos h, reconnect_run]
      exact ⟨rfl, rfl⟩
  | message ec response =>
    by_cases h : ec = 0
    · subst h
      cases response with
      | none =>
        simp [Controller.handle, Controller.onMessage, Controller.getNextMessage, Act.run, emit_apply,
          hinv]
      | some msg =>
        simp only [Controller.handle] at hret ⊢
        rw [onMessage_outcome] at hret
        rw [onMessage_ctl]
        cases msg with
        | WireChunk chunk =>
          simp only [Controller.dispatch, onWireChunk_apply]
          cases hs : c.stream_ <;> cases hd : c.decoder_ <;> simp_all
          split_ifs <;> simp_all
        | ServerSettings s =>
          simp only [Controller.dispatch, onServerSettings_apply]
          cases hs : c.stream_ <;> cases hp : c.player_ <;> simp_all
        | CodecHeader hdr =>
          obtain ⟨kind, sf, ss, -, -, -, -, hctl⟩ := dispatch_codecHeader_returned env hdr c hret
          rw [hctl]
          exact ⟨rfl, rfl⟩
        | Base => simpa [Controller.dispatch, act_pure_apply] using hinv
        | Time t => simpa [Controller.dispatch, act_pure_apply] using hinv
        | Hello => simpa [Controller.dispatch, act_pure_apply] using hinv
        | StreamTags => simpa [Controller.dispatch, act_pure_apply] using hinv
        | ClientInfo => simpa [Controller.dispatch, act_pure_apply] using hinv
    · simp only [Controller.handle, Controller.onMessage, if_pos h, reconnect_run]
      exact ⟨rfl, rfl⟩

theorem after_keeps_chain (env : Env) (events : List ControllerEvent) :
    ∀ c c1 : Controller, Controller.after env events c = some c1 →
      (c.decoder_.isSome = c.stream_.isSome ∧ c.stream_.isSome = c.player_.isSome) →
      (c1.decoder_.isSome = c1.stream_.isSome ∧ c1.stream_.isSome = c1.player_.isSome) := by
  induction events with
  | nil =>
    intro c c1 h hinv
    simp only [Controller.after, Option.some.injEq] at h
    subst h
    exact hinv
  | cons e rest ih =>
    intro c c1 h hinv
    simp only [Controller.after] at h
    cases ho : ((Controller.handle env e).run c).outcome with
    | returned u =>
      simp only [ho] at h
      exact ih _ c1 h (handle_keeps_chain env e c hinv ho)
    | thrown x => simp [ho] at h
    | nullDeref => simp [ho] at h

theorem chunk_or_settings_keeps_presence (env : Env) (c : Controller) (msg : BaseMessage)
    (hmsg : msg.type = .kWireChunk ∨ msg.type = .kServerSettings) :
    ((Controller.onMessage env 0 (some msg)).run c).outcome = .returned () ∧
    ((Controller.onMessage env 0 (some msg)).run c).ctl.decoder_.isSome = c.decoder_.isSome ∧
    ((Controller.onMessage env 0 (some msg)).run c).ctl.stream_.isSome = c.stream_.isSome ∧
    ((Controller.onMessage env 0 (some msg)).run c).ctl.player_.isSome = c.player_.isSome := by
  rw [onMessage_outcome, onMessage_ctl]
  cases msg with
  | WireChunk chunk =>
    simp only [Controller.dispatch, onWireChunk_apply]
    cases hs : c.stream_ <;> cases hd : c.decoder_ <;> simp [hs, hd]
    all_goals try (split_ifs <;> simp [hs, hd])
  | ServerSettings s =>
    simp only [Controller.dispatch, onServerSettings_apply]
    cases hs : c.stream_ <;> cases hp : c.player_ <;> simp [hs, hp]
  | CodecHeader hdr => simp [BaseMessage.type] at hmsg
  | Base => simp [BaseMessage.type] at hmsg
  | Time t => simp [BaseMessage.type] at hmsg
  | Hello => simp [BaseMessage.type] at hmsg
  | StreamTags => simp [BaseMessage.type] at hmsg
  | ClientInfo => simp [BaseMessage.type] at hmsg

theorem initAlsa_times (alsa : AlsaEnv) (p : AlsaPlayer) (f : snd_pcm_format_t)
    (hopen : 0 ≤ alsa.snd_pcm_open p.settings_.pcm_device) (hany : 0 ≤ alsa.snd_pcm_hw_params_any)
    (hacc : 0 ≤ alsa.snd_pcm_hw_params_set_access)
    (hsome : AlsaPlayer.pcmFormat p.format.bits (alsa.sampleSize p.format) = some f)
    (hfmt : 0 ≤ alsa.snd_pcm_hw_params_set_format
      (AlsaPlayer.fallbackFormat (alsa.snd_pcm_hw_params_set_format f) f))
    (hch : 0 ≤ alsa.snd_pcm_hw_params_set_channels p.format.channels)
    (hrate : 0 ≤ (alsa.snd_pcm_hw_params_set_rate_near p.format.rate).1) :
    (p.initAlsa alsa).2 =
      if (alsa.snd_pcm_hw_params_set_period_time_near (AlsaPlayer.periodTime alsa p)).1 < 0 then
        some ⟨"Can't set period time: " ++ alsa.snd_strerror
          (alsa.snd_pcm_hw_params_set_period_time_near (AlsaPlayer.periodTime alsa p)).1, 0⟩
      else if (alsa.snd_pcm_hw_params_set_buffer_time_near (AlsaPlayer.bufferTime p
          (alsa.snd_pcm_hw_params_set_period_time_near (AlsaPlayer.periodTime alsa p)).2)).1 < 0 then
        some ⟨"Can't set buffer time to " ++ toString (AlsaPlayer.bufferTime p
            (alsa.snd_pcm_hw_params_set_period_time_near (AlsaPlayer.periodTime alsa p)).2) ++
          " us : " ++ alsa.snd_strerror (alsa.snd_pcm_hw_params_set_buffer_time_near
            (AlsaPlayer.bufferTime p
              (alsa.snd_pcm_hw_params_set_period_time_near (AlsaPlayer.periodTime alsa p)).2)).1, 0⟩
      else if alsa.snd_pcm_hw_params < 0 then
        some ⟨"Can't set hardware parameters: " ++ alsa.snd_strerror alsa.snd_pcm_hw_params, 0⟩
      else none := by
  rcases p with ⟨settings, format, active, thread, handle, bt, per, frames, vol, buffer⟩
  simp only at hopen hsome hch hrate
  have e1 : ∀ v : Nat, AlsaPlayer.periodTime alsa
      ⟨settings, format, active, thread, true, bt, per, frames, v, buffer⟩ =
      AlsaPlayer.periodTime alsa ⟨settings, format, active, thread, handle, bt, per, frames, vol, buffer⟩ :=
    fun _ => rfl
  have e2 : ∀ (v t : Nat), AlsaPlayer.bufferTime
      ⟨settings, format, active, thread, true, bt, per, frames, v, buffer⟩ t =
      AlsaPlayer.bufferTime ⟨settings, format, active, thread, handle, bt, per, frames, vol, buffer⟩ t :=
    fun _ _ => rfl
  by_cases hc : alsa.snd_pcm_hw_params_set_format f = -EINVAL ∧ f = .S24_LE
  · simp only [AlsaPlayer.initAlsa, if_neg (not_lt.mpr hopen), if_neg (not_lt.mpr hany),
      if_neg (not_lt.mpr hacc), hsome, if_neg (not_lt.mpr hfmt), if_pos hc, if_neg (not_lt.mpr hch),
      if_neg (not_lt.mpr hrate), e1, e2]
    split_ifs <;> rfl
  · simp only [AlsaPlayer.initAlsa, if_neg (not_lt.mpr hopen), if_neg (not_lt.mpr hany),
      if_neg (not_lt.mpr hacc), hsome, if_neg (not_lt.mpr hfmt), if_neg hc, if_neg (not_lt.mpr hch),
      if_neg (not_lt.mpr hrate), e1, e2]
    split_ifs <;> rfl

/-! ## The claims -/

/-- C1: a WireChunk message is appended to the stream exactly when a stream and
a decoder exist and `decode` succeeds; the appended chunk is stamped with the
current `sampleFormat_`; otherwise the Controller is unchanged.  In both cases
nothing is raised and exactly one further `getNextMessage` is issued, last. -/
theorem C1_wireChunk_appended_iff_decoded (env : Env) (c : Controller) (chunk : PcmChunk) :
    ((Controller.onMessage env 0 (some (.WireChunk chunk))).run c).outcome = .returned () ∧
    ((∃ s d, c.stream_ = some s ∧ c.decoder_ = some d ∧ (env.decode d chunk.payload).1 = true ∧
        ((Controller.onMessage env 0 (some (.WireChunk chunk))).run c).ctl =
          { c with stream_ := some { s with chunks := s.chunks ++
            [{ chunk with format := c.sampleFormat_, payload := (env.decode d chunk.payload).2 }] } } ∧
        ((Controller.onMessage env 0 (some (.WireChunk chunk))).run c).trace =
          [.addChunk { chunk with format := c.sampleFormat_, payload := (env.decode d chunk.payload).2 },
           .getNextMessage]) ∨
     (¬ (∃ s d, c.stream_ = some s ∧ c.decoder_ = some d ∧ (env.decode d chunk.payload).1 = true) ∧
        ((Controller.onMessage env 0 (some (.WireChunk chunk))).run c).ctl = c ∧
        ((Controller.onMessage env 0 (some (.WireChunk chunk))).run c).trace = [.getNextMessage])) := by
  rw [onMessage_some]
  simp only [Controller.dispatch, onWireChunk_apply]
  cases hs : c.stream_ <;> cases hd : c.decoder_ <;> simp
  rename_i s d
  by_cases hdec : (env.decode d chunk.payload).1 = true <;> simp [hdec, Stream.addChunk, ← hs, ← hd]

/-- C2: whenever the handling of a message calls `setBufferLen v`, the server
settings most recently received (the message itself for a ServerSettings
message, the stored settings otherwise) are present and
`v = std::max(0, bufferMs - latency - settings.player.latency)` as computed in
`int`; the value is never negative, it is the stream's buffer length afterwards,
and it is the exact integer `max 0 (bufferMs - latency - player latency)`
whenever the differences fit in 32 bits. -/
theorem C2_setBufferLen_value (env : Env) (c : Controller) (msg : BaseMessage) (v : Int)
    (hv : Effect.setBufferLen v ∈ ((Controller.onMessage env 0 (some msg)).run c).trace) :
    ∃ ss, (match msg with
          | .ServerSettings s => some s
          | _ => c.serverSettings_) = some ss ∧
      ((Controller.onMessage env 0 (some msg)).run c).ctl.serverSettings_ = some ss ∧
      v = max 0 (wrapInt32 (wrapInt32 (ss.bufferMs - ss.latency) - c.settings_.player.latency)) ∧
      0 ≤ v ∧
      (fitsInt32 (ss.bufferMs - ss.latency) →
        fitsInt32 (ss.bufferMs - ss.latency - c.settings_.player.latency) →
        v = max 0 (ss.bufferMs - ss.latency - c.settings_.player.latency)) ∧
      ∃ st, ((Controller.onMessage env 0 (some msg)).run c).ctl.stream_ = some st ∧ st.bufferLen = some v := by
  rw [onMessage_some] at hv ⊢
  have key : ∃ ss, (match msg with
          | .ServerSettings s => some s
          | _ => c.serverSettings_) = some ss ∧
      (Controller.dispatch env msg c []).ctl.serverSettings_ = some ss ∧
      v = bufferLenMs ss c.settings_.player.latency ∧
      ∃ st, (Controller.dispatch env msg c []).ctl.stream_ = some st ∧ st.bufferLen = some v := by
    have hv' : Effect.setBufferLen v ∈ (Controller.dispatch env msg c []).trace := by
      rcases hr : Controller.dispatch env msg c [] with ⟨o, c1, t1⟩
      rw [hr] at hv
      cases o <;> simpa using hv
    cases msg with
    | WireChunk chunk =>
      simp only [Controller.dispatch, onWireChunk_apply] at hv'
      cases hs : c.stream_ <;> cases hd : c.decoder_ <;> simp [hs, hd] at hv'
      split at hv' <;> simp at hv'
    | ServerSettings s =>
      simp only [Controller.dispatch, onServerSettings_apply] at hv' ⊢
      cases hs : c.stream_ <;> cases hp : c.player_ <;> simp [hs, hp] at hv' ⊢
      exact ⟨hv', hv'.symm⟩
    | CodecHeader h =>
      simp only [Controller.dispatch, onCodecHeader_eq] at hv' ⊢
      have hnt := teardownTrace_no_setBufferLen c v
      by_cases h1 : h.codec = "pcm"
      · simp only [h1, if_true] at hv' ⊢
        have := chainRun_setBufferLen env h _ _ _ v hv' (by simpa using hnt)
        simpa [Controller.tornDown] using this
      · by_cases h2 : h.codec = "null"
        · simp only [h1, h2, if_true, if_false] at hv' ⊢
          have := chainRun_setBufferLen env h _ _ _ v hv' (by simpa using hnt)
          simpa [Controller.tornDown] using this
        · simp [h1, h2, hnt] at hv'
    | _ => simp [Controller.dispatch] at hv'
  obtain ⟨ss, h1, h2, h3, st, h4, h5⟩ := key
  have hctl : (match Controller.dispatch env msg c [] with
      | ⟨.returned _, c1, t1⟩ => (⟨.returned (), c1, t1 ++ [Effect.getNextMessage]⟩ : Run Unit)
      | ⟨.thrown e, c1, t1⟩ => ⟨.thrown e, c1, t1⟩
      | ⟨.nullDeref, c1, t1⟩ => ⟨.nullDeref, c1, t1⟩).ctl = (Controller.dispatch env msg c []).ctl := by
    rcases Controller.dispatch env msg c [] with ⟨o, c1, t1⟩
    cases o <;> rfl
  refine ⟨ss, h1, ?_, h3, ?_, ?_, st, ?_, h5⟩
  · rw [hctl]; exact h2
  · rw [h3]; exact bufferLenMs_nonneg _ _
  · intro hf1 hf2
    rw [h3]; exact bufferLenMs_exact _ _ hf1 hf2
  · rw [hctl]; exact h4

/-- C2 (witness): new server settings of 1000 ms buffer and 100 ms latency in the
streaming state set the buffer length to 900. -/
theorem C2_setBufferLen_value_witness :
    Effect.setBufferLen 900 ∈
      ((Controller.onMessage Env.test 0 (some (.ServerSettings ⟨1000, 100⟩))).run Controller.streaming).trace ∧
    ∃ ss, (some ⟨1000, 100⟩ : Option ServerSettings) = some ss ∧
      ((Controller.onMessage Env.test 0 (some (.ServerSettings ⟨1000, 100⟩))).run
        Controller.streaming).ctl.serverSettings_ = some ss ∧
      (900 : Int) = max 0 (wrapInt32 (wrapInt32 (ss.bufferMs - ss.latency) -
        Controller.streaming.settings_.player.latency)) ∧
      (0 : Int) ≤ 900 ∧
      (fitsInt32 (ss.bufferMs - ss.latency) →
        fitsInt32 (ss.bufferMs - ss.latency - Controller.streaming.settings_.player.latency) →
        (900 : Int) = max 0 (ss.bufferMs - ss.latency - Controller.streaming.settings_.player.latency)) ∧
      ∃ st, ((Controller.onMessage Env.test 0 (some (.ServerSettings ⟨1000, 100⟩))).run
        Controller.streaming).ctl.stream_ = some st ∧ st.bufferLen = some 900 :=
  ⟨by decide,
    C2_setBufferLen_value Env.test Controller.streaming (.ServerSettings ⟨1000, 100⟩) 900 (by decide)⟩

/-- C3: handling a CodecHeader raises "codec not supported" exactly when the
codec name is neither "pcm" nor "null"; when it does, the decoder, the stream
and the player are all absent afterwards. -/
theorem C3_codec_not_supported_iff (env : Env) (c : Controller) (h : CodecHeader) :
    (h.codec ≠ "pcm" ∧ h.codec ≠ "null" ∧
      ((Controller.onMessage env 0 (some (.CodecHeader h))).run c).outcome =
        .thrown (.codecNotSupported h.codec) ∧
      ((Controller.onMessage env 0 (some (.CodecHeader h))).run c).ctl.decoder_ = none ∧
      ((Controller.onMessage env 0 (some (.CodecHeader h))).run c).ctl.stream_ = none ∧
      ((Controller.onMessage env 0 (some (.CodecHeader h))).run c).ctl.player_ = none) ∨
    ((h.codec = "pcm" ∨ h.codec = "null") ∧
      ∀ x, ((Controller.onMessage env 0 (some (.CodecHeader h))).run c).outcome ≠
        .thrown (.codecNotSupported x)) := by
  rw [onMessage_outcome, onMessage_ctl]
  simp only [Controller.dispatch, onCodecHeader_eq]
  by_cases h1 : h.codec = "pcm"
  · right
    simp only [h1, if_true]
    exact ⟨Or.inl trivial, fun x => chainRun_not_codecNotSupported _ _ _ _ _ x⟩
  · by_cases h2 : h.codec = "null"
    · right
      simp only [h1, h2, if_true, if_false]
      exact ⟨Or.inr trivial, fun x => chainRun_not_codecNotSupported _ _ _ _ _ x⟩
    · left
      simp [h1, h2, Controller.tornDown]

/-- C4: after a CodecHeader has been handled successfully, the Controller's
stream is a new, empty stream built for the sample format that `setHeader`
returned for this header, whatever the previous stream held; while no further
CodecHeader arrives, every message is handled without raising, and the stream
holds exactly the chunks of the later WireChunk messages that decoded, in order,
each carrying that sample format. -/
theorem C4_fresh_stream_after_header (env : Env) (c : Controller) (h : CodecHeader)
    (post : List BaseMessage)
    (hok : ((Controller.onMessage env 0 (some (.CodecHeader h))).run c).outcome = .returned ())
    (hpost : ∀ m ∈ post, m.type ≠ .kCodecHeader) :
    ∃ kind sf v,
      env.setHeader kind h = .ok sf ∧
      ((Controller.onMessage env 0 (some (.CodecHeader h))).run c).ctl.sampleFormat_ = sf ∧
      ((Controller.onMessage env 0 (some (.CodecHeader h))).run c).ctl.decoder_ =
        some { kind := kind, header := some h } ∧
      ((Controller.onMessage env 0 (some (.CodecHeader h))).run c).ctl.stream_ =
        some { format := sf, playerFormat := c.settings_.player.sample_format, bufferLen := some v,
               chunks := [] } ∧
      ((Controller.receive env post).run
        ((Controller.onMessage env 0 (some (.CodecHeader h))).run c).ctl).outcome = .returned () ∧
      ((Controller.receive env post).run
        ((Controller.onMessage env 0 (some (.CodecHeader h))).run c).ctl).ctl.sampleFormat_ = sf ∧
      ∃ s2, ((Controller.receive env post).run
          ((Controller.onMessage env 0 (some (.CodecHeader h))).run c).ctl).ctl.stream_ = some s2 ∧
        s2.format = sf ∧
        s2.chunks = decodedChunks env { kind := kind, header := some h } sf post ∧
        ∀ ch ∈ s2.chunks, ch.format = sf := by
  rw [onMessage_outcome] at hok
  rw [onMessage_ctl]
  obtain ⟨kind, sf, ss, hset, hss, -, -, hctl⟩ := dispatch_codecHeader_returned env h c hok
  have hf : (Controller.dispatch env (.CodecHeader h) c []).ctl.sampleFormat_ = sf := by rw [hctl]
  have hd : (Controller.dispatch env (.CodecHeader h) c []).ctl.decoder_ =
      some { kind := kind, header := some h } := by rw [hctl]
  have hs : (Controller.dispatch env (.CodecHeader h) c []).ctl.stream_ =
      some { format := sf, playerFormat := c.settings_.player.sample_format,
             bufferLen := some (bufferLenMs ss c.settings_.player.latency), chunks := [] } := by rw [hctl]
  refine ⟨kind, sf, bufferLenMs ss c.settings_.player.latency, hset, hf, hd, hs, ?_⟩
  obtain ⟨h1, -, h3, s2, h4, h5, h6⟩ := receive_chunks env { kind := kind, header := some h } sf post hpost
    (Controller.dispatch env (.CodecHeader h) c []).ctl [] _ hs hd hf
  refine ⟨h1, h3, s2, h4, h5, ?_, ?_⟩
  · simpa using h6
  · have hall : ∀ (l : List BaseMessage), ∀ ch ∈ decodedChunks env { kind := kind, header := some h } sf l,
        ch.format = sf := by
      intro l
      induction l with
      | nil => simp [decodedChunks]
      | cons m l ih =>
        cases m <;> simp only [decodedChunks] <;> try exact ih
        split
        · intro ch hch
          rcases List.mem_cons.mp hch with rfl | hch
          · rfl
          · exact ih ch hch
        · exact ih
    intro ch hch
    rw [h6] at hch
    simp at hch
    exact hall post ch hch

/-- C4 (witness): after a "pcm" header in the greeted state, two chunks, new
settings and a Time message leave the two chunks on the new stream. -/
theorem C4_fresh_stream_after_header_witness :
    ((Controller.onMessage Env.test 0 (some (.CodecHeader CodecHeader.pcm))).run
      Controller.greeted).outcome = .returned () ∧
    (∀ m ∈ BaseMessage.afterHeader, m.type ≠ .kCodecHeader) ∧
    ∃ s2, ((Controller.receive Env.test BaseMessage.afterHeader).run
          ((Controller.onMessage Env.test 0 (some (.CodecHeader CodecHeader.pcm))).run
            Controller.greeted).ctl).ctl.stream_ = some s2 ∧
      s2.chunks = [⟨1, 0, [1, 2], ⟨48000, 16, 2⟩⟩, ⟨2, 0, [1, 2], ⟨48000, 16, 2⟩⟩] :=
  ⟨by decide, by decide, by
    obtain ⟨kind, sf, v, hset, -, hd, -, -, -, s2, hs2, -, hch, -⟩ :=
      C4_fresh_stream_after_header Env.test Controller.greeted CodecHeader.pcm BaseMessage.afterHeader
        (by decide) (by decide)
    refine ⟨s2, hs2, ?_⟩
    have hsf : sf = ⟨48000, 16, 2⟩ := by
      simp only [Env.test] at hset
      exact (Except.ok.inj hset).symm
    rw [hch, hsf]
    simp [decodedChunks, BaseMessage.afterHeader, Env.test, PcmChunk.sample]⟩

/-- C6: a `getNextMessage`, Hello or time-sync completion that carries an error
runs `reconnect`: the connection is disconnected, the player, the stream and the
decoder are absent afterwards, the only timer wait registered is one for
`worker` with expiry 50 ms (50000 µs), and the completion issues no
`getNextMessage`, no time-sync request and no connect of its own.  When that
timer fires, `worker` connects; the successful connect sends Hello, starts the
quick sync with 50 rounds and issues `getNextMessage`. -/
theorem C6_error_runs_reconnect (env : Env) (c : Controller) (ec : Int) (hec : ec ≠ 0)
    (response : Option BaseMessage) (hello : Option ServerSettings) (quick_syncs : Int)
    (time : Option Time) :
    Controller.onMessage env ec response = Controller.reconnect ∧
    Controller.onHelloResponse ec hello = Controller.reconnect ∧
    Controller.onTimeResponse quick_syncs ec time = Controller.reconnect ∧
    (Controller.reconnect.run c).outcome = .returned () ∧
    (Controller.reconnect.run c).ctl = { c with player_ := none, stream_ := none, decoder_ := none } ∧
    (Controller.reconnect.run c).trace =
      [.timerCancel, .disconnect] ++ releaseTrace c ++ [.timerExpiresAfter 50000, .timerAsyncWait .worker] ∧
    (Controller.reconnect.run c).trace.count .disconnect = 1 ∧
    (Controller.reconnect.run c).trace.count (.timerAsyncWait .worker) = 1 ∧
    (∀ h, Effect.timerAsyncWait h ∈ (Controller.reconnect.run c).trace → h = .worker) ∧
    (∀ us, Effect.timerExpiresAfter us ∈ (Controller.reconnect.run c).trace → us = 50000) ∧
    Effect.getNextMessage ∉ (Controller.reconnect.run c).trace ∧
    (∀ q, Effect.sendTimeRequest q ∉ (Controller.reconnect.run c).trace) ∧
    Effect.connect ∉ (Controller.reconnect.run c).trace ∧
    ((Controller.onTimer .worker 0).run (Controller.reconnect.run c).ctl).trace = [.connect] ∧
    ((Controller.onConnect env 0).run (Controller.reconnect.run c).ctl).trace =
      [.sendHello env.macAddress ((Controller.reconnect.run c).ctl.withHostId env).settings_.host_id
          c.settings_.instanceId,
        .sendTimeRequest 50, .getNextMessage] := by
  have hrel := releaseTrace_mem c
  have hcount : ∀ e : Effect, e ∉ releaseTrace c → (releaseTrace c).count e = 0 :=
    fun e he => List.count_eq_zero_of_not_mem he
  refine ⟨by simp [Controller.onMessage, hec], by simp [Controller.onHelloResponse, hec],
    by simp [Controller.onTimeResponse, hec], ?_⟩
  have hr : Controller.reconnect.run c =
      ⟨.returned (), { c with player_ := none, stream_ := none, decoder_ := none },
        [.timerCancel, .disconnect] ++ releaseTrace c ++
          [.timerExpiresAfter 50000, .timerAsyncWait .worker]⟩ := by
    simp [Act.run, reconnect_apply]
  rw [hr]
  refine ⟨rfl, rfl, rfl, ?_, ?_, ?_, ?_, ?_, ?_, ?_, ?_, ?_⟩
  · have : (releaseTrace c).count .disconnect = 0 := hcount _ (fun h => by have := hrel _ h; simp at this)
    simp [List.count_append, this]
  · have : (releaseTrace c).count (.timerAsyncWait .worker) = 0 :=
      hcount _ (fun h => by have := hrel _ h; simp at this)
    simp [List.count_append, this]
  · intro h hm
    simp at hm
    rcases hm with hm | hm
    · have := hrel _ hm; simp at this
    · exact hm
  · intro us hm
    simp at hm
    rcases hm with hm | hm
    · have := hrel _ hm; simp at this
    · exact hm
  · intro hm
    simp at hm
    have := hrel _ hm; simp at this
  · intro q hm
    simp at hm
    have := hrel _ hm; simp at this
  · intro hm
    simp at hm
    have := hrel _ hm; simp at this
  · simp [Act.run, Controller.onTimer, Controller.worker]
  · simp only [Act.run, onConnect_apply]
    unfold Controller.withHostId
    split <;> simp

/-- C6 (witness): a `getNextMessage` completion with error code 2 in the
streaming state tears the chain down and schedules one `worker` after 50 ms. -/
theorem C6_error_runs_reconnect_witness :
    (2 : Int) ≠ 0 ∧
    ((Controller.onMessage Env.test 2 none).run Controller.streaming).ctl.player_ = none ∧
    ((Controller.onMessage Env.test 2 none).run Controller.streaming).ctl.stream_ = none ∧
    ((Controller.onMessage Env.test 2 none).run Controller.streaming).ctl.decoder_ = none ∧
    ((Controller.onMessage Env.test 2 none).run Controller.streaming).trace =
      [.timerCancel, .disconnect, .playerStopped, .playerDestroyed, .streamReleased, .streamDestroyed,
        .decoderDestroyed, .timerExpiresAfter 50000, .timerAsyncWait .worker] :=
  ⟨by decide, by
    have h := C6_error_runs_reconnect Env.test Controller.streaming 2 (by decide) none none 0 none
    obtain ⟨h1, -, -, -, h5, h6, -⟩ := h
    rw [h1, h5, h6]
    exact ⟨rfl, rfl, rfl, by decide⟩⟩

/-- C7 (counterexample): on a fresh Controller the successful connect completion
itself sends the time-sync request with 50 quick syncs and issues
`getNextMessage`, while no server settings have been received; a Hello
completion that then fails only runs `reconnect`. -/
theorem C7_counterexample :
    ((Controller.onConnect Env.test 0).run (Controller.new {})).trace =
      [.sendHello "00:11:22:33:44:55" "00:11:22:33:44:55" 1, .sendTimeRequest 50, .getNextMessage] ∧
    ((Controller.onConnect Env.test 0).run (Controller.new {})).ctl.serverSettings_ = none ∧
    ((Controller.onHelloResponse 1 none).run
        ((Controller.onConnect Env.test 0).run (Controller.new {})).ctl).trace =
      [.timerCancel, .disconnect, .timerExpiresAfter 50000, .timerAsyncWait .worker] := by
  decide

/-- C7 (amended): the successful connect completion sends Hello and, in the same
completion and without waiting for the response, sends the first time-sync
request with 50 quick syncs and issues the first `getNextMessage`; it does not
touch the server settings.  A successful Hello completion only stores the server
settings; a failed one is `reconnect` and starts neither. -/
theorem C7_connect_starts_sync_and_receive (env : Env) (c : Controller) (s : ServerSettings)
    (ec : Int) (hec : ec ≠ 0) (response : Option ServerSettings) :
    ((Controller.onConnect env 0).run c).outcome = .returned () ∧
    ((Controller.onConnect env 0).run c).trace =
      [.sendHello env.macAddress (c.withHostId env).settings_.host_id c.settings_.instanceId,
        .sendTimeRequest 50, .getNextMessage] ∧
    ((Controller.onConnect env 0).run c).ctl.serverSettings_ = c.serverSettings_ ∧
    (Controller.onHelloResponse 0 (some s)).run c =
      ⟨.returned (), { c with serverSettings_ := some s }, []⟩ ∧
    (Controller.onHelloResponse ec response).run c = Controller.reconnect.run c ∧
    Effect.getNextMessage ∉ ((Controller.onHelloResponse ec response).run c).trace ∧
    (∀ q, Effect.sendTimeRequest q ∉ ((Controller.onHelloResponse ec response).run c).trace) := by
  have hh : Controller.onHelloResponse ec response = Controller.reconnect := by
    simp [Controller.onHelloResponse, hec]
  rw [hh]
  refine ⟨?_, ?_, ?_, ?_, rfl, fun hm => ?_, fun q hm => ?_⟩
  rotate_left 4
  · have := reconnect_trace_mem c _ hm
    simp at this
  · have := reconnect_trace_mem c _ hm
    simp at this
  · simp [Act.run, onConnect_apply]
  · simp only [Act.run, onConnect_apply]
    unfold Controller.withHostId
    split <;> simp
  · simp only [Act.run, onConnect_apply]
    unfold Controller.withHostId
    split <;> simp
  · simp [Act.run, Controller.onHelloResponse, deref_some]

/-- C7 (witness): a Hello completion with error code 2 on a fresh Controller
runs `reconnect` and issues neither `getNextMessage` nor a time-sync request. -/
theorem C7_connect_starts_sync_and_receive_witness :
    (2 : Int) ≠ 0 ∧
    ((Controller.onConnect Env.test 0).run (Controller.new {})).trace =
      [.sendHello "00:11:22:33:44:55" "00:11:22:33:44:55" 1, .sendTimeRequest 50, .getNextMessage] ∧
    (Controller.onHelloResponse 0 (some ⟨1000, 0⟩)).run (Controller.new {}) =
      ⟨.returned (), Controller.greeted, []⟩ ∧
    Effect.getNextMessage ∉ ((Controller.onHelloResponse 2 none).run (Controller.new {})).trace :=
  ⟨by decide,
    (C7_connect_starts_sync_and_receive Env.test (Controller.new {}) ⟨1000, 0⟩ 2 (by decide) none).2.1,
    (C7_connect_starts_sync_and_receive Env.test (Controller.new {}) ⟨1000, 0⟩ 2 (by decide) none).2.2.2.1,
    (C7_connect_starts_sync_and_receive Env.test (Controller.new {}) ⟨1000, 0⟩ 2 (by decide)
      none).2.2.2.2.2.1⟩

/-- C8: the connect completion sends the first time-sync request with 50 quick
syncs; from there, the delay scheduled after the k-th consecutive successful
response is 100 µs for 1 ≤ k ≤ 50 and 1 s (1000000 µs) for k > 50, and the
quick-sync counter carried on after it is 50 - k for k ≤ 50 and 0 afterwards:
it drops by one per response while positive and is never negative. -/
theorem C8_quick_sync_cadence (env : Env) (c : Controller) (r : Time) (k n : Nat)
    (hk : 1 ≤ k) (hn : k ≤ n) :
    sentTimeRequest ((Controller.onConnect env 0).run c).trace = some 50 ∧
    (syncRounds c r n 50)[k - 1]? =
      some (if k ≤ 50 then (100, 50 - (k : Int)) else (1000000, 0)) ∧
    (∀ d q, (syncRounds c r n 50)[k - 1]? = some (d, q) → 0 ≤ q) := by
  have hget := syncRounds_get c r n 50 (k - 1) (by norm_num) (by omega)
  have hcast : ((k - 1 : Nat) : Int) + 1 = k := by omega
  rw [hcast] at hget
  have hval : (syncRounds c r n 50)[k - 1]? =
      some (if k ≤ 50 then (100, 50 - (k : Int)) else (1000000, 0)) := by
    rw [hget]
    by_cases h : k ≤ 50
    · have : (k : Int) ≤ 50 := by omega
      simp [h, this]
    · have : ¬ (k : Int) ≤ 50 := by omega
      simp [h, this]
  refine ⟨?_, hval, ?_⟩
  · simp [Act.run, onConnect_apply, sentTimeRequest]
  · intro d q hdq
    rw [hval] at hdq
    by_cases h : k ≤ 50
    · simp [h] at hdq
      omega
    · simp [h] at hdq
      omega

/-- C8 (witness): the 50th response still schedules 100 µs and leaves the counter
at 0; the 51st schedules one second. -/
theorem C8_quick_sync_cadence_witness :
    1 ≤ 50 ∧ 50 ≤ 51 ∧
    (syncRounds (Controller.new {}) ⟨0, 0, 0⟩ 51 50)[50 - 1]? = some (100, 0) ∧
    (syncRounds (Controller.new {}) ⟨0, 0, 0⟩ 51 50)[51 - 1]? = some (1000000, 0) :=
  ⟨by decide, by decide,
    (C8_quick_sync_cadence Env.test (Controller.new {}) ⟨0, 0, 0⟩ 50 51 (by decide) (by decide)).2.1,
    (C8_quick_sync_cadence Env.test (Controller.new {}) ⟨0, 0, 0⟩ 51 51 (by decide) (by decide)).2.1⟩

/-- C9 (counterexample): in the streaming state, where decoder, stream and
player exist, a CodecHeader makes the Controller release its stream reference
before it stops the player. -/
theorem C9_counterexample :
    Controller.streaming.decoder_.isSome = true ∧ Controller.streaming.stream_.isSome = true ∧
    Controller.streaming.player_.isSome = true ∧
    ((Controller.onMessage Env.test 0 (some (.CodecHeader ⟨"pcm", []⟩))).run Controller.streaming).trace =
      [.decoderDestroyed, .streamReleased, .playerStopped, .playerDestroyed, .streamDestroyed,
        .streamCreated ⟨48000, 16, 2⟩, .setBufferLen 1000, .playerCreated, .playerStarted, .getNextMessage] ∧
    ¬ (((Controller.onMessage Env.test 0 (some (.CodecHeader ⟨"pcm", []⟩))).run
          Controller.streaming).trace.indexOf .playerStopped <
        ((Controller.onMessage Env.test 0 (some (.CodecHeader ⟨"pcm", []⟩))).run
          Controller.streaming).trace.indexOf .streamReleased) := by
  decide

/-- C9 (amended): when a CodecHeader arrives while a decoder, stream and player
exist, the Controller releases the decoder, then its own reference to the
stream, then stops and releases the player; the stream object, which the player
co-owns, is destroyed only after the player has been stopped and released, and
nothing else is released in that handler.  In `reconnect` the player is stopped
and released first, then the stream, then the decoder. -/
theorem C9_release_order (env : Env) (c : Controller) (h : CodecHeader)
    (hd : c.decoder_.isSome = true) (hs : c.stream_.isSome = true) (hp : c.player_.isSome = true) :
    (∃ rest, ((Controller.onMessage env 0 (some (.CodecHeader h))).run c).trace =
        [.decoderDestroyed, .streamReleased, .playerStopped, .playerDestroyed, .streamDestroyed] ++ rest ∧
      ∀ e ∈ rest, e ≠ .decoderDestroyed ∧ e ≠ .streamReleased ∧ e ≠ .playerStopped ∧
        e ≠ .playerDestroyed ∧ e ≠ .streamDestroyed) ∧
    (Controller.reconnect.run c).trace =
      [.timerCancel, .disconnect, .playerStopped, .playerDestroyed, .streamReleased, .streamDestroyed,
        .decoderDestroyed, .timerExpiresAfter 50000, .timerAsyncWait .worker] := by
  constructor
  · rw [onMessage_trace]
    obtain ⟨sf, v, n, hn⟩ := dispatch_codecHeader_trace env h c
    rw [hn]
    have ht : teardownTrace c =
        [.decoderDestroyed, .streamReleased, .playerStopped, .playerDestroyed, .streamDestroyed] := by
      cases hd' : c.decoder_ <;> cases hs' : c.stream_ <;> cases hp' : c.player_ <;>
        simp_all [teardownTrace]
    rw [ht]
    refine ⟨_, by rw [List.append_assoc], ?_⟩
    intro e he
    rw [List.mem_append] at he
    rcases he with he | he
    · have := List.mem_of_mem_take he
      simp at this
      rcases this with rfl | rfl | rfl | rfl <;> simp
    · split at he
      · simp at he; subst he; simp
      · simp at he
  · rw [reconnect_run]
    cases hd' : c.decoder_ <;> cases hs' : c.stream_ <;> cases hp' : c.player_ <;>
      simp_all [releaseTrace]

/-- C9 (witness): the release order in the streaming state, for a "null" header. -/
theorem C9_release_order_witness :
    Controller.streaming.decoder_.isSome = true ∧ Controller.streaming.stream_.isSome = true ∧
    Controller.streaming.player_.isSome = true ∧
    (∃ rest, ((Controller.onMessage Env.test 0 (some (.CodecHeader ⟨"null", []⟩))).run
          Controller.streaming).trace =
        [.decoderDestroyed, .streamReleased, .playerStopped, .playerDestroyed, .streamDestroyed] ++ rest ∧
      ∀ e ∈ rest, e ≠ .decoderDestroyed ∧ e ≠ .streamReleased ∧ e ≠ .playerStopped ∧
        e ≠ .playerDestroyed ∧ e ≠ .streamDestroyed) ∧
    (Controller.reconnect.run Controller.streaming).trace =
      [.timerCancel, .disconnect, .playerStopped, .playerDestroyed, .streamReleased, .streamDestroyed,
        .decoderDestroyed, .timerExpiresAfter 50000, .timerAsyncWait .worker] :=
  ⟨by decide, by decide, by decide,
    C9_release_order Env.test Controller.streaming ⟨"null", []⟩ (by decide) (by decide) (by decide)⟩

/-- C10: a message whose tag is none of WireChunk, ServerSettings and
CodecHeader leaves every field of the Controller unchanged; the handler returns
and only requests the next message. -/
theorem C10_other_tags_leave_state (env : Env) (c : Controller) (msg : BaseMessage)
    (h1 : msg.type ≠ .kWireChunk) (h2 : msg.type ≠ .kServerSettings) (h3 : msg.type ≠ .kCodecHeader) :
    (Controller.onMessage env 0 (some msg)).run c = ⟨.returned (), c, [.getNextMessage]⟩ := by
  rw [onMessage_some, dispatch_other env msg c [] h1 h2 h3]
  rfl

/-- C10 (witness): a Time message in the streaming state changes nothing. -/
theorem C10_other_tags_leave_state_witness :
    (BaseMessage.Time ⟨0, 0, 0⟩).type ≠ .kWireChunk ∧ (BaseMessage.Time ⟨0, 0, 0⟩).type ≠ .kServerSettings ∧
    (BaseMessage.Time ⟨0, 0, 0⟩).type ≠ .kCodecHeader ∧
    (Controller.onMessage Env.test 0 (some (.Time ⟨0, 0, 0⟩))).run Controller.streaming =
      ⟨.returned (), Controller.streaming, [.getNextMessage]⟩ :=
  ⟨by decide, by decide, by decide,
    C10_other_tags_leave_state Env.test Controller.streaming (.Time ⟨0, 0, 0⟩) (by decide) (by decide)
      (by decide)⟩

/-- C11: `AlsaPlayer::start` raises exactly when `initAlsa` raises an error
whose code is not `-EBUSY`, and then passes that error on without activating the
player; when `initAlsa` succeeds or raises with code `-EBUSY`, `start` returns
normally with the player active and its worker thread started. -/
theorem C11_start_raises_iff_not_busy (alsa : AlsaEnv) (p : AlsaPlayer) :
    (∃ e, (p.initAlsa alsa).2 = some e ∧ e.code ≠ -EBUSY ∧
      (p.start alsa).2 = some e ∧ (p.start alsa).1 = (p.initAlsa alsa).1) ∨
    (((p.initAlsa alsa).2 = none ∨ ∃ e, (p.initAlsa alsa).2 = some e ∧ e.code = -EBUSY) ∧
      (p.start alsa).2 = none ∧ (p.start alsa).1.active_ = true ∧
      (p.start alsa).1.playerThread_ = true ∧
      (p.start alsa).1 = Player.start (p.initAlsa alsa).1) := by
  unfold AlsaPlayer.start
  rcases hinit : p.initAlsa alsa with ⟨p1, e⟩
  cases e with
  | none => right; simp [Player.start]
  | some e =>
    by_cases hc : e.code = -EBUSY
    · right; simp [hc, Player.start]
    · left; exact ⟨e, rfl, hc, by simp [hc], by simp [hc]⟩

/-- C12 (evaluation): a device that opens but rejects the parameter query makes
`initAlsa` raise with the handle left open; the same worker pass goes on to
wait on, query, read for and write to the device, and the next pass does not
call `initAlsa` again. -/
theorem C12_handle_left_open_after_failed_init :
    (AlsaPlayer.fresh.initAlsa AlsaEnv.failsAfterOpen).2 = some ⟨"Can't fill params: error", 0⟩ ∧
    (AlsaPlayer.fresh.initAlsa AlsaEnv.failsAfterOpen).1.handle_ = true ∧
    (AlsaPlayer.workerPass { Pass.good with alsa := AlsaEnv.failsAfterOpen }
        { player := Player.start AlsaPlayer.fresh, lastChunkTick := 0 }).ops =
      [.initAlsa, .sleep 100, .snd_pcm_wait, .getAvailDelay, .getPlayerChunk 480, .snd_pcm_writei 480] ∧
    (AlsaPlayer.workerPass { Pass.good with alsa := AlsaEnv.failsAfterOpen }
        { (AlsaPlayer.workerPass { Pass.good with alsa := AlsaEnv.failsAfterOpen }
            { player := Player.start AlsaPlayer.fresh, lastChunkTick := 0 }) with ops := [] }).ops =
      [.snd_pcm_wait, .getAvailDelay, .getPlayerChunk 480, .snd_pcm_writei 480] := by
  decide

/-- C15: when the values of the keys `buffer_time` and `fragments`, where
present, parse as integers, the constructor succeeds; a `buffer_time` of `v`
is stored as `max v 10` milliseconds and `fragments` of `f` as `max f 2`, so a
configured buffer time is at least 10 ms and a configured period count at least
2; an absent key leaves its field unset. -/
theorem C15_constructor_clamps (params : String → Option String) (stoi : String → Option Int)
    (settings : ClientSettings.Player) (format : SampleFormat)
    (hb : ∀ s, params "buffer_time" = some s → ∃ v, stoi s = some v)
    (hf : ∀ s, params "fragments" = some s → ∃ f, stoi s = some f) :
    ∃ p, AlsaPlayer.new params stoi settings format = some p ∧
      p.buffer_time_ = ((params "buffer_time").bind stoi).map (fun v => milliseconds (max v 10)) ∧
      p.periods_ = ((params "fragments").bind stoi).map (fun f => max f 2) ∧
      (∀ b, p.buffer_time_ = some b → milliseconds 10 ≤ b) ∧
      (∀ f, p.periods_ = some f → 2 ≤ f) ∧
      (params "buffer_time" = none → p.buffer_time_ = none) ∧
      (params "fragments" = none → p.periods_ = none) := by
  refine ⟨_, alsaPlayer_new_eq params stoi settings format hb hf, rfl, rfl, ?_, ?_, ?_, ?_⟩
  · intro b hb'
    simp only [Option.map_eq_some', Option.bind_eq_some] at hb'
    obtain ⟨v, -, rfl⟩ := hb'
    simp only [milliseconds]
    have := le_max_right v 10
    omega
  · intro f hf'
    simp only [Option.map_eq_some', Option.bind_eq_some] at hf'
    obtain ⟨v, -, rfl⟩ := hf'
    exact le_max_right v 2
  · intro h; simp [h]
  · intro h; simp [h]

/-- C15 (witness): `buffer_time=5,fragments=8` is stored as 10 ms and 8 periods. -/
theorem C15_constructor_clamps_witness :
    (∀ s, AlsaPlayer.sampleParams "buffer_time" = some s → ∃ v, AlsaPlayer.sampleStoi s = some v) ∧
    (∀ s, AlsaPlayer.sampleParams "fragments" = some s → ∃ f, AlsaPlayer.sampleStoi s = some f) ∧
    ∃ p, AlsaPlayer.new AlsaPlayer.sampleParams AlsaPlayer.sampleStoi {} ⟨48000, 16, 2⟩ = some p ∧
      p.buffer_time_ = some 10000 ∧ p.periods_ = some 8 :=
  have hb : ∀ s, AlsaPlayer.sampleParams "buffer_time" = some s → ∃ v, AlsaPlayer.sampleStoi s = some v := by
    intro s h
    have hs : s = "5" := by
      simp only [AlsaPlayer.sampleParams, if_true, Option.some.injEq] at h
      exact h.symm
    exact ⟨5, by rw [hs]; decide⟩
  have hf : ∀ s, AlsaPlayer.sampleParams "fragments" = some s → ∃ f, AlsaPlayer.sampleStoi s = some f := by
    intro s h
    have hs : s = "8" := by
      have h' : AlsaPlayer.sampleParams "fragments" = some "8" := by decide
      rw [h'] at h
      exact (Option.some.inj h).symm
    exact ⟨8, by rw [hs]; decide⟩
  ⟨hb, hf, by
    obtain ⟨p, hp, h1, h2, -⟩ :=
      C15_constructor_clamps AlsaPlayer.sampleParams AlsaPlayer.sampleStoi {} ⟨48000, 16, 2⟩ hb hf
    refine ⟨p, hp, ?_, ?_⟩
    · rw [h1]; decide
    · rw [h2]; decide⟩

/-- C16 (evaluation): for the response text `{"Cmd":1,"Result":1}` (21 bytes) and
a connected client that takes all bytes at once, `PlayerClient::start` puts 37
bytes on the descriptor: a header with length 29, then the header with length
21, then the text.  Read back with the framing of `doRead` they yield a payload
of 29 bytes that begins with the second header, not the 21 bytes of the text;
the buffer built by `start` alone would read back as the text. -/
theorem C16_response_is_framed_twice :
    PlayerClient.wireBytes 5 [.written 37] Response.startOk =
      [0, 0, 152, 118, 0, 0, 0, 29] ++ ([0, 0, 152, 118, 0, 0, 0, 21] ++ Response.startOk) ∧
    PlayerClient.readFrame (PlayerClient.wireBytes 5 [.written 37] Response.startOk) =
      some ([0, 0, 152, 118, 0, 0, 0, 21] ++ Response.startOk) ∧
    PlayerClient.readFrame (PlayerClient.wireBytes 5 [.written 37] Response.startOk) ≠
      some Response.startOk ∧
    PlayerClient.readFrame (PlayerClient.sendBuf Response.startOk) = some Response.startOk ∧
    PlayerClient.start ControlEnv.test "10.0.0.5" =
      [.snapStart "10.0.0.5", .processSend (PlayerClient.sendBuf Response.startOk)] := by
  decide

/-- C17: `doParse` returns true exactly when the payload parses and its `Cmd` is
START (1).  For START it calls `SnapCastClient::start` once with the
`SnapServerIPAddr` string and hands a response with `Cmd` 1 and `Result` 1 or 0,
as that call returned true or false, to `processSend`; for STOP (2) it calls
`SnapCastClient::stop` once, hands a response with `Cmd` 2 to `processSend` and
returns false; for any other `Cmd` and for a payload that does not parse it
makes no call and returns false. -/
theorem C17_doParse_dispatch (env : ControlEnv) (data : List Nat) :
    ((PlayerClient.doParse env data).1 = true ↔ ∃ root, env.parse data = some root ∧ root.Cmd = 1) ∧
    ((env.parse data = none ∧ PlayerClient.doParse env data = (false, [])) ∨
     (∃ root, env.parse data = some root ∧ root.Cmd = 1 ∧
        PlayerClient.doParse env data =
          (true, [.snapStart root.SnapServerIPAddr,
                  .processSend (PlayerClient.sendBuf (env.write
                    { Cmd := 1, Result := some (if env.snapStart root.SnapServerIPAddr then 1 else 0) }))])) ∨
     (∃ root, env.parse data = some root ∧ root.Cmd = 2 ∧
        PlayerClient.doParse env data =
          (false, [.snapStop, .processSend (PlayerClient.sendBuf (env.write { Cmd := 2 }))])) ∨
     (∃ root, env.parse data = some root ∧ root.Cmd ≠ 1 ∧ root.Cmd ≠ 2 ∧
        PlayerClient.doParse env data = (false, []))) := by
  unfold PlayerClient.doParse
  cases hp : env.parse data with
  | none => simp
  | some root =>
    by_cases h1 : root.Cmd = 1
    · simp [h1, LIGHTNINGCASTClientCmd_START, PlayerClient.start]
    · by_cases h2 : root.Cmd = 2
      · simp [h2, LIGHTNINGCASTClientCmd_START, LIGHTNINGCASTClientCmd_STOP, PlayerClient.stop]
      · simp [h1, h2, LIGHTNINGCASTClientCmd_START, LIGHTNINGCASTClientCmd_STOP]

/-- C18: with no session ever started (`efd` = -1, `cmd` = NONE, no caller
active, the handler thread at the start of `handle` or waiting for a command),
`stop()` cannot return before the handler thread has reacted, then completes;
it writes to no descriptor and leaves `cmd` = NONE and `snapserver_ipaddr`,
`is_start` and `efd` as they were; a second `stop()` ends in the same state as
the first. -/
theorem C18_stop_without_session (m : Machine) (hefd : m.client.efd = -1)
    (hcmd : m.client.cmd = .NONE) (hcaller : m.caller = .idle)
    (hh : m.handler = .waiting ∨ m.handler = .atLock) :
    m.run [.callStop, .stopReturn] = none ∧
    ∃ m1, m.run Step.stop = some m1 ∧
      m1.client.cmd = .NONE ∧
      m1.client.snapserver_ipaddr = m.client.snapserver_ipaddr ∧
      m1.client.is_start = m.client.is_start ∧
      m1.client.efd = m.client.efd ∧
      m1.wakeWritten = m.wakeWritten ∧
      m1.caller = .idle ∧
      m.run (Step.stop ++ Step.stop) = some m1 := by
  have h1 := stop_run m hefd hcmd hcaller hh
  have h2 := stop_run
    { m with
      client := { m.client with ready := false, ready_sync := true }
      handler := .waiting }
    hefd hcmd hcaller (Or.inl rfl)
  refine ⟨stop_waits_for_handler m hcaller, _, h1, hcmd, rfl, rfl, rfl, rfl, hcaller, ?_⟩
  rw [run_append _ _ _ _ h1, h2]

/-- C18 (witness): on the machine whose handler thread waits for its first
command, `stop()` completes, twice as well as once. -/
theorem C18_stop_without_session_witness :
    Machine.idle.client.efd = -1 ∧ Machine.idle.client.cmd = .NONE ∧
    Machine.idle.caller = .idle ∧
    (Machine.idle.handler = .waiting ∨ Machine.idle.handler = .atLock) ∧
    Machine.idle.run [.callStop, .stopReturn] = none ∧
    ∃ m1, Machine.idle.run Step.stop = some m1 ∧
      m1.client.cmd = .NONE ∧
      m1.client.snapserver_ipaddr = Machine.idle.client.snapserver_ipaddr ∧
      m1.client.is_start = Machine.idle.client.is_start ∧
      m1.client.efd = Machine.idle.client.efd ∧
      m1.wakeWritten = Machine.idle.wakeWritten ∧
      m1.caller = .idle ∧
      Machine.idle.run (Step.stop ++ Step.stop) = some m1 :=
  ⟨by decide, by decide, by decide, by decide,
    C18_stop_without_session Machine.idle (by decide) (by decide) (by decide) (by decide)⟩

/-- C19 (evaluation): `start("10.0.0.1")` returns true and leaves its session
running; `start("10.0.0.5")` entered during that session sets `cmd` = START and
writes to no descriptor, after which `start` cannot return and the only steps
left are an exception ending the session and an `exit()` from elsewhere: the
handler thread takes no step, the event loop is not woken, the session for
10.0.0.1 goes on and the call stays blocked. -/
theorem C19_second_start_blocks :
    Machine.idle.run (Step.start "10.0.0.1" 7) = some Machine.inSession ∧
    Machine.inSession.handler = .running "10.0.0.1" 7 ∧
    Machine.inSession.startResult = some true ∧
    Machine.inSession.step (.callStart "10.0.0.5") = some Machine.secondStart ∧
    Machine.secondStart.handler = .running "10.0.0.1" 7 ∧
    Machine.secondStart.wakeWritten = [] ∧
    Machine.secondStart.step .startReturn = none ∧
    (∀ s, Machine.secondStart.step s ≠ none → s = .sessionThrows ∨ s = .callExit) := by
  refine ⟨by decide, by decide, by decide, by decide, by decide, by decide, by decide, ?_⟩
  intro s
  cases s <;> simp [Machine.step, Machine.secondStart, Machine.inSession]

/-- C20 (counterexample): on a device that opens but rejects the parameter
query, `AlsaPlayer::start` raises with code 0, which is not `-EBUSY`, and the
exception leaves the Controller's message handler; yet the `start("10.0.0.5")`
that launched the session has returned true, the failure of the session only
makes `doStart` return false, and the START response is the text with
Result 1. -/
theorem C20_counterexample :
    (AlsaPlayer.start AlsaEnv.failsAfterOpen AlsaPlayer.fresh).2 = some ⟨"Can't fill params: error", 0⟩ ∧
    (0 : Int) ≠ -EBUSY ∧
    ((Controller.onMessage (Env.ofAlsa AlsaEnv.failsAfterOpen) 0
        (some (.CodecHeader CodecHeader.pcm))).run Controller.greeted).outcome =
      .thrown (.player "Can't fill params: error" 0) ∧
    (Machine.idle.run (Step.start "10.0.0.5" 7)).map (fun m => m.startResult) = some (some true) ∧
    (Machine.idle.run (Step.start "10.0.0.5" 7 ++ [.sessionThrows])).map
        (fun m => (m.startResult, m.doStartResult)) = some (some true, some false) ∧
    PlayerClient.start (ControlEnv.ofMachine Machine.idle 7) "10.0.0.5" =
      [.snapStart "10.0.0.5", .processSend (PlayerClient.sendBuf Response.startOk)] ∧
    Response.startOk ≠ Response.startFailed := by
  decide

/-- C20 (amended): `start(serverAddress)` issued while the handler thread waits
for a command returns true as soon as `doStart` has created the event
descriptor, before the session sets up its audio device; an exception that
later ends the session, such as the one `AlsaPlayer::start` raises for a
permanent device error, makes `doStart` return false and leaves the value
returned by `start` true, so the START response carries Result 1. -/
theorem C20_start_true_before_device (m : Machine) (addr : String) (fd : Int) (env : ControlEnv)
    (hh : m.handler = .waiting) (hc : m.caller = .idle) (hfd : fd ≠ -1)
    (henv : env.snapStart addr = Machine.startValue m addr fd) :
    ∃ m1, m.run (Step.start addr fd) = some m1 ∧
      m1.startResult = some true ∧
      m1.handler = .running addr fd ∧
      (∃ m2, m1.step .sessionThrows = some m2 ∧
        m2.startResult = some true ∧ m2.doStartResult = some false ∧ m2.handler = .atLock) ∧
      PlayerClient.start env addr =
        [.snapStart addr,
         .processSend (PlayerClient.sendBuf (env.write
            { Cmd := LIGHTNINGCASTClientCmd_START, Result := some 1 }))] := by
  have h1 := start_run m addr fd hh hc hfd
  refine ⟨_, h1, rfl, rfl, ⟨_, rfl, rfl, rfl, rfl⟩, ?_⟩
  simp [PlayerClient.start, henv, Machine.startValue, h1]

/-- C20 (witness): the amended claim on the waiting machine, address 10.0.0.5
and event descriptor 7. -/
theorem C20_start_true_before_device_witness :
    Machine.idle.handler = .waiting ∧ Machine.idle.caller = .idle ∧ (7 : Int) ≠ -1 ∧
    (ControlEnv.ofMachine Machine.idle 7).snapStart "10.0.0.5" =
      Machine.startValue Machine.idle "10.0.0.5" 7 ∧
    ∃ m1, Machine.idle.run (Step.start "10.0.0.5" 7) = some m1 ∧
      m1.startResult = some true ∧
      m1.handler = .running "10.0.0.5" 7 ∧
      (∃ m2, m1.step .sessionThrows = some m2 ∧
        m2.startResult = some true ∧ m2.doStartResult = some false ∧ m2.handler = .atLock) ∧
      PlayerClient.start (ControlEnv.ofMachine Machine.idle 7) "10.0.0.5" =
        [.snapStart "10.0.0.5",
         .processSend (PlayerClient.sendBuf ((ControlEnv.ofMachine Machine.idle 7).write
            { Cmd := LIGHTNINGCASTClientCmd_START, Result := some 1 }))] :=
  ⟨by decide, by decide, by decide, rfl,
    C20_start_true_before_device Machine.idle "10.0.0.5" 7 (ControlEnv.ofMachine Machine.idle 7)
      (by decide) (by decide) (by decide) rfl⟩

/-- C22: when `snd_device_name_hint` succeeds, `pcm_list` returns the list
described: the hints whose IOID is absent or "Output", in hint order; the
device at position `i` has `idx` = `i`, the name of the `i`-th such hint and
its description, the empty text when that is absent. -/
theorem C22_pcm_list_lists_outputs (hint_result : Int) (hints : List Hint) (h : 0 ≤ hint_result) :
    AlsaPlayer.pcm_list hint_result hints = pcm_list_described hints ∧
    (AlsaPlayer.pcm_list hint_result hints).length =
      (hints.filter (fun n => n.io = none ∨ n.io = some "Output")).length ∧
    ∀ i : Nat, (AlsaPlayer.pcm_list hint_result hints)[i]? =
      ((hints.filter (fun n => n.io = none ∨ n.io = some "Output"))[i]?).map
        (fun n => ({ idx := i, name := n.name, description := n.descr.getD "" } : PcmDevice)) := by
  have e : AlsaPlayer.pcm_list hint_result hints = pcm_list_described hints := by
    simp only [AlsaPlayer.pcm_list, if_neg (not_lt.mpr h), pcm_list_loop_eq, pcm_list_described,
      List.nil_append, List.enum]
  refine ⟨e, ?_, ?_⟩
  · rw [e]; simp [pcm_list_described]
  · intro i
    rw [e]
    simp only [pcm_list_described, List.getElem?_map, List.getElem?_enum, Option.map_map]
    rfl

/-- C22 (witness): of four hints the capture-only one is left out and the
others are numbered 0, 1, 2. -/
theorem C22_pcm_list_lists_outputs_witness :
    (0 : Int) ≤ 0 ∧
    AlsaPlayer.pcm_list 0 Hint.sample =
      [⟨0, "null", "Discard all samples"⟩, ⟨1, "default", ""⟩, ⟨2, "hw:CARD=DAC", "USB DAC"⟩] :=
  ⟨le_refl 0, by
    rw [(C22_pcm_list_lists_outputs 0 Hint.sample (le_refl 0)).1]
    decide⟩

/-- C24 (evaluation): for each of the three placeholder addresses `getHostId`
returns the placeholder itself, not the host name; only an empty identifier
yields the host name, and any other address is returned as it is. -/
theorem C24_placeholder_returned_as_host_id :
    getHostId (fun s => s) "lightningcast" "00:00:00:00:00:00" = "00:00:00:00:00:00" ∧
    getHostId (fun s => s) "lightningcast" "02:00:00:00:00:00" = "02:00:00:00:00:00" ∧
    getHostId (fun s => s) "lightningcast" "ac:de:48:00:11:22" = "ac:de:48:00:11:22" ∧
    getHostId (fun s => s) "lightningcast" "" = "lightningcast" ∧
    getHostId (fun s => s) "lightningcast" "a4:5e:60:01:02:03" = "a4:5e:60:01:02:03" := by
  decide

/-- C23: once the device is open and set to interleaved access, `initAlsa`
chooses S8 for 8 bits, S16_LE for 16 bits, S24_LE for 24 bits in 4-byte samples
and S32_LE for 32 bits, and raises "Unsupported sample format" exactly for
every other pair of bit depth and sample size, 24 bits in 3-byte samples among
them.  After a first request answered with `-EINVAL` the second request names
S32_LE in place of S24_LE, with the volume correction set to 256, and U8 in
place of S8; any other format, and any format after another answer, is
requested again unchanged. -/
theorem C23_device_format (alsa : AlsaEnv) (p : AlsaPlayer)
    (hopen : 0 ≤ alsa.snd_pcm_open p.settings_.pcm_device) (hany : 0 ≤ alsa.snd_pcm_hw_params_any)
    (hacc : 0 ≤ alsa.snd_pcm_hw_params_set_access) :
    ((∀ size, AlsaPlayer.pcmFormat 8 size = some .S8) ∧
      (∀ size, AlsaPlayer.pcmFormat 16 size = some .S16_LE) ∧
      AlsaPlayer.pcmFormat 24 4 = some .S24_LE ∧
      (∀ size, AlsaPlayer.pcmFormat 32 size = some .S32_LE) ∧
      AlsaPlayer.pcmFormat 24 3 = none ∧
      (∀ bits size, AlsaPlayer.pcmFormat bits size = none ↔
        bits ≠ 8 ∧ bits ≠ 16 ∧ bits ≠ 32 ∧ ¬ (bits = 24 ∧ size = 4))) ∧
    ((p.initAlsa alsa).2 = some ⟨"Unsupported sample format: " ++ toString p.format.bits, 0⟩ ↔
      AlsaPlayer.pcmFormat p.format.bits (alsa.sampleSize p.format) = none) ∧
    (AlsaPlayer.fallbackFormat (-EINVAL) .S24_LE = .S32_LE ∧
      AlsaPlayer.fallbackFormat (-EINVAL) .S8 = .U8 ∧
      (∀ f, f ≠ .S24_LE → f ≠ .S8 → AlsaPlayer.fallbackFormat (-EINVAL) f = f) ∧
      (∀ err f, err ≠ -EINVAL → AlsaPlayer.fallbackFormat err f = f)) ∧
    (∀ f, AlsaPlayer.pcmFormat p.format.bits (alsa.sampleSize p.format) = some f →
      (p.initAlsa alsa).1.volCorrection_ =
        (if alsa.snd_pcm_hw_params_set_format f = -EINVAL ∧ f = .S24_LE then 256
         else p.volCorrection_) ∧
      (alsa.snd_pcm_hw_params_set_format
          (AlsaPlayer.fallbackFormat (alsa.snd_pcm_hw_params_set_format f) f) < 0 →
        (p.initAlsa alsa).2 = some ⟨"Can't set format: " ++
          alsa.snd_strerror (alsa.snd_pcm_hw_params_set_format
            (AlsaPlayer.fallbackFormat (alsa.snd_pcm_hw_params_set_format f) f)) ++
          ", supported: " ++ alsa.supportedFormats, 0⟩)) := by
  refine ⟨⟨fun _ => rfl, fun _ => rfl, rfl, fun _ => by simp [AlsaPlayer.pcmFormat], rfl, ?_⟩, ?_,
    ⟨by decide, by decide, ?_, ?_⟩, ?_⟩
  · intro bits size
    unfold AlsaPlayer.pcmFormat
    split_ifs <;> simp_all
  · constructor
    · intro hex
      cases hf : AlsaPlayer.pcmFormat p.format.bits (alsa.sampleSize p.format) with
      | none => rfl
      | some f =>
        obtain ⟨r, hr⟩ := (initAlsa_supported alsa p f hopen hany hacc hf).2.1 _ hex
        exact absurd hr (unsupported_ne_cant_set _ _)
    · intro hnone
      rw [initAlsa_unsupported alsa p hopen hany hacc hnone]
  · intro f h1 h2
    cases f <;> simp_all [AlsaPlayer.fallbackFormat]
  · intro err f herr
    simp [AlsaPlayer.fallbackFormat, herr]
  · intro f hf
    exact ⟨(initAlsa_supported alsa p f hopen hany hacc hf).1,
      (initAlsa_supported alsa p f hopen hany hacc hf).2.2⟩

/-- C23 (witness): on a device that accepts every setting a 16-bit stream is
initialised without exception and with the volume correction left at 1. -/
theorem C23_device_format_witness :
    0 ≤ AlsaEnv.good.snd_pcm_open AlsaPlayer.fresh.settings_.pcm_device ∧
    0 ≤ AlsaEnv.good.snd_pcm_hw_params_any ∧ 0 ≤ AlsaEnv.good.snd_pcm_hw_params_set_access ∧
    AlsaPlayer.pcmFormat AlsaPlayer.fresh.format.bits (AlsaEnv.good.sampleSize AlsaPlayer.fresh.format) =
      some .S16_LE ∧
    (AlsaPlayer.fresh.initAlsa AlsaEnv.good).1.volCorrection_ = 1 :=
  ⟨by decide, by decide, by decide, by decide, by
    rw [((C23_device_format AlsaEnv.good AlsaPlayer.fresh (by decide) (by decide) (by decide)).2.2.2
      .S16_LE (by decide)).1]
    decide⟩

/-- C29 (counterexample): with the default buffer time of 80000 us and no
configured period count the period time asked for is 20000 us, which the limits
of the device leave as it is; the device then chooses 30000 us as the nearest
period time it supports, and the buffer time requested is 90000 us, not
max(80000, 20000 * 3) = 80000 us. -/
theorem C29_counterexample :
    AlsaPlayer.periodTime AlsaEnv.roundsPeriod AlsaPlayer.fresh = 20000 ∧
    AlsaEnv.roundsPeriod.snd_pcm_hw_params_set_period_time_near 20000 = (0, 30000) ∧
    AlsaPlayer.bufferTime AlsaPlayer.fresh 30000 = 90000 ∧
    (AlsaPlayer.fresh.initAlsa AlsaEnv.roundsPeriod).2 =
      some ⟨"Can't set buffer time to 90000 us : error", 0⟩ ∧
    max 80000 (20000 * 3) ≠ AlsaPlayer.bufferTime AlsaPlayer.fresh 30000 := by
  decide

/-- C30: in a pass of the worker loop that calls `getPlayerChunk`, with the
period size below 2^63 so that its conversion to `snd_pcm_sframes_t` is exact,
the frame count asked for is strictly positive and, when `framesAvail *
frameSize` fits `size_t`, the buffer holds at least that many bytes; no pass
makes the buffer smaller, so over any continuation of the loop its size does
not decrease. -/
theorem C30_pull_fits_buffer (it : Pass) (w : Worker) (n : Int)
    (hf : w.player.frames_ < 9223372036854775808)
    (hf2 : it.alsa.snd_pcm_hw_params_get_period_size < 9223372036854775808)
    (hcall : AlsaOp.getPlayerChunk n ∈ (AlsaPlayer.workerPass it w).ops)
    (hnew : AlsaOp.getPlayerChunk n ∉ w.ops) :
    0 < n ∧
    (n * it.frameSize < 18446744073709551616 →
      n * it.frameSize ≤ ((AlsaPlayer.workerPass it w).player.buffer_ : Int)) ∧
    w.player.buffer_ ≤ (AlsaPlayer.workerPass it w).player.buffer_ ∧
    ∀ (passes more : List Pass) (tick : Int) (p : AlsaPlayer),
      (AlsaPlayer.worker passes tick p).player.buffer_ ≤
        (AlsaPlayer.worker (passes ++ more) tick p).player.buffer_ := by
  have h := workerPass_call it w n hf hf2 hcall hnew
  refine ⟨h.1, ?_, workerPass_buffer_mono it w, ?_⟩
  · intro hfit
    have h0 : 0 ≤ n * (it.frameSize : Int) :=
      mul_nonneg (le_of_lt h.1) (Int.ofNat_nonneg _)
    rw [h.2, wrapSize_of_fits _ h0 hfit]
    split_ifs <;> omega
  · intro passes more tick p
    simp only [AlsaPlayer.worker, List.foldl_append]
    exact worker_foldl_mono more _

/-- C30 (witness): the pass in which 480 frames are free asks for 480 frames
and leaves a buffer of 1920 bytes. -/
theorem C30_pull_fits_buffer_witness :
    AlsaOp.getPlayerChunk 480 ∈
      (AlsaPlayer.workerPass Pass.good { player := Player.start AlsaPlayer.fresh, lastChunkTick := 0 }).ops ∧
    (0 : Int) < 480 ∧
    (480 * 4 : Int) ≤ ((AlsaPlayer.workerPass Pass.good
      { player := Player.start AlsaPlayer.fresh, lastChunkTick := 0 }).player.buffer_ : Int) :=
  have h := C30_pull_fits_buffer Pass.good { player := Player.start AlsaPlayer.fresh, lastChunkTick := 0 }
    480 (by decide) (by decide) (by decide) (by decide)
  ⟨by decide, h.1, h.2.1 (by decide)⟩

/-- C28: whatever the state in which `start(addr)` is entered, and whatever the
handler thread, the session and the caller do afterwards short of `exit()`, a
return of `start` delivers true, with `cmd` = NONE and `is_start` set.  A
`doStart` that fails to create the event descriptor returns false with `cmd`
still START, so the handler thread enters `doStart` again and `start` cannot
return in between. -/
theorem C28_start_returns_true (m0 m : Machine) (addr : String) (steps : List Step)
    (hne : Step.callExit ∉ steps)
    (hrun : m0.run (.callStart addr :: steps ++ [.startReturn]) = some m) :
    m.startResult = some true ∧ m.client.cmd = .NONE ∧ m.client.is_start = true ∧
    ∀ m2 : Machine, m2.handler = .doStart → m2.client.cmd = .START →
      ∃ m3, m2.run [.doStartLaunch (-1), .handler] = some m3 ∧ m3.handler = .doStart ∧
        m3.client.cmd = .START ∧ m3.doStartResult = some false ∧ m3.client.is_start = false ∧
        m3.step .startReturn = none := by
  refine ⟨?_, ?_, ?_, fun m2 h1 h2 => doStart_retry m2 h1 h2⟩
  all_goals
    simp only [Machine.run] at hrun
    cases hs : m0.step (.callStart addr) with
    | none => simp [hs] at hrun
    | some ma =>
      simp only [hs] at hrun
      obtain ⟨mb, hb, hret⟩ := run_snoc steps .startReturn ma m hrun
      have hidle : m0.caller = .idle ∧
          ma = { m0 with
            client := { m0.client with
              snapserver_ipaddr := addr, cmd := .START, ready := true, ready_sync := false,
              is_start := false }
            caller := .inStart } := by
        simp only [Machine.step] at hs
        split_ifs at hs with hc
        · exact ⟨hc, (Option.some.inj hs).symm⟩
      have hinv := run_keeps_start_invariant steps ma mb hne hb
        (by intro _; left; rw [hidle.2])
        (by intro _; rw [hidle.2])
        (by intro _; rw [hidle.2])
      simp only [Machine.step] at hret
      split_ifs at hret with hc
      have hm := (Option.some.inj hret).symm
      subst hm
      rcases hinv.1 hc.1 with h | h
      · rw [hc.2] at h; cases h
      · simp [h.2, hc.2]

/-- C28 (witness): from the initial state, `start` whose first `doStart` gets
no event descriptor and whose second gets descriptor 7 returns true. -/
theorem C28_start_returns_true_witness :
    ∃ m : Machine,
      Machine.run (.callStart "10.0.0.5" ::
        [.handler, .doStartLaunch (-1), .handler, .doStartLaunch 7] ++ [.startReturn]) {} = some m ∧
      m.startResult = some true ∧ m.doStartResult = some false :=
  have hrun : Machine.run (.callStart "10.0.0.5" ::
      [.handler, .doStartLaunch (-1), .handler, .doStartLaunch 7] ++ [.startReturn]) {} =
      some { client :=
               { ready := true, ready_sync := true, snapserver_ipaddr := "10.0.0.5", is_start := true, efd := 7 }
             handler := .running "10.0.0.5" 7
             opened := [7]
             startResult := some true
             doStartResult := some false } := by decide
  ⟨_, hrun, (C28_start_returns_true {} _ "10.0.0.5"
    [.handler, .doStartLaunch (-1), .handler, .doStartLaunch 7] (by decide) hrun).1, rfl⟩

/-- C21: an unsupported codec makes the handling of a CodecHeader raise "codec
not supported"; when an exception leaves the event loop of a session while no
command is pending, `doStart` returns false, the handler thread stays in
`handle` and goes back to waiting with `cmd` = NONE; a `start` issued
afterwards is accepted, launches a session for its address and returns true.
The handler thread leaves `handle` only in a step of its own taken with `cmd`
= EXIT. -/
theorem C21_session_exception_back_to_waiting (m : Machine) (host addr : String) (fd fd2 : Int)
    (hh : m.handler = .running host fd) (hcmd : m.client.cmd = .NONE) (hc : m.caller = .idle)
    (hfd2 : fd2 ≠ -1) :
    (∀ (env : Env) (c : Controller) (h : CodecHeader), h.codec ≠ "pcm" → h.codec ≠ "null" →
      ((Controller.onMessage env 0 (some (.CodecHeader h))).run c).outcome =
        .thrown (.codecNotSupported h.codec)) ∧
    (∃ m1, m.run [.sessionThrows, .handler] = some m1 ∧
      m1.doStartResult = some false ∧ m1.handler = .waiting ∧ m1.client.cmd = .NONE ∧
      ∃ m2, m1.run (Step.start addr fd2) = some m2 ∧
        m2.handler = .running addr fd2 ∧ m2.startResult = some true) ∧
    (∀ (ma mb : Machine) (s : Step), ma.step s = some mb → ma.handler ≠ .returned →
      mb.handler = .returned → s = .handler ∧ ma.client.cmd = .EXIT) := by
  refine ⟨?_, ?_, fun ma mb s h1 h2 h3 => returned_only_for_exit ma mb s h1 h2 h3⟩
  · intro env c h h1 h2
    rw [onMessage_outcome]
    simp only [Controller.dispatch, onCodecHeader_eq, if_neg h1, if_neg h2]
  · have hrun := session_throws_run m host fd hh hcmd
    refine ⟨_, hrun, rfl, rfl, hcmd, ?_⟩
    exact ⟨_, start_run _ addr fd2 rfl hc hfd2, rfl, rfl⟩

/-- C21 (witness): the session for 10.0.0.1 ends with an exception, the handler
thread waits again, and `start("10.0.0.5")` launches a new session. -/
theorem C21_session_exception_back_to_waiting_witness :
    ∃ m1, Machine.inSession.run [.sessionThrows, .handler] = some m1 ∧
      m1.doStartResult = some false ∧ m1.handler = .waiting ∧ m1.client.cmd = .NONE ∧
      ∃ m2, m1.run (Step.start "10.0.0.5" 8) = some m2 ∧
        m2.handler = .running "10.0.0.5" 8 ∧ m2.startResult = some true :=
  (C21_session_exception_back_to_waiting Machine.inSession "10.0.0.1" "10.0.0.5" 7 8
    (by decide) (by decide) (by decide) (by decide)).2.1

/-- C27 (evaluation): after `start("10.0.0.1")` on event descriptor 7 and a
`stop()` that ends the session, `doStart` has closed descriptor 7 (by
`::close` and again through the owner of the descriptor) and the handler thread
waits, yet `efd` is still 7; the next `stop()` writes the wake value to
descriptor 7 again, although no session runs and the descriptor is closed. -/
theorem C27_wake_written_to_closed_descriptor :
    Machine.idle.run (Step.start "10.0.0.1" 7 ++ [.callStop, .sessionWoken, .handler, .stopReturn]) =
      some Machine.afterSession ∧
    Machine.afterSession.handler = .waiting ∧
    Machine.afterSession.closed = [7, 7] ∧
    Machine.afterSession.client.efd = 7 ∧
    (Machine.afterSession.run Step.stop).map (fun m => (m.wakeWritten, m.closed, m.client.efd)) =
      some ([7, 7], [7, 7], 7) ∧
    (Machine.afterSession.step .callExit).map (fun m => m.wakeWritten) = some [7, 7] := by
  decide

/-- C25: in every state that the Controller reaches from its constructor
through completion handlers that return (message dispatch, time sync, timer,
Hello response, connect) and calls of `reconnect`, decoder, stream and player
are all present or all absent; and in any state a WireChunk or ServerSettings
message is handled without raising and leaves each of the three present or
absent as it was. -/
theorem C25_chain_all_or_none (env : Env) (settings : ClientSettings)
    (events : List ControllerEvent) (c : Controller)
    (hrun : Controller.after env events (Controller.new settings) = some c) :
    (c.decoder_.isSome = c.stream_.isSome ∧ c.stream_.isSome = c.player_.isSome) ∧
    ∀ (c0 : Controller) (msg : BaseMessage),
      msg.type = .kWireChunk ∨ msg.type = .kServerSettings →
      ((Controller.onMessage env 0 (some msg)).run c0).outcome = .returned () ∧
      ((Controller.onMessage env 0 (some msg)).run c0).ctl.decoder_.isSome = c0.decoder_.isSome ∧
      ((Controller.onMessage env 0 (some msg)).run c0).ctl.stream_.isSome = c0.stream_.isSome ∧
      ((Controller.onMessage env 0 (some msg)).run c0).ctl.player_.isSome = c0.player_.isSome :=
  ⟨after_keeps_chain env events _ c hrun ⟨rfl, rfl⟩,
    fun c0 msg hmsg => chunk_or_settings_keeps_presence env c0 msg hmsg⟩

/-- C25 (witness): after connect, Hello response, a "pcm" CodecHeader and a
chunk the three are present; a `reconnect` after that leaves none. -/
theorem C25_chain_all_or_none_witness :
    (∃ c, Controller.after Env.test
        [.connect 0, .helloResponse 0 (some ⟨1000, 0⟩),
          .message 0 (some (.CodecHeader CodecHeader.pcm)),
          .message 0 (some (.WireChunk (PcmChunk.sample 1)))] (Controller.new {}) = some c ∧
      c.decoder_.isSome = true ∧ c.stream_.isSome = true ∧ c.player_.isSome = true) ∧
    (Controller.after Env.test
        [.connect 0, .helloResponse 0 (some ⟨1000, 0⟩),
          .message 0 (some (.CodecHeader CodecHeader.pcm)), .reconnect] (Controller.new {})).map
      (fun c => (c.decoder_.isSome, c.stream_.isSome, c.player_.isSome)) = some (false, false, false) := by
  refine ⟨?_, by decide⟩
  have hd : (Controller.after Env.test
      [.connect 0, .helloResponse 0 (some ⟨1000, 0⟩),
        .message 0 (some (.CodecHeader CodecHeader.pcm)),
        .message 0 (some (.WireChunk (PcmChunk.sample 1)))] (Controller.new {})).map
      (fun c => c.decoder_.isSome) = some true := by decide
  cases hc : Controller.after Env.test
      [.connect 0, .helloResponse 0 (some ⟨1000, 0⟩),
        .message 0 (some (.CodecHeader CodecHeader.pcm)),
        .message 0 (some (.WireChunk (PcmChunk.sample 1)))] (Controller.new {}) with
  | none => rw [hc] at hd; simp at hd
  | some c =>
    rw [hc] at hd
    have hdec : c.decoder_.isSome = true := by simpa using hd
    have h := (C25_chain_all_or_none Env.test {} _ c hc).1
    exact ⟨c, rfl, hdec, h.1 ▸ hdec, h.2 ▸ h.1 ▸ hdec⟩

/-- C26 (evaluation): the connect completion asks for the next message in the
same handler that sends Hello, so a CodecHeader can be dispatched before any
server settings are stored; the buffering target is then computed through the
null `serverSettings_`.  With the Hello response handled first the same header
is handled without fault. -/
theorem C26_codec_header_before_settings :
    ((Controller.onConnect Env.test 0).run (Controller.new {})).trace =
      [.sendHello "00:11:22:33:44:55" "00:11:22:33:44:55" 1, .sendTimeRequest 50, .getNextMessage] ∧
    (Controller.after Env.test [.connect 0] (Controller.new {})).map (fun c => c.serverSettings_) =
      some none ∧
    (Controller.after Env.test [.connect 0] (Controller.new {})).map
        (fun c => ((Controller.onMessage Env.test 0 (some (.CodecHeader CodecHeader.pcm))).run c).outcome) =
      some .nullDeref ∧
    Controller.after Env.test [.connect 0, .message 0 (some (.CodecHeader CodecHeader.pcm))]
      (Controller.new {}) = none ∧
    (Controller.after Env.test [.connect 0, .helloResponse 0 (some ⟨1000, 0⟩)] (Controller.new {})).map
        (fun c => ((Controller.onMessage Env.test 0 (some (.CodecHeader CodecHeader.pcm))).run c).outcome) =
      some (.returned ()) := by
  decide

/-- C2 (counterexample): in the streaming state a ServerSettings message with
buffer 2147483647 ms and latency -1 ms makes the Controller pass 0 to
`setBufferLen`, while max(0, bufferMs - latency - settings.player.latency) is
2147483648: the first difference does not fit the `int` in which it is
computed. -/
theorem C2_counterexample :
    ((Controller.onMessage Env.test 0 (some (.ServerSettings ⟨2147483647, -1⟩))).run
      Controller.streaming).trace = [.setBufferLen 0, .getNextMessage] ∧
    max 0 ((2147483647 : Int) - (-1) - Controller.streaming.settings_.player.latency) = 2147483648 ∧
    Effect.setBufferLen 2147483648 ∉
      ((Controller.onMessage Env.test 0 (some (.ServerSettings ⟨2147483647, -1⟩))).run
        Controller.streaming).trace := by
  decide

/-- C29 (amended): for a buffer time of B microseconds that fits 32 bits and a
configured period count of at least 2, if any, `initAlsa` asks the device for
the period time `q` = B / (p if configured, else 4), limited to the maximum and
then to the minimum the device reports.  The device answers with the period
time `t` it has chosen, and the buffer time `initAlsa` then requests is
max(B, t * (p if configured, else 3)), provided the product fits 32 bits: it is
the value handed to the device and the one named when the device refuses it.
When `t` is the quotient itself the buffer time requested is B. -/
theorem C29_period_and_buffer_time (alsa : AlsaEnv) (p : AlsaPlayer) (f : snd_pcm_format_t) (q t : Nat)
    (hB0 : 0 ≤ p.buffer_time_.getD BUFFER_TIME) (hB : p.buffer_time_.getD BUFFER_TIME < 4294967296)
    (hp : ∀ n, p.periods_ = some n → 2 ≤ n ∧ n < 2147483648)
    (hmax : 0 ≤ alsa.snd_pcm_hw_params_get_period_time_max.1)
    (hmin : 0 ≤ alsa.snd_pcm_hw_params_get_period_time_min.1)
    (hq : q = max (min (p.buffer_time_.getD BUFFER_TIME / p.periods_.getD PERIODS).toNat
        alsa.snd_pcm_hw_params_get_period_time_max.2) alsa.snd_pcm_hw_params_get_period_time_min.2)
    (ht : t = (alsa.snd_pcm_hw_params_set_period_time_near q).2)
    (hfit : t * (p.periods_.getD MIN_PERIODS).toNat < 4294967296)
    (hopen : 0 ≤ alsa.snd_pcm_open p.settings_.pcm_device) (hany : 0 ≤ alsa.snd_pcm_hw_params_any)
    (hacc : 0 ≤ alsa.snd_pcm_hw_params_set_access)
    (hsome : AlsaPlayer.pcmFormat p.format.bits (alsa.sampleSize p.format) = some f)
    (hfmt : 0 ≤ alsa.snd_pcm_hw_params_set_format
      (AlsaPlayer.fallbackFormat (alsa.snd_pcm_hw_params_set_format f) f))
    (hch : 0 ≤ alsa.snd_pcm_hw_params_set_channels p.format.channels)
    (hrate : 0 ≤ (alsa.snd_pcm_hw_params_set_rate_near p.format.rate).1) :
    AlsaPlayer.periodTime alsa p = q ∧
    AlsaPlayer.bufferTime p t =
      max (p.buffer_time_.getD BUFFER_TIME).toNat (t * (p.periods_.getD MIN_PERIODS).toNat) ∧
    AlsaPlayer.bufferTime p (p.buffer_time_.getD BUFFER_TIME / p.periods_.getD PERIODS).toNat =
      (p.buffer_time_.getD BUFFER_TIME).toNat ∧
    (p.initAlsa alsa).2 =
      (if (alsa.snd_pcm_hw_params_set_period_time_near q).1 < 0 then
        some ⟨"Can't set period time: " ++
          alsa.snd_strerror (alsa.snd_pcm_hw_params_set_period_time_near q).1, 0⟩
      else if (alsa.snd_pcm_hw_params_set_buffer_time_near
          (max (p.buffer_time_.getD BUFFER_TIME).toNat (t * (p.periods_.getD MIN_PERIODS).toNat))).1 < 0 then
        some ⟨"Can't set buffer time to " ++
          toString (max (p.buffer_time_.getD BUFFER_TIME).toNat (t * (p.periods_.getD MIN_PERIODS).toNat)) ++
          " us : " ++ alsa.snd_strerror (alsa.snd_pcm_hw_params_set_buffer_time_near
            (max (p.buffer_time_.getD BUFFER_TIME).toNat
              (t * (p.periods_.getD MIN_PERIODS).toNat))).1, 0⟩
      else if alsa.snd_pcm_hw_params < 0 then
        some ⟨"Can't set hardware parameters: " ++ alsa.snd_strerror alsa.snd_pcm_hw_params, 0⟩
      else none) := by
  have hP : 0 < p.periods_.getD PERIODS := by
    cases hn : p.periods_ with
    | none => simp [PERIODS]
    | some n => have := (hp n hn).1; simp only [Option.getD_some]; omega
  have hM0 : 0 ≤ p.periods_.getD MIN_PERIODS := by
    cases hn : p.periods_ with
    | none => simp [MIN_PERIODS]
    | some n => have := (hp n hn).1; simp only [Option.getD_some]; omega
  have hM : p.periods_.getD MIN_PERIODS < 4294967296 := by
    cases hn : p.periods_ with
    | none => simp [MIN_PERIODS]
    | some n => have := (hp n hn).2; simp only [Option.getD_some]; omega
  have hle : (p.buffer_time_.getD BUFFER_TIME / p.periods_.getD PERIODS).toNat *
      (p.periods_.getD MIN_PERIODS).toNat ≤ (p.buffer_time_.getD BUFFER_TIME).toNat := by
    cases hn : p.periods_ with
    | none =>
      simp only [Option.getD_none, PERIODS, MIN_PERIODS]
      have h4 := quotient_periods_le (p.buffer_time_.getD BUFFER_TIME) 4 hB0 (by norm_num)
      have e4 : (4 : Int).toNat = 4 := rfl
      have e3 : (3 : Int).toNat = 3 := rfl
      rw [e4] at h4
      rw [e3]
      omega
    | some n =>
      simp only [Option.getD_some]
      exact quotient_periods_le _ n hB0 (by have := (hp n hn).1; omega)
  have hBn : (p.buffer_time_.getD BUFFER_TIME).toNat < 4294967296 := by omega
  have hper : AlsaPlayer.periodTime alsa p = q := by
    rw [hq]; exact periodTime_eq alsa p hB0 hB hP hmax hmin
  have hbuf := bufferTime_eq p t hB0 hB hM0 hM hfit
  refine ⟨hper, hbuf, ?_, ?_⟩
  · rw [bufferTime_eq p _ hB0 hB hM0 hM (lt_of_le_of_lt hle hBn)]
    exact max_eq_left hle
  · rw [initAlsa_times alsa p f hopen hany hacc hsome hfmt hch hrate, hper, ← ht, hbuf]

/-- C29 (witness): the default player asks for a period time of 20000 us; the
device chooses 30000 us and refuses the buffer time requested next, which the
exception names as 90000 us; a device that keeps 20000 us is asked for
80000 us and one that chooses 40000 us for 120000 us. -/
theorem C29_period_and_buffer_time_witness :
    AlsaPlayer.periodTime AlsaEnv.roundsPeriod AlsaPlayer.fresh = 20000 ∧
    AlsaPlayer.bufferTime AlsaPlayer.fresh 30000 = 90000 ∧
    (AlsaPlayer.fresh.initAlsa AlsaEnv.roundsPeriod).2 =
      some ⟨"Can't set buffer time to 90000 us : error", 0⟩ ∧
    (AlsaPlayer.fresh.initAlsa
      { AlsaEnv.roundsPeriod with snd_pcm_hw_params_set_period_time_near := fun t => (0, t) }).2 =
      some ⟨"Can't set buffer time to 80000 us : error", 0⟩ ∧
    (AlsaPlayer.fresh.initAlsa
      { AlsaEnv.roundsPeriod with snd_pcm_hw_params_set_period_time_near := fun _ => (0, 40000) }).2 =
      some ⟨"Can't set buffer time to 120000 us : error", 0⟩ :=
  have h := C29_period_and_buffer_time AlsaEnv.roundsPeriod AlsaPlayer.fresh .S16_LE 20000 30000
    (by decide) (by decide) (by intro n hn; simp [AlsaPlayer.fresh] at hn) (by decide) (by decide)
    (by decide) (by decide) (by decide) (by decide) (by decide) (by decide) (by decide) (by decide)
    (by decide) (by decide)
  ⟨h.1, h.2.1.trans (by decide), h.2.2.2.trans (by decide), by decide, by decide⟩

end SnapCast
